import Mathlib

/-!
# Packed optimizer states of the convex module (`state.hpp`)

A shallow embedding of `src/modules/convex/type/state.hpp`: the five state
classes `LMFIGDState`, `GLMIGDState`, `GLMCGState`, `GLMNewtonState` and
`MLPIGDState`, each a view over one `DOUBLE PRECISION` array.

Conventions of the embedding.

* Machine integers are `Nat`/`Int` with explicit reduction: an unsigned
  32-bit result is reduced modulo `2^32`, a signed 32-bit result is wrapped
  into `[-2^31, 2^31)`.
* A `double` is modelled by the rational number it denotes (`Double := ℚ`);
  NaN and the infinities are outside the model.  The functions embedded
  here only store, copy and convert values, with one exception:
  `computeRMSE` divides and takes a square root, and its result is given in
  the type `IEEEDouble`, which adds the infinities and NaN.
* The storage array `mStorage` is a `List Double`.  A reference or mapped
  vector into the array is the index of the element it points to.  Reading or
  writing an element outside the array is undefined behaviour in the source
  and is `none` in the embedding, as is the conversion of a `double` to an
  integer type that cannot hold it.
* `MLPIGDState` reads and writes its unit counts through an `int32_t` pointer
  into the array of doubles.  What a double holds in its two `int32_t` halves
  is a matter of the platform: the layout is a parameter (`Int32Layout`) of
  the functions that use the pointer, and `ieee754` is the layout of a
  little-endian IEEE-754 platform.
* The merge of partial states is not part of `state.hpp`; it is modelled from
  the specification, on states by value, after the embedding of the classes.
-/

namespace madlib.modules.convex

/-! ## Machine integers -/

/-- Conversion of an integer value to `uint32_t`: reduction modulo `2^32`. -/
def toUInt32 (x : Int) : Nat := (x % 2 ^ 32).toNat

/-- Result of a signed 32-bit (`int`, `int32_t`) operation whose mathematical
value is `x`: two's-complement wrap into `[-2^31, 2^31)`. -/
def toInt32 (x : Int) : Int := (x + 2 ^ 31) % 2 ^ 32 - 2 ^ 31

/-- Conversion of an integer value to `size_t` (array index): reduction
modulo `2^64`. -/
def toSizeT (x : Int) : Nat := (x % 2 ^ 64).toNat

/-! ## The storage array and references into it -/

/-- A `double`, modelled by the rational number it denotes. -/
abbrev Double := ℚ

/-- The array behind `Handle mStorage`. -/
abbrev Storage := List Double

/-- Modelled from the spec: the allocator
`allocateArray<double, dbal::AggregateContext, dbal::DoZero, dbal::ThrowBadAlloc>(n)`
is declared in the database connector, not among the sources.  The spec's
`allocate` "zero-fills": the result is an array of `n` elements, all `0.0`. -/
def allocateArray (n : Nat) : Storage := List.replicate n 0

/-- Read of `mStorage[i]`; undefined (`none`) outside the array. -/
def readAt (s : Storage) (i : Nat) : Option Double := s[i]?

/-- Write `mStorage[i] = v`; undefined (`none`) outside the array. -/
def writeAt (s : Storage) (i : Nat) (v : Double) : Option Storage :=
  if i < s.length then some (s.set i v) else none

/-- C++ conversion of a `double` to an integer: truncation toward zero. -/
def truncate (d : Double) : Int := d.num.tdiv d.den

/-- Modelled from the spec: the reference types
`HandleTraits<Handle>::ReferenceToUInt32`, `ReferenceToInt32` and
`ReferenceToUInt16` are declared in the database connector, not among the
sources.  The buffer is "a flat sequence of IEEE-754 double-precision values"
whose "position 0 is always a dimension field": an integer field is the double
that holds its value.  Reading converts that double to the integer type
(`static_cast`), which is undefined when the truncated value lies outside
`[lo, hi]`. -/
def castTo (lo hi : Int) (d : Double) : Option Int :=
  let t := truncate d
  if lo ≤ t ∧ t ≤ hi then some t else none

/-- Read of a `ReferenceToUInt32` bound to `mStorage[i]`. -/
def readUInt32 (s : Storage) (i : Nat) : Option Nat := do
  let d ← readAt s i
  let t ← castTo 0 (2 ^ 32 - 1) d
  pure t.toNat

/-- Read of a `ReferenceToUInt16` bound to `mStorage[i]`. -/
def readUInt16 (s : Storage) (i : Nat) : Option Nat := do
  let d ← readAt s i
  let t ← castTo 0 (2 ^ 16 - 1) d
  pure t.toNat

/-- Read of a `ReferenceToInt32` bound to `mStorage[i]`. -/
def readInt32 (s : Storage) (i : Nat) : Option Int := do
  let d ← readAt s i
  castTo (-2 ^ 31) (2 ^ 31 - 1) d

/-- Assignment of an integer through a reference bound to `mStorage[i]`: the
value is converted to `double` (exact for every 16- and 32-bit value, and for
the `uint64_t` value 0 that `reset` stores) and written. -/
def writeInteger (s : Storage) (i : Nat) (n : Int) : Option Storage :=
  writeAt s i (n : Double)

/-- A mapped column vector (`ColumnVectorTransparentHandleMap`) after
`rebind(&mStorage[data], size)`: index of its first element and its length. -/
structure ColumnVectorMap where
  data : Nat
  size : Nat
deriving DecidableEq, Inhabited

/-- A mapped matrix (`MatrixTransparentHandleMap`) after
`rebind(&mStorage[data], rows, cols)`. -/
structure MatrixMap where
  data : Nat
  rows : Int
  cols : Int
deriving DecidableEq, Inhabited

/-- Number of coefficients of a mapped matrix. -/
def MatrixMap.size (m : MatrixMap) : Nat := m.rows.toNat * m.cols.toNat

/-- Write `v` to the `n` elements starting at `off`, in ascending order. -/
def fillRange (s : Storage) (off n : Nat) (v : Double) : Option Storage :=
  (List.range n).foldlM (fun st k => writeAt st (off + k) v) s

/-- Copy the `n` elements starting at `src` to those starting at `dst`,
element by element in ascending order. -/
def copyRange (s : Storage) (dst src n : Nat) : Option Storage :=
  (List.range n).foldlM (fun st k => do
    let x ← readAt st (src + k)
    writeAt st (dst + k) x) s

/-- Eigen `v.setZero()` on a mapped vector. -/
def ColumnVectorMap.setZero (s : Storage) (v : ColumnVectorMap) : Option Storage :=
  fillRange s v.data v.size 0

/-- Eigen `v = ColumnVector::Zero(n)` on a mapped vector: a map cannot be resized, so
the sizes must agree; then every coefficient is set to zero. -/
def ColumnVectorMap.assignZero (s : Storage) (v : ColumnVectorMap) (n : Nat) :
    Option Storage :=
  if v.size = n then fillRange s v.data n 0 else none

/-- Eigen `v = w` between mapped vectors: the sizes must agree; then the
coefficients are copied. -/
def ColumnVectorMap.assign (s : Storage) (v w : ColumnVectorMap) : Option Storage :=
  if v.size = w.size then copyRange s v.data w.data w.size else none

/-- Eigen `m = Matrix::Zero(rows, cols)` on a mapped matrix: the dimensions must
agree; then every coefficient is set to zero. -/
def MatrixMap.assignZero (s : Storage) (m : MatrixMap) (rows cols : Int) :
    Option Storage :=
  if m.rows = rows ∧ m.cols = cols then fillRange s m.data m.size 0 else none

/-- Eigen `m = w` between mapped matrices: the dimensions must agree; then the
coefficients are copied. -/
def MatrixMap.assign (s : Storage) (m w : MatrixMap) : Option Storage :=
  if m.rows = w.rows ∧ m.cols = w.cols then copyRange s m.data w.data w.size else none

/-- The loop shared by the `operator=` of the five classes
(state.hpp:84-86, 231-233, 352-354, 481-483, 609-611):
`for (size_t i = 0; i < mStorage.size(); i++) mStorage[i] = inOtherState.mStorage[i];` -/
def assignStorage (mStorage other : Storage) : Option Storage :=
  (List.range mStorage.length).foldlM (fun st i => do
    let x ← readAt other i
    writeAt st i x) mStorage

/-! ## Model sizes (`model.hpp`) -/

/-- Modelled from the spec: `LMFModel<Handle>::arraySize` lives in `model.hpp`,
which is not among the sources.  The spec gives
`modelLen = (rowDim+colDim)*maxRank`, and so does the layout comment of
`LMFIGDState::rebind`.  The arguments are `int32_t`, the result is used as a
`uint32_t`. -/
def LMFModel.arraySize (inRowDim inColDim inMaxRank : Int) : Nat :=
  toUInt32 (toInt32 (toInt32 (inRowDim + inColDim) * inMaxRank))

/-- The sum `Σ_{k=1..N} n_{k-1} * n_k` over the integers (no reduction). -/
def MLPModel.modelLen (N : Nat) (n : Nat → Int) : Int :=
  ((List.range N).map (fun k => n k * n (k + 1))).sum

/-- Modelled from the spec: `MLPModel<Handle>::arraySize` lives in `model.hpp`,
which is not among the sources.  The spec gives
`modelLen = Σ n_{k-1}·n_k for k=1..N`, and so does the layout comment of
`MLPIGDState::rebind`.  The unit counts are read through a pointer
(`const int32_t *`), modelled as the function from index to value; the result
is a `uint32_t`. -/
def MLPModel.arraySize (inNumberOfStages : Nat) (inNumbersOfUnits : Nat → Int) : Nat :=
  toUInt32 (MLPModel.modelLen inNumberOfStages inNumbersOfUnits)

/-! ## `arraySize` of the five state classes -/

/-- Method `LMFIGDState::arraySize` (state.hpp:111-114):
`return 8 + 2 * LMFModel<Handle>::arraySize(inRowDim, inColDim, inMaxRank);`
in `uint32_t` arithmetic. -/
def LMFIGDState.arraySize (inRowDim inColDim inMaxRank : Int) : Nat :=
  (8 + 2 * LMFModel.arraySize inRowDim inColDim inMaxRank) % 2 ^ 32

/-- Method `GLMIGDState::arraySize` (state.hpp:248-250): `return 4 + 3 * inDimension;`
with `inDimension` a `uint32_t`. -/
def GLMIGDState.arraySize (inDimension : Nat) : Nat :=
  (4 + 3 * inDimension) % 2 ^ 32

/-- Method `GLMCGState::arraySize` (state.hpp:368-370): `return 5 + 4 * inDimension;`
with `inDimension` a `uint32_t`. -/
def GLMCGState.arraySize (inDimension : Nat) : Nat :=
  (5 + 4 * inDimension) % 2 ^ 32

/-- Method `GLMNewtonState::arraySize` (state.hpp:498-500):
`return 3 + (inDimension + 2) * inDimension;` where `inDimension` is a
`uint16_t`, promoted to `int`; the `int` result is converted to `uint32_t`.
For `inDimension ≥ 46340` the `int` product overflows, which the language
leaves undefined; the definition then gives the two's-complement value, an
assumption about the platform.  What is proved of the size and of `allocate`
as the behaviour of the code is stated for `3 + (dim+2)*dim < 2^31`, that is
`dim ≤ 46339`, where no overflow occurs. -/
def GLMNewtonState.arraySize (inDimension : Nat) : Nat :=
  toUInt32 (toInt32 (3 + toInt32 (toInt32 ((inDimension : Int) + 2) * (inDimension : Int))))

/-- Method `MLPIGDState::arraySize` (state.hpp:625-637): the sum of the seven field
sizes, `inNumberOfStages` a `uint16_t` promoted to `int`, the sum carried out
in `uint32_t` once `sizeOfModel` joins it. -/
def MLPIGDState.arraySize (inNumberOfStages : Nat) (inNumbersOfUnits : Nat → Int) : Nat :=
  let sizeOfModel := MLPModel.arraySize inNumberOfStages inNumbersOfUnits
  (1                              -- numberOfStages = N
    + (inNumberOfStages + 1)      -- numbersOfUnits: size is (N + 1)
    + 1                           -- stepsize
    + sizeOfModel                 -- model
    + 1                           -- numRows
    + 1                           -- loss
    + sizeOfModel) % 2 ^ 32       -- incrModel

/-! ## `GLMIGDState` (state.hpp:193-296) -/

/-- Struct `GLMIGDState::TaskState`: each field is the index it is bound to. -/
structure GLMIGDState.TaskState where
  dimension : Nat
  stepsize : Nat
  model : ColumnVectorMap
deriving DecidableEq, Inhabited

/-- Struct `GLMIGDState::AlgoState`. -/
structure GLMIGDState.AlgoState where
  numRows : Nat
  loss : Nat
  gradient : ColumnVectorMap
  incrModel : ColumnVectorMap
deriving DecidableEq, Inhabited

/-- An object of class `GLMIGDState`: the storage and the bound view. -/
structure GLMIGDState where
  mStorage : Storage
  task : GLMIGDState.TaskState
  algo : GLMIGDState.AlgoState
deriving DecidableEq, Inhabited

/-- Method `GLMIGDState::rebind` (state.hpp:268-277).  `task.dimension` is a
`uint32_t`, so the index expressions are `uint32_t` arithmetic. -/
def GLMIGDState.rebind (self : GLMIGDState) : Option GLMIGDState := do
  let dimension := 0
  let stepsize := 1
  let d ← readUInt32 self.mStorage dimension
  let model : ColumnVectorMap := ⟨2, d⟩
  let numRows := (2 + d) % 2 ^ 32
  let loss := (3 + d) % 2 ^ 32
  let gradient : ColumnVectorMap := ⟨(4 + d) % 2 ^ 32, d⟩
  let incrModel : ColumnVectorMap := ⟨(4 + d * 2 % 2 ^ 32) % 2 ^ 32, d⟩
  pure { mStorage := self.mStorage
         task := { dimension := dimension, stepsize := stepsize, model := model }
         algo := { numRows := numRows, loss := loss, gradient := gradient,
                   incrModel := incrModel } }

/-- Constructor `GLMIGDState(const AnyType &inArray)` (state.hpp:199-201). -/
def GLMIGDState.ofArray (inArray : Storage) : Option GLMIGDState :=
  GLMIGDState.rebind { mStorage := inArray, task := default, algo := default }

/-- Method `GLMIGDState::allocate` (state.hpp:216-224). -/
def GLMIGDState.allocate (self : GLMIGDState) (inDimension : Nat) :
    Option GLMIGDState := do
  let self := { self with mStorage := allocateArray (GLMIGDState.arraySize inDimension) }
  let self := { self with task := { self.task with dimension := 0 } }
  let st ← writeInteger self.mStorage self.task.dimension inDimension
  GLMIGDState.rebind { self with mStorage := st }

/-- Operator `GLMIGDState::operator=` (state.hpp:229-236). -/
def GLMIGDState.assign (self inOtherState : GLMIGDState) : Option GLMIGDState := do
  let st ← assignStorage self.mStorage inOtherState.mStorage
  pure { self with mStorage := st }

/-- Method `GLMIGDState::reset` (state.hpp:241-246). -/
def GLMIGDState.reset (self : GLMIGDState) : Option GLMIGDState := do
  let st ← writeInteger self.mStorage self.algo.numRows 0
  let st ← writeAt st self.algo.loss 0
  let st ← self.algo.gradient.setZero st
  let st ← self.algo.incrModel.assign st self.task.model
  pure { self with mStorage := st }

/-! ## `GLMCGState` (state.hpp:314-424) -/

/-- Struct `GLMCGState::TaskState`. -/
structure GLMCGState.TaskState where
  dimension : Nat
  iteration : Nat
  stepsize : Nat
  model : ColumnVectorMap
  direction : ColumnVectorMap
  gradient : ColumnVectorMap
deriving DecidableEq, Inhabited

/-- Struct `GLMCGState::AlgoState`. -/
structure GLMCGState.AlgoState where
  numRows : Nat
  loss : Nat
  incrGradient : ColumnVectorMap
deriving DecidableEq, Inhabited

/-- An object of class `GLMCGState`. -/
structure GLMCGState where
  mStorage : Storage
  task : GLMCGState.TaskState
  algo : GLMCGState.AlgoState
deriving DecidableEq, Inhabited

/-- Method `GLMCGState::rebind` (state.hpp:390-402), in `uint32_t` arithmetic. -/
def GLMCGState.rebind (self : GLMCGState) : Option GLMCGState := do
  let dimension := 0
  let iteration := 1
  let stepsize := 2
  let d ← readUInt32 self.mStorage dimension
  let model : ColumnVectorMap := ⟨3, d⟩
  let direction : ColumnVectorMap := ⟨(3 + d) % 2 ^ 32, d⟩
  let gradient : ColumnVectorMap := ⟨(3 + 2 * d % 2 ^ 32) % 2 ^ 32, d⟩
  let numRows := (3 + 3 * d % 2 ^ 32) % 2 ^ 32
  let loss := (4 + 3 * d % 2 ^ 32) % 2 ^ 32
  let incrGradient : ColumnVectorMap := ⟨(5 + 3 * d % 2 ^ 32) % 2 ^ 32, d⟩
  pure { mStorage := self.mStorage
         task := { dimension := dimension, iteration := iteration, stepsize := stepsize,
                   model := model, direction := direction, gradient := gradient }
         algo := { numRows := numRows, loss := loss, incrGradient := incrGradient } }

/-- Constructor `GLMCGState(const AnyType &inArray)` (state.hpp:320-322). -/
def GLMCGState.ofArray (inArray : Storage) : Option GLMCGState :=
  GLMCGState.rebind { mStorage := inArray, task := default, algo := default }

/-- Method `GLMCGState::allocate` (state.hpp:337-345). -/
def GLMCGState.allocate (self : GLMCGState) (inDimension : Nat) : Option GLMCGState := do
  let self := { self with mStorage := allocateArray (GLMCGState.arraySize inDimension) }
  let self := { self with task := { self.task with dimension := 0 } }
  let st ← writeInteger self.mStorage self.task.dimension inDimension
  GLMCGState.rebind { self with mStorage := st }

/-- Operator `GLMCGState::operator=` (state.hpp:350-357). -/
def GLMCGState.assign (self inOtherState : GLMCGState) : Option GLMCGState := do
  let st ← assignStorage self.mStorage inOtherState.mStorage
  pure { self with mStorage := st }

/-- Method `GLMCGState::reset` (state.hpp:362-366). -/
def GLMCGState.reset (self : GLMCGState) : Option GLMCGState := do
  let st ← writeInteger self.mStorage self.algo.numRows 0
  let st ← writeAt st self.algo.loss 0
  let d ← readUInt32 st self.task.dimension
  let st ← self.algo.incrGradient.assignZero st d
  pure { self with mStorage := st }

/-! ## `GLMNewtonState` (state.hpp:443-542) -/

/-- Struct `GLMNewtonState::TaskState`. -/
structure GLMNewtonState.TaskState where
  dimension : Nat
  model : ColumnVectorMap
deriving DecidableEq, Inhabited

/-- Struct `GLMNewtonState::AlgoState`. -/
structure GLMNewtonState.AlgoState where
  numRows : Nat
  loss : Nat
  gradient : ColumnVectorMap
  hessian : MatrixMap
deriving DecidableEq, Inhabited

/-- An object of class `GLMNewtonState`. -/
structure GLMNewtonState where
  mStorage : Storage
  task : GLMNewtonState.TaskState
  algo : GLMNewtonState.AlgoState
deriving DecidableEq, Inhabited

/-- Method `GLMNewtonState::rebind` (state.hpp:517-526).  `task.dimension` is a
`uint16_t`, promoted to `int`: the index expressions cannot overflow. -/
def GLMNewtonState.rebind (self : GLMNewtonState) : Option GLMNewtonState := do
  let dimension := 0
  let d ← readUInt16 self.mStorage dimension
  let model : ColumnVectorMap := ⟨1, d⟩
  let numRows := 1 + d
  let loss := 2 + d
  let gradient : ColumnVectorMap := ⟨3 + d, d⟩
  let hessian : MatrixMap := ⟨3 + 2 * d, d, d⟩
  pure { mStorage := self.mStorage
         task := { dimension := dimension, model := model }
         algo := { numRows := numRows, loss := loss, gradient := gradient,
                   hessian := hessian } }

/-- Constructor `GLMNewtonState(const AnyType &inArray)` (state.hpp:449-451). -/
def GLMNewtonState.ofArray (inArray : Storage) : Option GLMNewtonState :=
  GLMNewtonState.rebind { mStorage := inArray, task := default, algo := default }

/-- Method `GLMNewtonState::allocate` (state.hpp:466-474); `inDimension` is a
`uint16_t`. -/
def GLMNewtonState.allocate (self : GLMNewtonState) (inDimension : Nat) :
    Option GLMNewtonState := do
  let self := { self with mStorage := allocateArray (GLMNewtonState.arraySize inDimension) }
  let self := { self with task := { self.task with dimension := 0 } }
  let st ← writeInteger self.mStorage self.task.dimension inDimension
  GLMNewtonState.rebind { self with mStorage := st }

/-- Operator `GLMNewtonState::operator=` (state.hpp:480-486). -/
def GLMNewtonState.assign (self inOtherState : GLMNewtonState) :
    Option GLMNewtonState := do
  let st ← assignStorage self.mStorage inOtherState.mStorage
  pure { self with mStorage := st }

/-- Method `GLMNewtonState::reset` (state.hpp:491-496). -/
def GLMNewtonState.reset (self : GLMNewtonState) : Option GLMNewtonState := do
  let st ← writeInteger self.mStorage self.algo.numRows 0
  let st ← writeAt st self.algo.loss 0
  let d ← readUInt16 st self.task.dimension
  let st ← self.algo.gradient.assignZero st d
  let d ← readUInt16 st self.task.dimension
  let st ← self.algo.hessian.assignZero st d d
  pure { self with mStorage := st }

/-! ## `LMFIGDState` (state.hpp:38-175) -/

/-- The two mapped matrices of an `LMFModel`, as `LMFIGDState::rebind` binds
them (`model.matrixU`, `model.matrixV`). -/
structure LMFModel where
  matrixU : MatrixMap
  matrixV : MatrixMap
deriving DecidableEq, Inhabited

/-- Modelled from the spec: `LMFModel::operator=` lives in `model.hpp`, which
is not among the sources.  The spec's `reset` "reseeds incrModel from current
TaskState.model", the model being "a pair of matrices": `matrixU` and
`matrixV` are each assigned from the other model. -/
def LMFModel.assign (s : Storage) (self other : LMFModel) : Option Storage := do
  let st ← self.matrixU.assign s other.matrixU
  self.matrixV.assign st other.matrixV

/-- Struct `LMFIGDState::TaskState`. -/
structure LMFIGDState.TaskState where
  rowDim : Nat
  colDim : Nat
  maxRank : Nat
  stepsize : Nat
  scaleFactor : Nat
  model : LMFModel
  RMSE : Nat
deriving DecidableEq, Inhabited

/-- Struct `LMFIGDState::AlgoState`. -/
structure LMFIGDState.AlgoState where
  numRows : Nat
  loss : Nat
  incrModel : LMFModel
deriving DecidableEq, Inhabited

/-- An object of class `LMFIGDState`. -/
structure LMFIGDState where
  mStorage : Storage
  task : LMFIGDState.TaskState
  algo : LMFIGDState.AlgoState
deriving DecidableEq, Inhabited

/-- Method `LMFIGDState::rebind` (state.hpp:136-155).  `task.rowDim`, `task.colDim`
and `task.maxRank` are `int32_t`, `modelLength` is a `uint32_t`; an index is
converted to `size_t`. -/
def LMFIGDState.rebind (self : LMFIGDState) : Option LMFIGDState := do
  let rowDim := 0
  let colDim := 1
  let maxRank := 2
  let stepsize := 3
  let scaleFactor := 4
  let r ← readInt32 self.mStorage rowDim
  let c ← readInt32 self.mStorage colDim
  let m ← readInt32 self.mStorage maxRank
  let matrixU : MatrixMap := ⟨5, r, m⟩
  let matrixV : MatrixMap := ⟨toSizeT (toInt32 (5 + toInt32 (r * m))), c, m⟩
  let modelLength := LMFModel.arraySize r c m
  let RMSE := (5 + modelLength) % 2 ^ 32
  let numRows := (6 + modelLength) % 2 ^ 32
  let loss := (7 + modelLength) % 2 ^ 32
  let incrU : MatrixMap := ⟨(8 + modelLength) % 2 ^ 32, r, m⟩
  let incrV : MatrixMap :=
    ⟨((8 + modelLength) % 2 ^ 32 + toUInt32 (toInt32 (r * m))) % 2 ^ 32, c, m⟩
  pure { mStorage := self.mStorage
         task := { rowDim := rowDim, colDim := colDim, maxRank := maxRank,
                   stepsize := stepsize, scaleFactor := scaleFactor,
                   model := ⟨matrixU, matrixV⟩, RMSE := RMSE }
         algo := { numRows := numRows, loss := loss, incrModel := ⟨incrU, incrV⟩ } }

/-- Constructor `LMFIGDState(const AnyType &inArray)` (state.hpp:44-46). -/
def LMFIGDState.ofArray (inArray : Storage) : Option LMFIGDState :=
  LMFIGDState.rebind { mStorage := inArray, task := default, algo := default }

/-- Method `LMFIGDState::allocate` (state.hpp:61-77). -/
def LMFIGDState.allocate (self : LMFIGDState) (inRowDim inColDim inMaxRank : Int) :
    Option LMFIGDState := do
  let self := { self with
    mStorage := allocateArray (LMFIGDState.arraySize inRowDim inColDim inMaxRank) }
  let self ← self.rebind
  let st ← writeInteger self.mStorage self.task.rowDim inRowDim
  let st ← writeInteger st self.task.colDim inColDim
  let st ← writeInteger st self.task.maxRank inMaxRank
  LMFIGDState.rebind { self with mStorage := st }

/-- Operator `LMFIGDState::operator=` (state.hpp:82-89). -/
def LMFIGDState.assign (self inOtherState : LMFIGDState) : Option LMFIGDState := do
  let st ← assignStorage self.mStorage inOtherState.mStorage
  pure { self with mStorage := st }

/-- Method `LMFIGDState::reset` (state.hpp:94-98). -/
def LMFIGDState.reset (self : LMFIGDState) : Option LMFIGDState := do
  let st ← writeInteger self.mStorage self.algo.numRows 0
  let st ← writeAt st self.algo.loss 0
  let st ← LMFModel.assign st self.algo.incrModel self.task.model
  pure { self with mStorage := st }

/-! ## The object representation of a double -/

/-- Layout of a double in memory as two `int32_t` objects.  `MLPIGDState` keeps
its unit counts behind `reinterpret_cast<dimension_pointer_type>(&mStorage[1])`,
an `int32_t` pointer into the array of doubles, so every double it touches is
read and written as two `int32_t` halves, half 0 at the lower address.  How
the bytes of a double are laid out is fixed by the platform, not by the
source: it is a parameter of the embedding.  `ieee754` below is the layout of
the platforms the library is built for. -/
structure Int32Layout where
  /-- the `int32_t` value found in half `h` of the double `d` -/
  get : Double → Nat → Int
  /-- the double that results when half `h` of `d` is overwritten with the
  `int32_t` value `v`; `none` when the result is an infinity or a NaN, which
  the storage of the model cannot hold -/
  set : Double → Nat → Int → Option Double

/-- Read of `p[k]` for the `int32_t` pointer `p` that points to element `p` of
the array: half `k % 2` of element `p + k / 2`; undefined (`none`) outside the
array. -/
def readInt32At (L : Int32Layout) (s : Storage) (p k : Nat) : Option Int := do
  let d ← readAt s (p + k / 2)
  pure (L.get d (k % 2))

/-- Write `p[k] = v` through the same pointer: half `k % 2` of element
`p + k / 2` is overwritten. -/
def writeInt32At (L : Int32Layout) (s : Storage) (p k : Nat) (v : Int) : Option Storage := do
  let d ← readAt s (p + k / 2)
  let d' ← L.set d (k % 2) v
  writeAt s (p + k / 2) d'

/-- What a zero double becomes when its half 0 is overwritten with `a`. -/
def Int32Layout.low (L : Int32Layout) (a : Int) : Double :=
  (L.set 0 0 a).getD 0

/-- What a zero double becomes when its half 0 is overwritten with `a` and
then its half 1 with `b`. -/
def Int32Layout.pair (L : Int32Layout) (a b : Int) : Double :=
  (L.set (L.low a) 1 b).getD 0

/-- The layout stores the unit counts `n 0, ..., n N`: written in ascending
order into zeroed doubles, two to a double, each store yields a double and
the counts are found in its halves afterwards. -/
def Int32Layout.Stores (L : Int32Layout) (N : Nat) (n : Nat → Int) : Prop :=
  (∀ j, 2 * j ≤ N →
    (L.set 0 0 (n (2 * j))).isSome ∧ L.get (L.low (n (2 * j))) 0 = n (2 * j)) ∧
  (∀ j, 2 * j + 1 ≤ N →
    (L.set (L.low (n (2 * j))) 1 (n (2 * j + 1))).isSome ∧
    L.get (L.pair (n (2 * j)) (n (2 * j + 1))) 0 = n (2 * j) ∧
    L.get (L.pair (n (2 * j)) (n (2 * j + 1))) 1 = n (2 * j + 1))

/-- Position of the highest set bit of `x`, for `0 < x < 2^4096`, by binary
search. -/
def floorLog2 (x : Nat) : Nat :=
  [2048, 1024, 512, 256, 128, 64, 32, 16, 8, 4, 2, 1].foldl
    (fun acc p => if x >>> (acc + p) = 0 then acc else acc + p) 0

/-- The 64-bit pattern of a finite double in IEEE-754 binary64.  Every finite
double is a multiple `x * 2^-1074` with `x` a natural number; `x < 2^52` is
zero or subnormal and the pattern is `x` itself, otherwise the exponent field
is `floorLog2 x - 51` and the fraction is what follows the leading bit.  The
model has no negative zero. -/
def ieeeBits (d : Double) : Nat :=
  let x := d.num.natAbs * (1 <<< 1074) / d.den
  let mag :=
    if x < 1 <<< 52 then x
    else (floorLog2 x - 51) * (1 <<< 52) + ((x >>> (floorLog2 x - 52)) - (1 <<< 52))
  if d < 0 then (1 <<< 63) + mag else mag

/-- The finite double of a 64-bit pattern in IEEE-754 binary64; `none` for the
patterns of the infinities and NaN (exponent field 2047). -/
def ieeeValue (b : Nat) : Option Double :=
  let e := (b >>> 52) % 2048
  let m := b % (1 <<< 52)
  if e = 2047 then none
  else
    let x : Nat := if e = 0 then m else ((1 <<< 52) + m) <<< (e - 1)
    some (if (b >>> 63) % 2 = 1 then mkRat (-(x : Int)) (1 <<< 1074)
      else mkRat x (1 <<< 1074))

/-- The layout of a double on a little-endian IEEE-754 platform: half 0 is the
low word of the pattern, half 1 the high word. -/
def ieee754 : Int32Layout :=
  { get := fun d h =>
      toInt32 (if h = 0 then ieeeBits d % 2 ^ 32 else ieeeBits d / 2 ^ 32)
    set := fun d h v =>
      ieeeValue (if h = 0 then ieeeBits d / 2 ^ 32 * 2 ^ 32 + toUInt32 v
        else toUInt32 v * 2 ^ 32 + ieeeBits d % 2 ^ 32) }

/-! ## `MLPIGDState` (state.hpp:559-691) -/

/-- Modelled from the spec: `MLPModel` lives in `model.hpp`, which is not among
the sources.  The spec calls the model "a structured list of per-layer weight
matrices" of `modelLen = Σ n_{k-1}·n_k` entries in all; the view keeps where
the entries start and how many they are. -/
structure MLPModel where
  data : Nat
  size : Nat
deriving DecidableEq, Inhabited

/-- Modelled from the spec: `MLPModel::rebind(data, numberOfStages,
numbersOfUnits)` lives in `model.hpp`.  It binds the model at `data` and
returns its size, computed from the unit counts `n_0..n_N` it reads through
the `int32_t` pointer `numbersOfUnits`, which points to element
`numbersOfUnits` of the array.  With no stage the sum is empty and no count is
read. -/
def MLPModel.rebind (L : Int32Layout) (s : Storage) (data numberOfStages numbersOfUnits : Nat) :
    Option (MLPModel × Nat) :=
  if numberOfStages = 0 ∨
      ∀ k, k ≤ numberOfStages → (readInt32At L s numbersOfUnits k).isSome then
    let size := MLPModel.arraySize numberOfStages
      (fun k => (readInt32At L s numbersOfUnits k).getD 0)
    some (⟨data, size⟩, size)
  else none

/-- Modelled from the spec: `MLPModel::operator=` lives in `model.hpp`.  The
spec's `reset` "reseeds incrModel from current TaskState.model": the entries
are copied, the two models having the same shape. -/
def MLPModel.assign (s : Storage) (self other : MLPModel) : Option Storage :=
  if self.size = other.size then copyRange s self.data other.data other.size else none

/-- Struct `MLPIGDState::TaskState`; `numbersOfUnits` is the element the `int32_t`
pointer points to. -/
structure MLPIGDState.TaskState where
  numberOfStages : Nat
  numbersOfUnits : Nat
  stepsize : Nat
  model : MLPModel
deriving DecidableEq, Inhabited

/-- Struct `MLPIGDState::AlgoState`. -/
structure MLPIGDState.AlgoState where
  numRows : Nat
  loss : Nat
  incrModel : MLPModel
deriving DecidableEq, Inhabited

/-- An object of class `MLPIGDState`. -/
structure MLPIGDState where
  mStorage : Storage
  task : MLPIGDState.TaskState
  algo : MLPIGDState.AlgoState
deriving DecidableEq, Inhabited

/-- Method `MLPIGDState::rebind` (state.hpp:656-669).  `N` is a `size_t`: the index
expressions cannot overflow.  `task.stepsize` and `task.model` are both bound
to `&mStorage[N + 2]`. -/
def MLPIGDState.rebind (L : Int32Layout) (self : MLPIGDState) : Option MLPIGDState := do
  let numberOfStages := 0
  let N ← readUInt16 self.mStorage numberOfStages
  let numbersOfUnits := 1
  let stepsize := N + 2
  let (model, sizeOfModel) ← MLPModel.rebind L self.mStorage (N + 2) N numbersOfUnits
  let numRows := N + 3 + sizeOfModel
  let loss := N + 4 + sizeOfModel
  let (incrModel, _) ←
    MLPModel.rebind L self.mStorage (N + 5 + sizeOfModel) N numbersOfUnits
  pure { mStorage := self.mStorage
         task := { numberOfStages := numberOfStages, numbersOfUnits := numbersOfUnits,
                   stepsize := stepsize, model := model }
         algo := { numRows := numRows, loss := loss, incrModel := incrModel } }

/-- Constructor `MLPIGDState(const AnyType &inArray)` (state.hpp:565-567). -/
def MLPIGDState.ofArray (L : Int32Layout) (inArray : Storage) : Option MLPIGDState :=
  MLPIGDState.rebind L { mStorage := inArray, task := default, algo := default }

/-- The loop of `MLPIGDState::allocate` (state.hpp:596-598) for `N < 65535`:
`task.numbersOfUnits[k] = inNumbersOfUnits[k]` for `k = 0, ..., N`, each an
`int32_t` store through the pointer `p`. -/
def MLPIGDState.writeUnits (L : Int32Layout) (s : Storage) (p N : Nat)
    (inNumbersOfUnits : Nat → Int) : Option Storage :=
  (List.range (N + 1)).foldlM (fun st k => writeInt32At L st p k (inNumbersOfUnits k)) s

/-- Method `MLPIGDState::allocate` (state.hpp:582-602).  The loop counter `k` is a
`uint16_t` and the loop runs while `k <= N`: for `N = 65535` the condition
never fails, the loop does not end and `allocate` yields no state (`none`). -/
def MLPIGDState.allocate (L : Int32Layout) (self : MLPIGDState) (inNumberOfStages : Nat)
    (inNumbersOfUnits : Nat → Int) : Option MLPIGDState := do
  let self := { self with
    mStorage := allocateArray (MLPIGDState.arraySize inNumberOfStages inNumbersOfUnits) }
  let self ← self.rebind L
  let st ← writeInteger self.mStorage self.task.numberOfStages inNumberOfStages
  let N := inNumberOfStages
  if N = 65535 then none
  else
    let st ← MLPIGDState.writeUnits L st self.task.numbersOfUnits N inNumbersOfUnits
    MLPIGDState.rebind L { self with mStorage := st }

/-- Operator `MLPIGDState::operator=` (state.hpp:607-614). -/
def MLPIGDState.assign (self inOtherState : MLPIGDState) : Option MLPIGDState := do
  let st ← assignStorage self.mStorage inOtherState.mStorage
  pure { self with mStorage := st }

/-- Method `MLPIGDState::reset` (state.hpp:619-623). -/
def MLPIGDState.reset (self : MLPIGDState) : Option MLPIGDState := do
  let st ← writeInteger self.mStorage self.algo.numRows 0
  let st ← writeAt st self.algo.loss 0
  let st ← MLPModel.assign st self.algo.incrModel self.task.model
  pure { self with mStorage := st }

/-! ## Example states -/

/-- A `GLMIGDState` of dimension 2 in the middle of an iteration:
stepsize 3, model `(5, 6)`, 7 rows seen, loss 8, gradient `(9, 1)`,
incrModel `(2, 4)`. -/
def exampleGLMIGD : GLMIGDState :=
  { mStorage := [2, 3, 5, 6, 7, 8, 9, 1, 2, 4]
    task := ⟨0, 1, ⟨2, 2⟩⟩
    algo := ⟨4, 5, ⟨6, 2⟩, ⟨8, 2⟩⟩ }

/-- A `GLMCGState` of dimension 1 in the middle of an iteration. -/
def exampleGLMCG : GLMCGState :=
  { mStorage := [1, 3, 5, 5, 6, 7, 9, 8, 4]
    task := ⟨0, 1, 2, ⟨3, 1⟩, ⟨4, 1⟩, ⟨5, 1⟩⟩
    algo := ⟨6, 7, ⟨8, 1⟩⟩ }

/-- A `GLMNewtonState` of dimension 2 in the middle of an iteration. -/
def exampleGLMNewton : GLMNewtonState :=
  { mStorage := [2, 5, 6, 7, 8, 1, 1, 2, 0, 0, 2]
    task := ⟨0, ⟨1, 2⟩⟩
    algo := ⟨3, 4, ⟨5, 2⟩, ⟨7, 2, 2⟩⟩ }

/-- An `LMFIGDState` with `rowDim = 2`, `colDim = 1`, `maxRank = 1` in the
middle of an iteration. -/
def exampleLMFIGD : LMFIGDState :=
  { mStorage := [2, 1, 1, 3, 4, 5, 6, 7, 9, 8, 2, 1, 1, 1]
    task := ⟨0, 1, 2, 3, 4, ⟨⟨5, 2, 1⟩, ⟨7, 1, 1⟩⟩, 8⟩
    algo := ⟨9, 10, ⟨⟨11, 2, 1⟩, ⟨13, 1, 1⟩⟩⟩ }

/-- The double whose halves hold the `int32_t` values 2 and 1 on a little-endian
IEEE-754 platform: the subnormal with pattern `1 * 2^32 + 2`. -/
def unitCounts21 : Double := mkRat 4294967298 (1 <<< 1074)

/-- An `MLPIGDState` with one stage and unit counts `2, 1` in the middle of an
iteration, on a little-endian IEEE-754 platform.  Both counts lie in element
1; element 2 is not used.  The model has 2 coefficients and is bound, as is
`stepsize`, at element 3; element 5 belongs to no field. -/
def exampleMLPIGD : MLPIGDState :=
  { mStorage := [1, unitCounts21, 9, 3, 4, 0, 7, 8, 5, 5]
    task := ⟨0, 1, 3, ⟨3, 2⟩⟩
    algo := ⟨6, 7, ⟨8, 2⟩⟩ }

/-! ## `LMFIGDState::computeRMSE` (state.hpp:107-109) -/

/-- Read of a `ReferenceToUInt64` bound to `mStorage[i]`. -/
def readUInt64 (s : Storage) (i : Nat) : Option Nat := do
  let d ← readAt s i
  let t ← castTo 0 (2 ^ 64 - 1) d
  pure t.toNat

/-- The value of a `double` expression, the values that are not numbers of the
model included: `sqrt(loss / 0.0)` is an infinity or a NaN. -/
inductive IEEEDouble where
  | finite (q : Double)
  | posInf
  | negInf
  | nan
deriving DecidableEq, Inhabited

/-- IEEE division `x / static_cast<double>(n)` of a `double` by a `uint64_t` count.
For `n ≠ 0` the quotient is finite and is modelled by the exact rational
(rounding is outside the model, as is the rounding of counts above `2^53`);
for `n = 0` the divisor is `+0.0` and the result is an infinity with the sign
of `x`, or NaN for `x = 0`. -/
def IEEEDouble.divByCount (x : Double) (n : Nat) : IEEEDouble :=
  if n = 0 then
    if 0 < x then IEEEDouble.posInf
    else if x < 0 then IEEEDouble.negInf
    else IEEEDouble.nan
  else IEEEDouble.finite (x / (n : Double))

/-- IEEE `sqrt`.  The function `sqrt` of the C library is not among the
sources: on the finite non-negative doubles it is the parameter `sqrt`; a
negative argument gives NaN, `+∞` gives `+∞`. -/
def IEEEDouble.sqrt (sqrt : Double → Double) : IEEEDouble → IEEEDouble
  | IEEEDouble.finite q => if q < 0 then IEEEDouble.nan else IEEEDouble.finite (sqrt q)
  | IEEEDouble.posInf => IEEEDouble.posInf
  | IEEEDouble.negInf => IEEEDouble.nan
  | IEEEDouble.nan => IEEEDouble.nan

/-- IEEE 754 requires `sqrt` to be correctly rounded; in particular the root of
the square of a double is that double. -/
def ExactOnSquares (sqrt : Double → Double) : Prop :=
  ∀ r : Double, 0 ≤ r → sqrt (r * r) = r

/-- Method `LMFIGDState::computeRMSE` (state.hpp:107-109):
`task.RMSE = sqrt(algo.loss / static_cast<double>(algo.numRows));`.
The result is the array after the call; since the value stored may be an
infinity or a NaN, it is an array of `IEEEDouble`.  The view is not changed. -/
def LMFIGDState.computeRMSE (sqrt : Double → Double) (self : LMFIGDState) :
    Option (List IEEEDouble) := do
  let loss ← readAt self.mStorage self.algo.loss
  let numRows ← readUInt64 self.mStorage self.algo.numRows
  let rmse := IEEEDouble.sqrt sqrt (IEEEDouble.divByCount loss numRows)
  if self.task.RMSE < self.mStorage.length then
    some ((self.mStorage.map IEEEDouble.finite).set self.task.RMSE rmse)
  else none

/-- A square root for the examples: exact on the squares of rationals. -/
def sqrtOfSquare (q : Double) : Double :=
  (Nat.sqrt q.num.toNat : Double) / (Nat.sqrt q.den : Double)

/-- An `LMFIGDState` with `rowDim = colDim = maxRank = 1` at the end of an
iteration that has seen `numRows` rows with total loss `loss`; `task.RMSE`
(element 7) still holds the value 7 of the iteration before. -/
def exampleLMFIGDAfter (numRows loss : Double) : LMFIGDState :=
  { mStorage := [1, 1, 1, 3, 4, 5, 6, 7, numRows, loss, 5, 6]
    task := ⟨0, 1, 2, 3, 4, ⟨⟨5, 1, 1⟩, ⟨6, 1, 1⟩⟩, 7⟩
    algo := ⟨8, 9, ⟨⟨10, 1, 1⟩, ⟨11, 1, 1⟩⟩⟩ }

/-! ## The elements a view refers to -/

/-- The indices of the elements a mapped vector spans. -/
def ColumnVectorMap.indices (v : ColumnVectorMap) : List Nat :=
  List.range' v.data v.size

/-- The indices of the elements a mapped matrix spans. -/
def MatrixMap.indices (m : MatrixMap) : List Nat :=
  List.range' m.data m.size

/-- The indices of the elements the fields of an `LMFIGDState` refer to, field
by field in the order of `TaskState` and `AlgoState`: one index for a scalar
reference, `rows * cols` consecutive indices for a mapped matrix. -/
def LMFIGDState.fieldIndices (s : LMFIGDState) : List Nat :=
  [s.task.rowDim, s.task.colDim, s.task.maxRank, s.task.stepsize, s.task.scaleFactor]
    ++ s.task.model.matrixU.indices ++ s.task.model.matrixV.indices
    ++ [s.task.RMSE]
    ++ [s.algo.numRows, s.algo.loss]
    ++ s.algo.incrModel.matrixU.indices ++ s.algo.incrModel.matrixV.indices

/-- The `LMFIGDState` that `allocate(3, 2, 2)` yields: 28 elements, the view
bound for a `3 x 2` and a `2 x 2` matrix. -/
def exampleLMFIGDFresh : LMFIGDState :=
  { mStorage := 3 :: 2 :: 2 :: List.replicate 25 0
    task := ⟨0, 1, 2, 3, 4, ⟨⟨5, 3, 2⟩, ⟨11, 2, 2⟩⟩, 15⟩
    algo := ⟨16, 17, ⟨⟨18, 3, 2⟩, ⟨24, 2, 2⟩⟩⟩ }

/-! ## The elements the views of the GLM states refer to -/

/-- The indices of the elements the fields of a `GLMIGDState` refer to, field
by field in the order of `TaskState` and `AlgoState`: one index for a scalar
reference, `size` consecutive indices for a mapped vector. -/
def GLMIGDState.fieldIndices (s : GLMIGDState) : List Nat :=
  [s.task.dimension, s.task.stepsize] ++ s.task.model.indices
    ++ [s.algo.numRows, s.algo.loss] ++ s.algo.gradient.indices ++ s.algo.incrModel.indices

/-- The indices of the elements the fields of a `GLMCGState` refer to. -/
def GLMCGState.fieldIndices (s : GLMCGState) : List Nat :=
  [s.task.dimension, s.task.iteration, s.task.stepsize] ++ s.task.model.indices
    ++ s.task.direction.indices ++ s.task.gradient.indices
    ++ [s.algo.numRows, s.algo.loss] ++ s.algo.incrGradient.indices

/-- The indices of the elements the fields of a `GLMNewtonState` refer to; the
mapped matrix `hessian` spans `rows * cols` consecutive indices. -/
def GLMNewtonState.fieldIndices (s : GLMNewtonState) : List Nat :=
  [s.task.dimension] ++ s.task.model.indices
    ++ [s.algo.numRows, s.algo.loss] ++ s.algo.gradient.indices ++ s.algo.hessian.indices

/-! ## Merge of partial states (spec §4.3) -/

/-- Modelled from the spec: the merge operation is not in `state.hpp` (it lives
with the aggregate functions, which are not among the sources).  The spec's
MergeOp combines "two AlgoState instances sharing identical TaskState".  A
partial state of an IGD variant, by value: the TaskState fields that have to be
identical (`stepsize`, `model`; the dimension is the length of the model) and
the AlgoState fields `numRows`, `loss`, `incrModel`.  Counts are natural
numbers and doubles are rationals, so sums and quotients are exact. -/
structure IGDPartial where
  stepsize : Double
  model : List Double
  numRows : Nat
  loss : Double
  incrModel : List Double
deriving DecidableEq, Inhabited

/-- Modelled from the spec: one coefficient of the merged `incrModel`.  "Treat
`incrModel - model` as the per-worker displacement, sum the displacements, and
add back to `model` once, weighted by relative row counts": with `nA` and `nB`
rows behind the coefficients `a` and `b` and `m` the coefficient of the shared
model, the result is `m + (nA*(a - m) + nB*(b - m)) / (nA + nB)`.  With no row
on either side there is no displacement and nothing to weight by: the result
is `m`. -/
def mergeCoefficient (m : Double) (nA : Nat) (a : Double) (nB : Nat) (b : Double) : Double :=
  if nA + nB = 0 then m
  else m + ((nA : Double) * (a - m) + (nB : Double) * (b - m)) / ((nA + nB : Nat) : Double)

/-- Modelled from the spec: the merged `incrModel`, coefficient by coefficient
over the shared model and the two accumulators. -/
def mergeIncrModel (nA nB : Nat) : List Double → List Double → List Double → List Double
  | m :: ms, a :: as, b :: bs =>
    mergeCoefficient m nA a nB b :: mergeIncrModel nA nB ms as bs
  | _, _, _ => []

/-- Modelled from the spec: MergeOp (§4.3) of the IGD variants.  "Precondition:
both inputs' TaskState are bit-identical; violation is a fatal precondition
error" (`none`).  "numRows and loss are additive sums"; the incremental model
is the count-weighted combination of `mergeIncrModel`. -/
def IGDPartial.merge (A B : IGDPartial) : Option IGDPartial :=
  if A.stepsize = B.stepsize ∧ A.model = B.model then
    some { stepsize := A.stepsize
           model := A.model
           numRows := A.numRows + B.numRows
           loss := A.loss + B.loss
           incrModel := mergeIncrModel A.numRows B.numRows A.model A.incrModel B.incrModel }
  else none

/-- Modelled from the spec: a partial state of a batch variant (CG, Newton), by
value: the TaskState elements that have to be identical, and the AlgoState
fields `numRows`, `loss` and the accumulator elements (`incrGradient` for CG;
`gradient` followed by `hessian` for Newton). -/
structure BatchPartial where
  task : List Double
  numRows : Nat
  loss : Double
  accumulator : List Double
deriving DecidableEq, Inhabited

/-- Elementwise sum of two accumulators. -/
def addAccumulators : List Double → List Double → List Double
  | a :: as, b :: bs => (a + b) :: addAccumulators as bs
  | _, _ => []

/-- Modelled from the spec: MergeOp (§4.3) of the batch variants: "numRows and
loss are additive sums; gradient/Hessian accumulators (CG, Newton) are additive
sums"; states of different TaskState are rejected (`none`). -/
def BatchPartial.merge (A B : BatchPartial) : Option BatchPartial :=
  if A.task = B.task then
    some { task := A.task
           numRows := A.numRows + B.numRows
           loss := A.loss + B.loss
           accumulator := addAccumulators A.accumulator B.accumulator }
  else none
/-! ## Lemmas on machine integers -/

theorem toUInt32_of_lt {x : Int} (h0 : 0 ≤ x) (h1 : x < 2 ^ 32) :
    (toUInt32 x : Int) = x := by
  unfold toUInt32
  rw [Int.emod_eq_of_lt h0 h1, Int.toNat_of_nonneg h0]

theorem toUInt32_toInt32 (x : Int) : toUInt32 (toInt32 x) = toUInt32 x := by
  unfold toUInt32 toInt32
  congr 1
  omega

theorem toUInt32_toInt32_mul (x y : Int) :
    toUInt32 (toInt32 (toInt32 x * y)) = toUInt32 (x * y) := by
  rw [toUInt32_toInt32]
  unfold toUInt32
  congr 1
  have h : toInt32 x % 2 ^ 32 = x % 2 ^ 32 := by
    unfold toInt32
    omega
  rw [Int.mul_emod, h, ← Int.mul_emod]

theorem toInt32_of_range {x : Int} (h0 : -2 ^ 31 ≤ x) (h1 : x < 2 ^ 31) :
    toInt32 x = x := by
  unfold toInt32
  omega

theorem modelLen_nonneg (N : Nat) (n : Nat → Int) (h : ∀ k, k ≤ N → 0 ≤ n k) :
    0 ≤ MLPModel.modelLen N n := by
  unfold MLPModel.modelLen
  apply List.sum_nonneg
  intro x hx
  simp only [List.mem_map, List.mem_range] at hx
  obtain ⟨k, hk, rfl⟩ := hx
  exact mul_nonneg (h k (by omega)) (h (k + 1) (by omega))

/-! ## Lemmas on the storage primitives -/

theorem writeAt_of_lt {s : Storage} {i : Nat} (v : Double) (h : i < s.length) :
    writeAt s i v = some (s.set i v) := by
  simp [writeAt, h]

theorem fillRange_spec (s : Storage) (off n : Nat) (v : Double) (h : off + n ≤ s.length) :
    ∃ t, fillRange s off n v = some t ∧ t.length = s.length ∧
      ∀ j, t[j]? = if off ≤ j ∧ j < off + n then some v else s[j]? := by
  induction n with
  | zero =>
    refine ⟨s, by simp [fillRange], rfl, ?_⟩
    intro j
    rw [if_neg (by omega)]
  | succ n ih =>
    obtain ⟨t, ht, hl, hg⟩ := ih (by omega)
    refine ⟨t.set (off + n) v, ?_, by simp [hl], ?_⟩
    · unfold fillRange at ht ⊢
      rw [List.range_succ, List.foldlM_append, ht]
      simp only [Option.some_bind, List.foldlM_cons, List.foldlM_nil, Option.bind_eq_bind]
      rw [writeAt_of_lt v (by omega)]
      rfl
    · intro j
      rw [List.getElem?_set, hg j]
      by_cases hj : off + n = j
      · subst hj
        have h1 : off + n < t.length := by omega
        have h2 : off ≤ off + n ∧ off + n < off + (n + 1) := by omega
        simp [h1, h2]
      · by_cases h3 : off ≤ j ∧ j < off + n
        · have h4 : off ≤ j ∧ j < off + (n + 1) := by omega
          simp [hj, h3, h4]
        · have h4 : ¬ (off ≤ j ∧ j < off + (n + 1)) := by omega
          simp [hj, h3, h4]

theorem copyRange_spec (s : Storage) (dst src n : Nat)
    (hs : src + n ≤ s.length) (hd : dst + n ≤ s.length)
    (hdisj : src + n ≤ dst ∨ dst + n ≤ src) :
    ∃ t, copyRange s dst src n = some t ∧ t.length = s.length ∧
      ∀ j, t[j]? = if dst ≤ j ∧ j < dst + n then s[src + (j - dst)]? else s[j]? := by
  induction n with
  | zero =>
    refine ⟨s, by simp [copyRange], rfl, ?_⟩
    intro j
    rw [if_neg (by omega)]
  | succ n ih =>
    obtain ⟨t, ht, hl, hg⟩ := ih (by omega) (by omega) (by omega)
    have hx : t[src + n]? = s[src + n]? := by
      rw [hg, if_neg (by omega)]
    have hlt : src + n < s.length := by omega
    refine ⟨t.set (dst + n) (s[src + n]), ?_, by simp [hl], ?_⟩
    · unfold copyRange at ht ⊢
      rw [List.range_succ, List.foldlM_append, ht]
      simp only [Option.some_bind, List.foldlM_cons, List.foldlM_nil, Option.bind_eq_bind,
        readAt, hx, List.getElem?_eq_getElem hlt]
      rw [writeAt_of_lt _ (by omega)]
      rfl
    · intro j
      rw [List.getElem?_set, hg j]
      by_cases hj : dst + n = j
      · subst hj
        have h1 : dst + n < t.length := by omega
        have h2 : dst ≤ dst + n ∧ dst + n < dst + (n + 1) := by omega
        simp [h1, h2, List.getElem?_eq_getElem hlt]
      · by_cases h3 : dst ≤ j ∧ j < dst + n
        · have h4 : dst ≤ j ∧ j < dst + (n + 1) := by omega
          simp [hj, h3, h4]
        · have h4 : ¬ (dst ≤ j ∧ j < dst + (n + 1)) := by omega
          simp [hj, h3, h4]

theorem assignStorage_loop (dst src : Storage) (n : Nat) (hn : n ≤ dst.length)
    (hle : dst.length ≤ src.length) :
    (List.range n).foldlM (fun st i => do
      let x ← readAt src i
      writeAt st i x) dst = some (src.take n ++ dst.drop n) := by
  induction n with
  | zero => simp
  | succ n ih =>
    have hlt : n < src.length := by omega
    rw [List.range_succ, List.foldlM_append, ih (by omega)]
    simp only [Option.some_bind, List.foldlM_cons, List.foldlM_nil, Option.bind_eq_bind,
      readAt, List.getElem?_eq_getElem hlt]
    rw [writeAt_of_lt _ (by simp; omega)]
    refine congrArg some ?_
    apply List.ext_getElem?
    intro j
    rw [List.getElem?_set]
    simp only [List.getElem?_append, List.length_take, List.getElem?_take, List.getElem?_drop,
      List.length_append, List.length_drop]
    have h6 : min n src.length = n := by omega
    have h7 : min (n + 1) src.length = n + 1 := by omega
    rw [h6, h7]
    by_cases hj : n = j
    · subst hj
      have h1 : n < n + (dst.length - n) := by omega
      simp [h1, List.getElem?_eq_getElem hlt]
    · by_cases h3 : j < n
      · have h5 : j < n + 1 := by omega
        simp [hj, h3, h5]
      · have h5 : ¬ j < n + 1 := by omega
        simp only [hj, if_false, h3, h5]
        congr 1
        omega

theorem assignStorage_eq (dst src : Storage) (h : dst.length = src.length) :
    assignStorage dst src = some src := by
  unfold assignStorage
  rw [assignStorage_loop dst src dst.length le_rfl (by omega)]
  simp [h]

theorem truncate_intCast (n : Int) : truncate (n : Double) = n := by
  simp [truncate]

theorem castTo_intCast {lo hi n : Int} (h1 : lo ≤ n) (h2 : n ≤ hi) :
    castTo lo hi (n : Double) = some n := by
  simp [castTo, truncate_intCast, h1, h2]

theorem readUInt32_of_cast {s : Storage} {i n : Nat} (h : s[i]? = some (n : Double))
    (hn : n < 2 ^ 32) : readUInt32 s i = some n := by
  have hc : castTo 0 (2 ^ 32 - 1) (((n : Int) : Double)) = some (n : Int) :=
    castTo_intCast (by omega) (by omega)
  rw [Int.cast_natCast] at hc
  simp only [readUInt32, readAt, h, Option.some_bind, Option.bind_eq_bind, hc]
  simp

theorem readUInt16_of_cast {s : Storage} {i n : Nat} (h : s[i]? = some (n : Double))
    (hn : n < 2 ^ 16) : readUInt16 s i = some n := by
  have hc : castTo 0 (2 ^ 16 - 1) (((n : Int) : Double)) = some (n : Int) :=
    castTo_intCast (by omega) (by omega)
  rw [Int.cast_natCast] at hc
  simp only [readUInt16, readAt, h, Option.some_bind, Option.bind_eq_bind, hc]
  simp

theorem readInt32_of_cast {s : Storage} {i : Nat} {n : Int} (h : s[i]? = some (n : Double))
    (h1 : -2 ^ 31 ≤ n) (h2 : n < 2 ^ 31) : readInt32 s i = some n := by
  have hc : castTo (-2 ^ 31) (2 ^ 31 - 1) (n : Double) = some n :=
    castTo_intCast h1 (by omega)
  simp only [readInt32, readAt, h, Option.some_bind, Option.bind_eq_bind, hc]

theorem allocateArray_write_zero (n : Nat) (v : Double) (hn : n ≠ 0) :
    writeAt (allocateArray n) 0 v = some (v :: List.replicate (n - 1) 0) := by
  obtain ⟨m, rfl⟩ := Nat.exists_eq_succ_of_ne_zero hn
  simp [writeAt, allocateArray, List.replicate_succ]

theorem readUInt32_congr {s t : Storage} {i : Nat} (h : t[i]? = s[i]?) :
    readUInt32 t i = readUInt32 s i := by
  simp [readUInt32, readAt, h]

theorem readUInt16_congr {s t : Storage} {i : Nat} (h : t[i]? = s[i]?) :
    readUInt16 t i = readUInt16 s i := by
  simp [readUInt16, readAt, h]

theorem readInt32_congr {s t : Storage} {i : Nat} (h : t[i]? = s[i]?) :
    readInt32 t i = readInt32 s i := by
  simp [readInt32, readAt, h]

theorem GLMCGState_arraySize_ne_zero (dim : Nat) : GLMCGState.arraySize dim ≠ 0 := by
  unfold GLMCGState.arraySize
  omega

theorem toUInt32_congr {x y : Int} (h : x % 2 ^ 32 = y % 2 ^ 32) : toUInt32 x = toUInt32 y := by
  unfold toUInt32
  rw [h]

theorem GLMNewtonState_arraySize_ne_zero (dim : Nat) : GLMNewtonState.arraySize dim ≠ 0 := by
  unfold GLMNewtonState.arraySize
  rw [toUInt32_toInt32]
  have h1 : (3 + toInt32 (toInt32 ((dim : Int) + 2) * (dim : Int))) % 2 ^ 32
      = (3 + ((dim : Int) + 2) * (dim : Int)) % 2 ^ 32 := by
    have a : toInt32 (toInt32 ((dim : Int) + 2) * (dim : Int)) % 2 ^ 32
        = (toInt32 ((dim : Int) + 2) * (dim : Int)) % 2 ^ 32 := by
      unfold toInt32
      omega
    have b : toInt32 ((dim : Int) + 2) % 2 ^ 32 = ((dim : Int) + 2) % 2 ^ 32 := by
      unfold toInt32
      omega
    rw [Int.add_emod, a, Int.mul_emod, b, ← Int.mul_emod, ← Int.add_emod]
  rw [toUInt32_congr h1]
  unfold toUInt32
  intro h
  have h2 : (3 + ((dim : Int) + 2) * (dim : Int)) % 2 ^ 32 = 0 := by
    have := Int.emod_nonneg (3 + ((dim : Int) + 2) * (dim : Int)) (b := 2 ^ 32) (by norm_num)
    omega
  have h3 : (3 + ((dim : Int) + 2) * (dim : Int)) % 4 = 0 := by
    have := Int.emod_emod_of_dvd (3 + ((dim : Int) + 2) * (dim : Int))
      (show (4 : Int) ∣ 2 ^ 32 by norm_num)
    rw [h2] at this
    omega
  obtain ⟨q, hq⟩ : ∃ q : Int, (dim : Int) = 4 * q + (dim : Int) % 4 :=
    ⟨(dim : Int) / 4, by omega⟩
  have hr : (dim : Int) % 4 = 0 ∨ (dim : Int) % 4 = 1 ∨ (dim : Int) % 4 = 2 ∨
      (dim : Int) % 4 = 3 := by omega
  rcases hr with hr | hr | hr | hr <;> rw [hr] at hq <;> rw [hq] at h3 <;> ring_nf at h3 <;> omega

/-! ## Lemmas on `GLMIGDState` -/

theorem GLMIGDState_rebind_of_read {s : GLMIGDState} {d : Nat}
    (hd : readUInt32 s.mStorage 0 = some d) :
    GLMIGDState.rebind s = some
      { mStorage := s.mStorage
        task := ⟨0, 1, ⟨2, d⟩⟩
        algo := ⟨(2 + d) % 2 ^ 32, (3 + d) % 2 ^ 32, ⟨(4 + d) % 2 ^ 32, d⟩,
          ⟨(4 + d * 2 % 2 ^ 32) % 2 ^ 32, d⟩⟩ } := by
  unfold GLMIGDState.rebind
  dsimp only
  rw [hd]
  rfl

theorem GLMIGDState_allocate_eq (self : GLMIGDState) (dim : Nat) (h32 : dim < 2 ^ 32)
    (h0 : GLMIGDState.arraySize dim ≠ 0) :
    GLMIGDState.allocate self dim = some
      { mStorage := (dim : Double) :: List.replicate (GLMIGDState.arraySize dim - 1) 0
        task := ⟨0, 1, ⟨2, dim⟩⟩
        algo := ⟨(2 + dim) % 2 ^ 32, (3 + dim) % 2 ^ 32, ⟨(4 + dim) % 2 ^ 32, dim⟩,
          ⟨(4 + dim * 2 % 2 ^ 32) % 2 ^ 32, dim⟩⟩ } := by
  unfold GLMIGDState.allocate
  generalize GLMIGDState.arraySize dim = n at h0 ⊢
  have hr : readUInt32 ((dim : Double) :: List.replicate (n - 1) 0) 0 = some dim :=
    readUInt32_of_cast List.getElem?_cons_zero h32
  dsimp only
  unfold writeInteger
  rw [Int.cast_natCast, allocateArray_write_zero n (dim : Double) h0, Option.bind_eq_bind,
    Option.some_bind]
  exact GLMIGDState_rebind_of_read hr

theorem GLMIGDState_view_of_rebind {s : GLMIGDState} {d : Nat}
    (hb : GLMIGDState.rebind s = some s) (hd : readUInt32 s.mStorage 0 = some d)
    (h32 : 4 + 3 * d < 2 ^ 32) :
    s.task = ⟨0, 1, ⟨2, d⟩⟩ ∧ s.algo = ⟨2 + d, 3 + d, ⟨4 + d, d⟩, ⟨4 + 2 * d, d⟩⟩ := by
  rw [GLMIGDState_rebind_of_read hd] at hb
  have h := Option.some.inj hb
  have e1 : (2 + d) % 2 ^ 32 = 2 + d := Nat.mod_eq_of_lt (by omega)
  have e2 : (3 + d) % 2 ^ 32 = 3 + d := Nat.mod_eq_of_lt (by omega)
  have e3 : (4 + d) % 2 ^ 32 = 4 + d := Nat.mod_eq_of_lt (by omega)
  have e4 : (4 + d * 2 % 2 ^ 32) % 2 ^ 32 = 4 + 2 * d := by omega
  rw [e1, e2, e3, e4] at h
  exact ⟨(congrArg GLMIGDState.task h).symm, (congrArg GLMIGDState.algo h).symm⟩

theorem GLMIGDState_reset_spec {s : GLMIGDState} {d : Nat}
    (hb : GLMIGDState.rebind s = some s) (hd : readUInt32 s.mStorage 0 = some d)
    (hlen : 4 + 3 * d ≤ s.mStorage.length) (h32 : 4 + 3 * d < 2 ^ 32) :
    ∃ t, GLMIGDState.reset s = some { s with mStorage := t } ∧
      t.length = s.mStorage.length ∧
      ∀ j, t[j]? =
        if 2 + d ≤ j ∧ j < 4 + 2 * d then some 0
        else if 4 + 2 * d ≤ j ∧ j < 4 + 3 * d then s.mStorage[2 + (j - (4 + 2 * d))]?
        else s.mStorage[j]? := by
  obtain ⟨ht, ha⟩ := GLMIGDState_view_of_rebind hb hd h32
  have w1 := writeAt_of_lt (s := s.mStorage) (i := 2 + d) 0 (by omega)
  have w2 := writeAt_of_lt (s := s.mStorage.set (2 + d) 0) (i := 3 + d) 0
    (by rw [List.length_set]; omega)
  obtain ⟨t3, f3, l3, g3⟩ := fillRange_spec ((s.mStorage.set (2 + d) 0).set (3 + d) 0)
    (4 + d) d 0 (by rw [List.length_set, List.length_set]; omega)
  obtain ⟨t4, f4, l4, g4⟩ := copyRange_spec t3 (4 + 2 * d) 2 d
    (by rw [l3, List.length_set, List.length_set]; omega)
    (by rw [l3, List.length_set, List.length_set]; omega) (by omega)
  refine ⟨t4, ?_, by rw [l4, l3, List.length_set, List.length_set], ?_⟩
  · unfold GLMIGDState.reset
    rw [ha, ht]
    dsimp only
    unfold writeInteger
    simp only [Int.cast_zero, w1, w2, Option.bind_eq_bind, Option.some_bind,
      ColumnVectorMap.setZero, ColumnVectorMap.assign, if_true, f3, f4]
    rfl
  · intro j
    rw [g4 j]
    by_cases c4 : 4 + 2 * d ≤ j ∧ j < 4 + 2 * d + d
    · rw [if_pos c4, if_neg (by omega), if_pos (by omega), g3, if_neg (by omega),
        List.getElem?_set, if_neg (by omega), List.getElem?_set, if_neg (by omega)]
    · rw [if_neg c4, g3]
      by_cases c3 : 4 + d ≤ j ∧ j < 4 + d + d
      · rw [if_pos c3, if_pos (by omega)]
      · rw [if_neg c3, List.getElem?_set, List.getElem?_set]
        by_cases c2 : 3 + d = j
        · subst c2
          rw [if_pos rfl, if_pos (by rw [List.length_set]; omega), if_pos (by omega)]
        · by_cases c1 : 2 + d = j
          · subst c1
            rw [if_neg c2, if_pos rfl, if_pos (by omega), if_pos (by omega)]
          · rw [if_neg c2, if_neg c1, if_neg (by omega), if_neg (by omega)]

/-! ## Lemmas on `GLMCGState` -/

theorem GLMCGState_rebind_of_read {s : GLMCGState} {d : Nat}
    (hd : readUInt32 s.mStorage 0 = some d) :
    GLMCGState.rebind s = some
      { mStorage := s.mStorage
        task := ⟨0, 1, 2, ⟨3, d⟩, ⟨(3 + d) % 2 ^ 32, d⟩, ⟨(3 + 2 * d % 2 ^ 32) % 2 ^ 32, d⟩⟩
        algo := ⟨(3 + 3 * d % 2 ^ 32) % 2 ^ 32, (4 + 3 * d % 2 ^ 32) % 2 ^ 32,
          ⟨(5 + 3 * d % 2 ^ 32) % 2 ^ 32, d⟩⟩ } := by
  unfold GLMCGState.rebind
  dsimp only
  rw [hd]
  rfl

theorem GLMCGState_allocate_eq (self : GLMCGState) (dim : Nat) (h32 : dim < 2 ^ 32) :
    GLMCGState.allocate self dim = some
      { mStorage := (dim : Double) :: List.replicate (GLMCGState.arraySize dim - 1) 0
        task := ⟨0, 1, 2, ⟨3, dim⟩, ⟨(3 + dim) % 2 ^ 32, dim⟩,
          ⟨(3 + 2 * dim % 2 ^ 32) % 2 ^ 32, dim⟩⟩
        algo := ⟨(3 + 3 * dim % 2 ^ 32) % 2 ^ 32, (4 + 3 * dim % 2 ^ 32) % 2 ^ 32,
          ⟨(5 + 3 * dim % 2 ^ 32) % 2 ^ 32, dim⟩⟩ } := by
  have h0 := GLMCGState_arraySize_ne_zero dim
  unfold GLMCGState.allocate
  generalize GLMCGState.arraySize dim = n at h0 ⊢
  have hr : readUInt32 ((dim : Double) :: List.replicate (n - 1) 0) 0 = some dim :=
    readUInt32_of_cast List.getElem?_cons_zero h32
  dsimp only
  unfold writeInteger
  rw [Int.cast_natCast, allocateArray_write_zero n (dim : Double) h0, Option.bind_eq_bind,
    Option.some_bind]
  exact GLMCGState_rebind_of_read hr

theorem GLMCGState_view_of_rebind {s : GLMCGState} {d : Nat}
    (hb : GLMCGState.rebind s = some s) (hd : readUInt32 s.mStorage 0 = some d)
    (h32 : 5 + 4 * d < 2 ^ 32) :
    s.task = ⟨0, 1, 2, ⟨3, d⟩, ⟨3 + d, d⟩, ⟨3 + 2 * d, d⟩⟩ ∧
    s.algo = ⟨3 + 3 * d, 4 + 3 * d, ⟨5 + 3 * d, d⟩⟩ := by
  rw [GLMCGState_rebind_of_read hd] at hb
  have h := Option.some.inj hb
  have e1 : (3 + d) % 2 ^ 32 = 3 + d := Nat.mod_eq_of_lt (by omega)
  have e2 : (3 + 2 * d % 2 ^ 32) % 2 ^ 32 = 3 + 2 * d := by omega
  have e3 : (3 + 3 * d % 2 ^ 32) % 2 ^ 32 = 3 + 3 * d := by omega
  have e4 : (4 + 3 * d % 2 ^ 32) % 2 ^ 32 = 4 + 3 * d := by omega
  have e5 : (5 + 3 * d % 2 ^ 32) % 2 ^ 32 = 5 + 3 * d := by omega
  rw [e1, e2, e3, e4, e5] at h
  exact ⟨(congrArg GLMCGState.task h).symm, (congrArg GLMCGState.algo h).symm⟩

theorem GLMCGState_reset_spec {s : GLMCGState} {d : Nat}
    (hb : GLMCGState.rebind s = some s) (hd : readUInt32 s.mStorage 0 = some d)
    (hlen : 5 + 4 * d ≤ s.mStorage.length) (h32 : 5 + 4 * d < 2 ^ 32) :
    ∃ t, GLMCGState.reset s = some { s with mStorage := t } ∧
      t.length = s.mStorage.length ∧
      ∀ j, t[j]? = if 3 + 3 * d ≤ j ∧ j < 5 + 4 * d then some 0 else s.mStorage[j]? := by
  obtain ⟨ht, ha⟩ := GLMCGState_view_of_rebind hb hd h32
  have w1 := writeAt_of_lt (s := s.mStorage) (i := 3 + 3 * d) 0 (by omega)
  have w2 := writeAt_of_lt (s := s.mStorage.set (3 + 3 * d) 0) (i := 4 + 3 * d) 0
    (by rw [List.length_set]; omega)
  have hd2 : readUInt32 ((s.mStorage.set (3 + 3 * d) 0).set (4 + 3 * d) 0) 0 = some d := by
    rw [← hd]
    apply readUInt32_congr
    rw [List.getElem?_set, if_neg (by omega), List.getElem?_set, if_neg (by omega)]
  obtain ⟨t3, f3, l3, g3⟩ := fillRange_spec ((s.mStorage.set (3 + 3 * d) 0).set (4 + 3 * d) 0)
    (5 + 3 * d) d 0 (by rw [List.length_set, List.length_set]; omega)
  refine ⟨t3, ?_, by rw [l3, List.length_set, List.length_set], ?_⟩
  · unfold GLMCGState.reset
    rw [ha, ht]
    dsimp only
    unfold writeInteger
    simp only [Int.cast_zero, w1, w2, hd2, Option.bind_eq_bind, Option.some_bind,
      ColumnVectorMap.assignZero, if_true, f3]
    rfl
  · intro j
    rw [g3 j]
    by_cases c3 : 5 + 3 * d ≤ j ∧ j < 5 + 3 * d + d
    · rw [if_pos c3, if_pos (by omega)]
    · rw [if_neg c3, List.getElem?_set, List.getElem?_set]
      by_cases c2 : 4 + 3 * d = j
      · subst c2
        rw [if_pos rfl, if_pos (by rw [List.length_set]; omega), if_pos (by omega)]
      · by_cases c1 : 3 + 3 * d = j
        · subst c1
          rw [if_neg c2, if_pos rfl, if_pos (by omega), if_pos (by omega)]
        · rw [if_neg c2, if_neg c1, if_neg (by omega)]

/-! ## Lemmas on `GLMNewtonState` -/

theorem GLMNewtonState_rebind_of_read {s : GLMNewtonState} {d : Nat}
    (hd : readUInt16 s.mStorage 0 = some d) :
    GLMNewtonState.rebind s = some
      { mStorage := s.mStorage
        task := ⟨0, ⟨1, d⟩⟩
        algo := ⟨1 + d, 2 + d, ⟨3 + d, d⟩, ⟨3 + 2 * d, d, d⟩⟩ } := by
  unfold GLMNewtonState.rebind
  dsimp only
  rw [hd]
  rfl

theorem GLMNewtonState_allocate_eq (self : GLMNewtonState) (dim : Nat) (h16 : dim < 2 ^ 16) :
    GLMNewtonState.allocate self dim = some
      { mStorage := (dim : Double) :: List.replicate (GLMNewtonState.arraySize dim - 1) 0
        task := ⟨0, ⟨1, dim⟩⟩
        algo := ⟨1 + dim, 2 + dim, ⟨3 + dim, dim⟩, ⟨3 + 2 * dim, dim, dim⟩⟩ } := by
  have h0 := GLMNewtonState_arraySize_ne_zero dim
  unfold GLMNewtonState.allocate
  generalize GLMNewtonState.arraySize dim = n at h0 ⊢
  have hr : readUInt16 ((dim : Double) :: List.replicate (n - 1) 0) 0 = some dim :=
    readUInt16_of_cast List.getElem?_cons_zero h16
  dsimp only
  unfold writeInteger
  rw [Int.cast_natCast, allocateArray_write_zero n (dim : Double) h0, Option.bind_eq_bind,
    Option.some_bind]
  exact GLMNewtonState_rebind_of_read hr

theorem GLMNewtonState_view_of_rebind {s : GLMNewtonState} {d : Nat}
    (hb : GLMNewtonState.rebind s = some s) (hd : readUInt16 s.mStorage 0 = some d) :
    s.task = ⟨0, ⟨1, d⟩⟩ ∧
    s.algo = ⟨1 + d, 2 + d, ⟨3 + d, d⟩, ⟨3 + 2 * d, d, d⟩⟩ := by
  rw [GLMNewtonState_rebind_of_read hd] at hb
  have h := Option.some.inj hb
  exact ⟨(congrArg GLMNewtonState.task h).symm, (congrArg GLMNewtonState.algo h).symm⟩

theorem GLMNewtonState_reset_spec {s : GLMNewtonState} {d : Nat}
    (hb : GLMNewtonState.rebind s = some s) (hd : readUInt16 s.mStorage 0 = some d)
    (hlen : 3 + 2 * d + d * d ≤ s.mStorage.length) :
    ∃ t, GLMNewtonState.reset s = some { s with mStorage := t } ∧
      t.length = s.mStorage.length ∧
      ∀ j, t[j]? = if 1 + d ≤ j ∧ j < 3 + 2 * d + d * d then some 0 else s.mStorage[j]? := by
  obtain ⟨ht, ha⟩ := GLMNewtonState_view_of_rebind hb hd
  have w1 := writeAt_of_lt (s := s.mStorage) (i := 1 + d) 0 (by omega)
  have w2 := writeAt_of_lt (s := s.mStorage.set (1 + d) 0) (i := 2 + d) 0
    (by rw [List.length_set]; omega)
  have hd2 : readUInt16 ((s.mStorage.set (1 + d) 0).set (2 + d) 0) 0 = some d := by
    rw [← hd]
    apply readUInt16_congr
    rw [List.getElem?_set, if_neg (by omega), List.getElem?_set, if_neg (by omega)]
  obtain ⟨t3, f3, l3, g3⟩ := fillRange_spec ((s.mStorage.set (1 + d) 0).set (2 + d) 0)
    (3 + d) d 0 (by rw [List.length_set, List.length_set]; omega)
  have hd3 : readUInt16 t3 0 = some d := by
    rw [← hd2]
    apply readUInt16_congr
    rw [g3, if_neg (by omega)]
  obtain ⟨t4, f4, l4, g4⟩ := fillRange_spec t3 (3 + 2 * d) (d * d) 0
    (by rw [l3, List.length_set, List.length_set]; omega)
  refine ⟨t4, ?_, by rw [l4, l3, List.length_set, List.length_set], ?_⟩
  · unfold GLMNewtonState.reset
    rw [ha, ht]
    dsimp only
    unfold writeInteger
    simp only [Int.cast_zero, w1, w2, hd2, Option.bind_eq_bind, Option.some_bind,
      ColumnVectorMap.assignZero, MatrixMap.assignZero, MatrixMap.size, if_true, f3, hd3,
      Int.toNat_ofNat, and_self, f4]
    rfl
  · intro j
    rw [g4 j]
    by_cases c4 : 3 + 2 * d ≤ j ∧ j < 3 + 2 * d + d * d
    · rw [if_pos c4, if_pos (by omega)]
    · rw [if_neg c4, g3 j]
      by_cases c3 : 3 + d ≤ j ∧ j < 3 + d + d
      · rw [if_pos c3, if_pos (by omega)]
      · rw [if_neg c3, List.getElem?_set, List.getElem?_set]
        by_cases c2 : 2 + d = j
        · subst c2
          rw [if_pos rfl, if_pos (by rw [List.length_set]; omega), if_pos (by omega)]
        · by_cases c1 : 1 + d = j
          · subst c1
            rw [if_neg c2, if_pos rfl, if_pos (by omega), if_pos (by omega)]
          · rw [if_neg c2, if_neg c1, if_neg (by omega)]

/-! ## Lemmas on `LMFIGDState` -/

theorem LMFModel_arraySize_natCast {R C M : Nat} (h : (R + C) * M < 2 ^ 32) :
    LMFModel.arraySize R C M = (R + C) * M := by
  unfold LMFModel.arraySize
  rw [toUInt32_toInt32_mul]
  have h1 : (toUInt32 (((R : Int) + (C : Int)) * (M : Int)) : Int)
      = ((R : Int) + (C : Int)) * (M : Int) :=
    toUInt32_of_lt (by positivity) (by exact_mod_cast h)
  exact_mod_cast h1

theorem toUInt32_natCast {n : Nat} (h : n < 2 ^ 32) : toUInt32 (n : Int) = n := by
  have h1 : (toUInt32 (n : Int) : Int) = (n : Int) :=
    toUInt32_of_lt (by positivity) (by exact_mod_cast h)
  exact_mod_cast h1

theorem toSizeT_natCast {n : Nat} (h : n < 2 ^ 64) : toSizeT (n : Int) = n := by
  unfold toSizeT
  omega

theorem LMFIGDState_rebind_of_read {s : LMFIGDState} {r c m : Int}
    (hr : readInt32 s.mStorage 0 = some r) (hc : readInt32 s.mStorage 1 = some c)
    (hm : readInt32 s.mStorage 2 = some m) :
    LMFIGDState.rebind s = some
      { mStorage := s.mStorage
        task := ⟨0, 1, 2, 3, 4,
          ⟨⟨5, r, m⟩, ⟨toSizeT (toInt32 (5 + toInt32 (r * m))), c, m⟩⟩,
          (5 + LMFModel.arraySize r c m) % 2 ^ 32⟩
        algo := ⟨(6 + LMFModel.arraySize r c m) % 2 ^ 32,
          (7 + LMFModel.arraySize r c m) % 2 ^ 32,
          ⟨⟨(8 + LMFModel.arraySize r c m) % 2 ^ 32, r, m⟩,
           ⟨((8 + LMFModel.arraySize r c m) % 2 ^ 32 + toUInt32 (toInt32 (r * m))) % 2 ^ 32,
            c, m⟩⟩⟩ } := by
  unfold LMFIGDState.rebind
  dsimp only
  rw [hr, hc, hm]
  rfl

theorem LMFIGDState_view_of_rebind {s : LMFIGDState} {R C M : Nat}
    (hb : LMFIGDState.rebind s = some s)
    (hr : readInt32 s.mStorage 0 = some R) (hc : readInt32 s.mStorage 1 = some C)
    (hm : readInt32 s.mStorage 2 = some M) (h31 : 8 + 2 * ((R + C) * M) < 2 ^ 31) :
    s.task = ⟨0, 1, 2, 3, 4, ⟨⟨5, R, M⟩, ⟨5 + R * M, C, M⟩⟩, 5 + (R + C) * M⟩ ∧
    s.algo = ⟨6 + (R + C) * M, 7 + (R + C) * M,
      ⟨⟨8 + (R + C) * M, R, M⟩, ⟨8 + (R + C) * M + R * M, C, M⟩⟩⟩ := by
  rw [LMFIGDState_rebind_of_read hr hc hm] at hb
  have h := Option.some.inj hb
  have hL : (R + C) * M = R * M + C * M := by ring
  have e0 : LMFModel.arraySize R C M = (R + C) * M := LMFModel_arraySize_natCast (by omega)
  have hrm : ((R : Int) * (M : Int)) = ((R * M : Nat) : Int) := by push_cast; rfl
  have e1 : toInt32 ((R : Int) * (M : Int)) = ((R * M : Nat) : Int) := by
    rw [hrm]
    exact toInt32_of_range (by omega) (by omega)
  have e2 : toSizeT (toInt32 (5 + toInt32 ((R : Int) * (M : Int)))) = 5 + R * M := by
    rw [e1, toInt32_of_range (by omega) (by omega)]
    have : (5 : Int) + ((R * M : Nat) : Int) = ((5 + R * M : Nat) : Int) := by push_cast; rfl
    rw [this]
    exact toSizeT_natCast (by omega)
  have e3 : toUInt32 (toInt32 ((R : Int) * (M : Int))) = R * M := by
    rw [e1]
    exact toUInt32_natCast (by omega)
  rw [e0, e2, e3] at h
  have e5 : (5 + (R + C) * M) % 2 ^ 32 = 5 + (R + C) * M := Nat.mod_eq_of_lt (by omega)
  have e6 : (6 + (R + C) * M) % 2 ^ 32 = 6 + (R + C) * M := Nat.mod_eq_of_lt (by omega)
  have e7 : (7 + (R + C) * M) % 2 ^ 32 = 7 + (R + C) * M := Nat.mod_eq_of_lt (by omega)
  have e8 : (8 + (R + C) * M) % 2 ^ 32 = 8 + (R + C) * M := Nat.mod_eq_of_lt (by omega)
  have e9 : (8 + (R + C) * M + R * M) % 2 ^ 32 = 8 + (R + C) * M + R * M :=
    Nat.mod_eq_of_lt (by omega)
  rw [e5, e6, e7, e8, e9] at h
  exact ⟨(congrArg LMFIGDState.task h).symm, (congrArg LMFIGDState.algo h).symm⟩

theorem LMFIGDState_allocate_eq (self : LMFIGDState) (r c m : Int)
    (hr : -2 ^ 31 ≤ r ∧ r < 2 ^ 31) (hc : -2 ^ 31 ≤ c ∧ c < 2 ^ 31)
    (hm : -2 ^ 31 ≤ m ∧ m < 2 ^ 31) (h3 : 3 ≤ LMFIGDState.arraySize r c m) :
    LMFIGDState.allocate self r c m = some
      { mStorage := (r : Double) :: (c : Double) :: (m : Double) ::
          List.replicate (LMFIGDState.arraySize r c m - 3) 0
        task := ⟨0, 1, 2, 3, 4,
          ⟨⟨5, r, m⟩, ⟨toSizeT (toInt32 (5 + toInt32 (r * m))), c, m⟩⟩,
          (5 + LMFModel.arraySize r c m) % 2 ^ 32⟩
        algo := ⟨(6 + LMFModel.arraySize r c m) % 2 ^ 32,
          (7 + LMFModel.arraySize r c m) % 2 ^ 32,
          ⟨⟨(8 + LMFModel.arraySize r c m) % 2 ^ 32, r, m⟩,
           ⟨((8 + LMFModel.arraySize r c m) % 2 ^ 32 + toUInt32 (toInt32 (r * m))) % 2 ^ 32,
            c, m⟩⟩⟩ } := by
  unfold LMFIGDState.allocate
  generalize LMFIGDState.arraySize r c m = n at h3 ⊢
  obtain ⟨k, rfl⟩ : ∃ k, n = k + 3 := ⟨n - 3, by omega⟩
  have hz : allocateArray (k + 3) = (0 : Double) :: 0 :: 0 :: List.replicate k 0 := by
    simp only [allocateArray, List.replicate_succ]
  have z0 : readInt32 (allocateArray (k + 3)) 0 = some 0 :=
    readInt32_of_cast (n := 0) (by rw [hz, Int.cast_zero]; rfl) (by norm_num) (by norm_num)
  have z1 : readInt32 (allocateArray (k + 3)) 1 = some 0 :=
    readInt32_of_cast (n := 0) (by rw [hz, Int.cast_zero]; rfl) (by norm_num) (by norm_num)
  have z2 : readInt32 (allocateArray (k + 3)) 2 = some 0 :=
    readInt32_of_cast (n := 0) (by rw [hz, Int.cast_zero]; simp) (by norm_num) (by norm_num)
  have w0 : writeAt (allocateArray (k + 3)) 0 (r : Double)
      = some ((r : Double) :: 0 :: 0 :: List.replicate k 0) := by
    rw [hz]; rfl
  have w1 : writeAt ((r : Double) :: 0 :: 0 :: List.replicate k 0) 1 (c : Double)
      = some ((r : Double) :: (c : Double) :: 0 :: List.replicate k 0) := rfl
  have w2 : writeAt ((r : Double) :: (c : Double) :: 0 :: List.replicate k 0) 2 (m : Double)
      = some ((r : Double) :: (c : Double) :: (m : Double) :: List.replicate k 0) := by
    simp [writeAt]
  have r0 : readInt32 ((r : Double) :: (c : Double) :: (m : Double) :: List.replicate k 0) 0
      = some r := readInt32_of_cast rfl hr.1 hr.2
  have r1 : readInt32 ((r : Double) :: (c : Double) :: (m : Double) :: List.replicate k 0) 1
      = some c := readInt32_of_cast rfl hc.1 hc.2
  have r2 : readInt32 ((r : Double) :: (c : Double) :: (m : Double) :: List.replicate k 0) 2
      = some m := readInt32_of_cast (by simp) hm.1 hm.2
  dsimp only
  rw [LMFIGDState_rebind_of_read (r := 0) (c := 0) (m := 0) z0 z1 z2]
  simp only [Option.bind_eq_bind, Option.some_bind, writeInteger, w0, w1, w2, Nat.add_sub_cancel]
  exact LMFIGDState_rebind_of_read r0 r1 r2

theorem LMFIGDState_reset_spec {s : LMFIGDState} {R C M : Nat}
    (hb : LMFIGDState.rebind s = some s)
    (hr : readInt32 s.mStorage 0 = some R) (hc : readInt32 s.mStorage 1 = some C)
    (hm : readInt32 s.mStorage 2 = some M)
    (hlen : 8 + 2 * ((R + C) * M) ≤ s.mStorage.length)
    (h31 : 8 + 2 * ((R + C) * M) < 2 ^ 31) :
    ∃ t, LMFIGDState.reset s = some { s with mStorage := t } ∧
      t.length = s.mStorage.length ∧
      ∀ j, t[j]? =
        if 6 + (R + C) * M ≤ j ∧ j < 8 + (R + C) * M then some 0
        else if 8 + (R + C) * M ≤ j ∧ j < 8 + 2 * ((R + C) * M) then
          s.mStorage[5 + (j - (8 + (R + C) * M))]?
        else s.mStorage[j]? := by
  obtain ⟨ht, ha⟩ := LMFIGDState_view_of_rebind hb hr hc hm h31
  have hL : (R + C) * M = R * M + C * M := by ring
  generalize (R + C) * M = L at *
  have w1 := writeAt_of_lt (s := s.mStorage) (i := 6 + L) 0 (by omega)
  have w2 := writeAt_of_lt (s := s.mStorage.set (6 + L) 0) (i := 7 + L) 0
    (by rw [List.length_set]; omega)
  obtain ⟨t3, f3, l3, g3⟩ := copyRange_spec ((s.mStorage.set (6 + L) 0).set (7 + L) 0)
    (8 + L) 5 (R * M) (by rw [List.length_set, List.length_set]; omega)
    (by rw [List.length_set, List.length_set]; omega) (by omega)
  obtain ⟨t4, f4, l4, g4⟩ := copyRange_spec t3 (8 + L + R * M) (5 + R * M) (C * M)
    (by rw [l3, List.length_set, List.length_set]; omega)
    (by rw [l3, List.length_set, List.length_set]; omega) (by omega)
  refine ⟨t4, ?_, by rw [l4, l3, List.length_set, List.length_set], ?_⟩
  · unfold LMFIGDState.reset
    rw [ha, ht]
    dsimp only
    unfold writeInteger LMFModel.assign MatrixMap.assign MatrixMap.size
    simp only [Int.cast_zero, w1, w2, Option.bind_eq_bind, Option.some_bind, and_self, if_true,
      Int.toNat_ofNat, f3, f4]
    rfl
  · intro j
    rw [g4 j]
    by_cases c4 : 8 + L + R * M ≤ j ∧ j < 8 + L + R * M + C * M
    · have e : 5 + R * M + (j - (8 + L + R * M)) = 5 + (j - (8 + L)) := by omega
      rw [if_pos c4, if_neg (by omega), if_pos (by omega), g3, if_neg (by omega),
        List.getElem?_set, if_neg (by omega), List.getElem?_set, if_neg (by omega), e]
    · rw [if_neg c4, g3]
      by_cases c3 : 8 + L ≤ j ∧ j < 8 + L + R * M
      · rw [if_pos c3, if_neg (by omega), if_pos (by omega),
          List.getElem?_set, if_neg (by omega), List.getElem?_set, if_neg (by omega)]
      · rw [if_neg c3, List.getElem?_set, List.getElem?_set]
        by_cases c2 : 7 + L = j
        · subst c2
          rw [if_pos rfl, if_pos (by rw [List.length_set]; omega), if_pos (by omega)]
        · by_cases c1 : 6 + L = j
          · subst c1
            rw [if_neg c2, if_pos rfl, if_pos (by omega), if_pos (by omega)]
          · rw [if_neg c2, if_neg c1, if_neg (by omega), if_neg (by omega)]

/-! ## Lemmas on `MLPIGDState` -/

theorem MLPModel_modelLen_congr {N : Nat} {f g : Nat → Int} (h : ∀ k, k ≤ N → f k = g k) :
    MLPModel.modelLen N f = MLPModel.modelLen N g := by
  unfold MLPModel.modelLen
  congr 1
  apply List.map_congr_left
  intro k hk
  rw [List.mem_range] at hk
  rw [h k (by omega), h (k + 1) (by omega)]

theorem MLPModel_arraySize_zero (f : Nat → Int) : MLPModel.arraySize 0 f = 0 := rfl

theorem MLPIGDState_rebind_of_read {L : Int32Layout} {s : MLPIGDState} {N : Nat}
    (hd : readUInt16 s.mStorage 0 = some N)
    (hu : N = 0 ∨ ∀ k, k ≤ N → (readInt32At L s.mStorage 1 k).isSome) :
    MLPIGDState.rebind L s = some
      { mStorage := s.mStorage
        task := ⟨0, 1, N + 2,
          ⟨N + 2, MLPModel.arraySize N (fun k => (readInt32At L s.mStorage 1 k).getD 0)⟩⟩
        algo :=
          ⟨N + 3 + MLPModel.arraySize N (fun k => (readInt32At L s.mStorage 1 k).getD 0),
           N + 4 + MLPModel.arraySize N (fun k => (readInt32At L s.mStorage 1 k).getD 0),
           ⟨N + 5 + MLPModel.arraySize N (fun k => (readInt32At L s.mStorage 1 k).getD 0),
            MLPModel.arraySize N (fun k => (readInt32At L s.mStorage 1 k).getD 0)⟩⟩ } := by
  unfold MLPIGDState.rebind MLPModel.rebind
  dsimp only
  rw [hd]
  simp only [Option.bind_eq_bind, Option.some_bind, if_pos hu]
  rfl

theorem MLPIGDState_view_of_rebind {L : Int32Layout} {s : MLPIGDState} {N : Nat}
    (hb : MLPIGDState.rebind L s = some s) (hd : readUInt16 s.mStorage 0 = some N) :
    s.task = ⟨0, 1, N + 2, ⟨N + 2, s.task.model.size⟩⟩ ∧
    s.algo = ⟨N + 3 + s.task.model.size, N + 4 + s.task.model.size,
      ⟨N + 5 + s.task.model.size, s.task.model.size⟩⟩ := by
  by_cases hu : N = 0 ∨ ∀ k, k ≤ N → (readInt32At L s.mStorage 1 k).isSome
  · rw [MLPIGDState_rebind_of_read hd hu] at hb
    have h := Option.some.inj hb
    have h1 := congrArg MLPIGDState.task h
    have h2 := congrArg MLPIGDState.algo h
    dsimp only at h1 h2
    rw [← h1, ← h2]
    exact ⟨rfl, rfl⟩
  · exfalso
    unfold MLPIGDState.rebind MLPModel.rebind at hb
    dsimp only at hb
    rw [hd] at hb
    simp only [Option.bind_eq_bind, Option.some_bind, if_neg hu] at hb
    exact Option.noConfusion hb

theorem MLPIGDState_reset_spec {L : Int32Layout} {s : MLPIGDState} {N : Nat}
    (hb : MLPIGDState.rebind L s = some s) (hd : readUInt16 s.mStorage 0 = some N)
    (hlen : N + 5 + 2 * s.task.model.size ≤ s.mStorage.length) :
    ∃ t, MLPIGDState.reset s = some { s with mStorage := t } ∧
      t.length = s.mStorage.length ∧
      ∀ j, t[j]? =
        if N + 3 + s.task.model.size ≤ j ∧ j < N + 5 + s.task.model.size then some 0
        else if N + 5 + s.task.model.size ≤ j ∧ j < N + 5 + 2 * s.task.model.size then
          s.mStorage[N + 2 + (j - (N + 5 + s.task.model.size))]?
        else s.mStorage[j]? := by
  obtain ⟨ht, ha⟩ := MLPIGDState_view_of_rebind hb hd
  generalize s.task.model.size = S at *
  have w1 := writeAt_of_lt (s := s.mStorage) (i := N + 3 + S) 0 (by omega)
  have w2 := writeAt_of_lt (s := s.mStorage.set (N + 3 + S) 0) (i := N + 4 + S) 0
    (by rw [List.length_set]; omega)
  obtain ⟨t3, f3, l3, g3⟩ := copyRange_spec ((s.mStorage.set (N + 3 + S) 0).set (N + 4 + S) 0)
    (N + 5 + S) (N + 2) S (by rw [List.length_set, List.length_set]; omega)
    (by rw [List.length_set, List.length_set]; omega) (by omega)
  refine ⟨t3, ?_, by rw [l3, List.length_set, List.length_set], ?_⟩
  · unfold MLPIGDState.reset
    rw [ha, ht]
    dsimp only
    unfold writeInteger MLPModel.assign
    simp only [Int.cast_zero, w1, w2, Option.bind_eq_bind, Option.some_bind, if_true, f3]
    rfl
  · intro j
    rw [g3 j]
    by_cases c3 : N + 5 + S ≤ j ∧ j < N + 5 + S + S
    · rw [if_pos c3, if_neg (by omega), if_pos (by omega),
        List.getElem?_set, if_neg (by omega), List.getElem?_set, if_neg (by omega)]
    · rw [if_neg c3, List.getElem?_set, List.getElem?_set]
      by_cases c2 : N + 4 + S = j
      · subst c2
        rw [if_pos rfl, if_pos (by rw [List.length_set]; omega), if_pos (by omega)]
      · by_cases c1 : N + 3 + S = j
        · subst c1
          rw [if_neg c2, if_pos rfl, if_pos (by omega), if_pos (by omega)]
        · rw [if_neg c2, if_neg c1, if_neg (by omega), if_neg (by omega)]

theorem option_eq_some_getD {α : Type} {x : Option α} (d : α) (h : x.isSome) :
    x = some (x.getD d) := by
  cases x with
  | none => simp at h
  | some a => rfl

theorem writeUnits_loop (L : Int32Layout) (s : Storage) (N : Nat) (n : Nat → Int)
    (hL : L.Stores N n) (hlen : 1 + N / 2 < s.length)
    (hz : ∀ i, 1 ≤ i → i ≤ 1 + N / 2 → s[i]? = some 0) (m : Nat) (hm : m ≤ N + 1) :
    ∃ t, (List.range m).foldlM (fun st k => writeInt32At L st 1 k (n k)) s = some t ∧
      t.length = s.length ∧
      ∀ i, t[i]? =
        if 1 ≤ i ∧ 2 * (i - 1) + 1 < m then
          some (L.pair (n (2 * (i - 1))) (n (2 * (i - 1) + 1)))
        else if 1 ≤ i ∧ 2 * (i - 1) < m then some (L.low (n (2 * (i - 1))))
        else s[i]? := by
  induction m with
  | zero =>
    refine ⟨s, rfl, rfl, ?_⟩
    intro i
    rw [if_neg (by omega), if_neg (by omega)]
  | succ m ih =>
    obtain ⟨t, ht, hl, hg⟩ := ih (by omega)
    have hi : 1 + m / 2 < t.length := by omega
    rcases Nat.mod_two_eq_zero_or_one m with h0 | h1
    · have e : 2 * (m / 2) = m := by omega
      have hcur : t[1 + m / 2]? = some 0 := by
        rw [hg, if_neg (by omega), if_neg (by omega)]
        exact hz _ (by omega) (by omega)
      have hset := option_eq_some_getD (0 : Double) (hL.1 (m / 2) (by omega)).1
      rw [e] at hset
      refine ⟨t.set (1 + m / 2) (L.low (n m)), ?_, by rw [List.length_set, hl], ?_⟩
      · rw [List.range_succ, List.foldlM_append, ht]
        simp only [Option.some_bind, List.foldlM_cons, List.foldlM_nil, Option.bind_eq_bind,
          writeInt32At, readAt, hcur, h0]
        rw [hset]
        simp only [Option.some_bind]
        rw [writeAt_of_lt _ hi]
        rfl
      · intro i
        rw [List.getElem?_set, hg i]
        by_cases c : 1 + m / 2 = i
        · subst c
          have e2 : 2 * (1 + m / 2 - 1) = m := by omega
          rw [if_pos rfl, if_pos hi, if_neg (by omega), if_pos (by omega), e2]
        · have hA : (1 ≤ i ∧ 2 * (i - 1) + 1 < m) ↔ (1 ≤ i ∧ 2 * (i - 1) + 1 < m + 1) :=
            ⟨fun h => by omega, fun h => by omega⟩
          have hB : (1 ≤ i ∧ 2 * (i - 1) < m) ↔ (1 ≤ i ∧ 2 * (i - 1) < m + 1) :=
            ⟨fun h => by omega, fun h => by omega⟩
          rw [if_neg c]
          exact if_congr hA rfl (if_congr hB rfl rfl)
    · have e : 2 * (m / 2) + 1 = m := by omega
      have hcur : t[1 + m / 2]? = some (L.low (n (2 * (m / 2)))) := by
        rw [hg, if_neg (by omega), if_pos (by omega)]
        have e2 : 1 + m / 2 - 1 = m / 2 := by omega
        rw [e2]
      have hset := option_eq_some_getD (0 : Double) (hL.2 (m / 2) (by omega)).1
      rw [e] at hset
      refine ⟨t.set (1 + m / 2) (L.pair (n (2 * (m / 2))) (n m)), ?_,
        by rw [List.length_set, hl], ?_⟩
      · rw [List.range_succ, List.foldlM_append, ht]
        simp only [Option.some_bind, List.foldlM_cons, List.foldlM_nil, Option.bind_eq_bind,
          writeInt32At, readAt, hcur, h1]
        rw [hset]
        simp only [Option.some_bind]
        rw [writeAt_of_lt _ hi]
        unfold Int32Layout.pair
        rfl
      · intro i
        rw [List.getElem?_set, hg i]
        by_cases c : 1 + m / 2 = i
        · subst c
          have e2 : 1 + m / 2 - 1 = m / 2 := by omega
          rw [if_pos rfl, if_pos hi, if_pos (by omega), e2, e]
        · have hA : (1 ≤ i ∧ 2 * (i - 1) + 1 < m) ↔ (1 ≤ i ∧ 2 * (i - 1) + 1 < m + 1) :=
            ⟨fun h => by omega, fun h => by omega⟩
          have hB : (1 ≤ i ∧ 2 * (i - 1) < m) ↔ (1 ≤ i ∧ 2 * (i - 1) < m + 1) :=
            ⟨fun h => by omega, fun h => by omega⟩
          rw [if_neg c]
          exact if_congr hA rfl (if_congr hB rfl rfl)

theorem writeUnits_spec (L : Int32Layout) (s : Storage) (N : Nat) (n : Nat → Int)
    (hL : L.Stores N n) (hlen : N + 2 ≤ s.length)
    (hz : ∀ i, 1 ≤ i → i < s.length → s[i]? = some 0) :
    ∃ t, MLPIGDState.writeUnits L s 1 N n = some t ∧ t.length = s.length ∧
      t[0]? = s[0]? ∧ (∀ j, N + 2 ≤ j → t[j]? = s[j]?) ∧
      ∀ k, k ≤ N → readInt32At L t 1 k = some (n k) := by
  obtain ⟨t, ht, hl, hg⟩ := writeUnits_loop L s N n hL (by omega)
    (fun i h1 h2 => hz i h1 (by omega)) (N + 1) le_rfl
  refine ⟨t, ht, hl, ?_, ?_, ?_⟩
  · rw [hg 0, if_neg (by omega), if_neg (by omega)]
  · intro j hj
    rw [hg j, if_neg (by omega), if_neg (by omega)]
  · intro k hk
    unfold readInt32At readAt
    have e1 : 1 + k / 2 - 1 = k / 2 := by omega
    rw [hg (1 + k / 2), e1]
    by_cases c : 1 ≤ 1 + k / 2 ∧ 2 * (k / 2) + 1 < N + 1
    · rw [if_pos c]
      simp only [Option.bind_eq_bind, Option.some_bind]
      obtain ⟨_, g0, g1⟩ := hL.2 (k / 2) (by omega)
      rcases Nat.mod_two_eq_zero_or_one k with h0 | h1
      · have e : 2 * (k / 2) = k := by omega
        rw [h0, g0, e]
        rfl
      · have e : 2 * (k / 2) + 1 = k := by omega
        rw [h1, g1, e]
        rfl
    · rw [if_neg c, if_pos (by omega)]
      simp only [Option.bind_eq_bind, Option.some_bind]
      have e : 2 * (k / 2) = k := by omega
      have h0 : k % 2 = 0 := by omega
      rw [h0, (hL.1 (k / 2) (by omega)).2, e]
      rfl

theorem MLPIGDState_allocate_spec (L : Int32Layout) (self : MLPIGDState) (N : Nat)
    (n : Nat → Int) (hL : L.Stores N n) (hN : N < 65535)
    (hlen : N + 2 ≤ MLPIGDState.arraySize N n) :
    ∃ s, MLPIGDState.allocate L self N n = some s ∧
      MLPIGDState.rebind L s = some s ∧
      readUInt16 s.mStorage 0 = some N ∧
      s.task.model.size = MLPModel.arraySize N n ∧
      s.mStorage.length = MLPIGDState.arraySize N n ∧
      s.mStorage[0]? = some (N : Double) ∧
      (∀ k, k ≤ N → readInt32At L s.mStorage 1 k = some (n k)) ∧
      (∀ j, N + 2 ≤ j → j < MLPIGDState.arraySize N n → s.mStorage[j]? = some 0) := by
  unfold MLPIGDState.allocate
  generalize MLPIGDState.arraySize N n = len at hlen ⊢
  have hz : ∀ j, j < len → (allocateArray len)[j]? = some 0 := by
    intro j hj
    unfold allocateArray
    rw [List.getElem?_replicate, if_pos hj]
  have hzl : (allocateArray len).length = len := List.length_replicate _ _
  have z0 : readUInt16 (allocateArray len) 0 = some 0 :=
    readUInt16_of_cast (n := 0) (by rw [hz 0 (by omega), Nat.cast_zero]) (by norm_num)
  have w0 := writeAt_of_lt (s := allocateArray len) (i := 0) ((N : Int) : Double)
    (by rw [hzl]; omega)
  obtain ⟨t, ft, lt, g0, gt, hu⟩ := writeUnits_spec L
    ((allocateArray len).set 0 ((N : Int) : Double)) N n hL
    (by rw [List.length_set, hzl]; omega)
    (fun i h1 h2 => by
      rw [List.length_set, hzl] at h2
      rw [List.getElem?_set, if_neg (by omega), hz i h2])
  have h0 : t[0]? = some (N : Double) := by
    rw [g0, List.getElem?_set, if_pos rfl, if_pos (by rw [hzl]; omega), Int.cast_natCast]
  have hd : readUInt16 t 0 = some N := readUInt16_of_cast h0 (by omega)
  have hS : MLPModel.arraySize N (fun k => (readInt32At L t 1 k).getD 0)
      = MLPModel.arraySize N n := by
    unfold MLPModel.arraySize
    rw [MLPModel_modelLen_congr (g := n)]
    intro k hk'
    rw [hu k hk']
    rfl
  have hfinal := MLPIGDState_rebind_of_read (L := L)
    (s := { mStorage := t, task := ⟨0, 1, 0 + 2, ⟨0 + 2, 0⟩⟩,
            algo := ⟨0 + 3 + 0, 0 + 4 + 0, ⟨0 + 5 + 0, 0⟩⟩ }) hd
    (Or.inr (fun k hk' => by rw [hu k hk']; rfl))
  dsimp only at hfinal
  refine ⟨{ mStorage := t,
             task := ⟨0, 1, N + 2,
               ⟨N + 2, MLPModel.arraySize N (fun k => (readInt32At L t 1 k).getD 0)⟩⟩,
             algo := ⟨N + 3 + MLPModel.arraySize N (fun k => (readInt32At L t 1 k).getD 0),
               N + 4 + MLPModel.arraySize N (fun k => (readInt32At L t 1 k).getD 0),
               ⟨N + 5 + MLPModel.arraySize N (fun k => (readInt32At L t 1 k).getD 0),
                MLPModel.arraySize N (fun k => (readInt32At L t 1 k).getD 0)⟩⟩ },
    ?_, ?_, hd, hS, (by rw [lt, List.length_set, hzl] : t.length = len), h0, hu, ?_⟩
  · dsimp only
    rw [MLPIGDState_rebind_of_read (L := L) (N := 0) z0 (Or.inl rfl)]
    simp only [Option.bind_eq_bind, Option.some_bind, writeInteger, w0, MLPModel_arraySize_zero,
      if_neg (by omega : ¬ N = 65535)]
    rw [ft]
    exact hfinal
  · exact MLPIGDState_rebind_of_read (L := L) (N := N) hd
      (Or.inr (fun k hk' => by rw [hu k hk']; rfl))
  · intro j h1 h2
    show t[j]? = _
    rw [gt j h1, List.getElem?_set, if_neg (by omega), hz j h2]

/-! ## What `allocate` leaves behind -/

theorem GLMIGDState_allocate_post (self : GLMIGDState) (dim : Nat) (h32 : dim < 2 ^ 32)
    (h0 : GLMIGDState.arraySize dim ≠ 0) :
    ∃ s, GLMIGDState.allocate self dim = some s ∧
      s.mStorage = (dim : Double) :: List.replicate (GLMIGDState.arraySize dim - 1) 0 ∧
      s.mStorage.length = GLMIGDState.arraySize dim ∧
      GLMIGDState.rebind s = some s ∧ s.task.dimension = 0 ∧ s.task.model = ⟨2, dim⟩ := by
  have e := GLMIGDState_allocate_eq self dim h32 h0
  generalize GLMIGDState.arraySize dim = n at e h0 ⊢
  refine ⟨_, e, rfl, ?_, ?_, rfl, rfl⟩
  · show ((dim : Double) :: List.replicate (n - 1) 0).length = n
    rw [List.length_cons, List.length_replicate]
    omega
  · exact GLMIGDState_rebind_of_read (readUInt32_of_cast List.getElem?_cons_zero h32)

theorem GLMCGState_allocate_post (self : GLMCGState) (dim : Nat) (h32 : dim < 2 ^ 32) :
    ∃ s, GLMCGState.allocate self dim = some s ∧
      s.mStorage = (dim : Double) :: List.replicate (GLMCGState.arraySize dim - 1) 0 ∧
      s.mStorage.length = GLMCGState.arraySize dim ∧
      GLMCGState.rebind s = some s ∧ s.task.dimension = 0 ∧ s.task.model = ⟨3, dim⟩ := by
  have e := GLMCGState_allocate_eq self dim h32
  have h0 := GLMCGState_arraySize_ne_zero dim
  generalize GLMCGState.arraySize dim = n at e h0 ⊢
  refine ⟨_, e, rfl, ?_, ?_, rfl, rfl⟩
  · show ((dim : Double) :: List.replicate (n - 1) 0).length = n
    rw [List.length_cons, List.length_replicate]
    omega
  · exact GLMCGState_rebind_of_read (readUInt32_of_cast List.getElem?_cons_zero h32)

theorem GLMNewtonState_allocate_post (self : GLMNewtonState) (dim : Nat) (h16 : dim < 2 ^ 16) :
    ∃ s, GLMNewtonState.allocate self dim = some s ∧
      s.mStorage = (dim : Double) :: List.replicate (GLMNewtonState.arraySize dim - 1) 0 ∧
      s.mStorage.length = GLMNewtonState.arraySize dim ∧
      GLMNewtonState.rebind s = some s ∧ s.task.dimension = 0 ∧ s.task.model = ⟨1, dim⟩ := by
  have e := GLMNewtonState_allocate_eq self dim h16
  have h0 := GLMNewtonState_arraySize_ne_zero dim
  generalize GLMNewtonState.arraySize dim = n at e h0 ⊢
  refine ⟨_, e, rfl, ?_, ?_, rfl, rfl⟩
  · show ((dim : Double) :: List.replicate (n - 1) 0).length = n
    rw [List.length_cons, List.length_replicate]
    omega
  · exact GLMNewtonState_rebind_of_read (readUInt16_of_cast List.getElem?_cons_zero h16)

theorem GLMIGDState_arraySize_eq_zero {d : Nat} (h32 : d < 2 ^ 32)
    (h : GLMIGDState.arraySize d = 0) : d = 1431655764 := by
  unfold GLMIGDState.arraySize at h
  by_cases c1 : 4 + 3 * d < 2 ^ 32
  · rw [Nat.mod_eq_of_lt c1] at h
    omega
  · rw [Nat.mod_eq_sub_mod (Nat.le_of_not_lt c1)] at h
    by_cases c2 : 4 + 3 * d - 2 ^ 32 < 2 ^ 32
    · rw [Nat.mod_eq_of_lt c2] at h
      omega
    · rw [Nat.mod_eq_sub_mod (Nat.le_of_not_lt c2)] at h
      by_cases c3 : 4 + 3 * d - 2 ^ 32 - 2 ^ 32 < 2 ^ 32
      · rw [Nat.mod_eq_of_lt c3] at h
        omega
      · have c4 : 4 + 3 * d - 2 ^ 32 - 2 ^ 32 - 2 ^ 32 < 2 ^ 32 := by
          clear h
          omega
        rw [Nat.mod_eq_sub_mod (Nat.le_of_not_lt c3), Nat.mod_eq_of_lt c4] at h
        omega

/-! ## `reset` directly after `allocate` -/

theorem getElem?_cons_replicate_zero (x : Double) (m j : Nat) (h1 : 1 ≤ j) (h2 : j ≤ m) :
    (x :: List.replicate m (0 : Double))[j]? = some 0 := by
  obtain ⟨i, rfl⟩ : ∃ i, j = i + 1 := ⟨j - 1, by omega⟩
  rw [List.getElem?_cons_succ, List.getElem?_replicate, if_pos (by omega)]

theorem GLMIGDState_reset_allocate (self : GLMIGDState) (dim : Nat)
    (h : 4 + 3 * dim < 2 ^ 32) :
    ∃ s, GLMIGDState.allocate self dim = some s ∧ GLMIGDState.reset s = some s := by
  have hsz : GLMIGDState.arraySize dim = 4 + 3 * dim := Nat.mod_eq_of_lt h
  obtain ⟨s, ha, hs, hl, hb, _, _⟩ :=
    GLMIGDState_allocate_post self dim (by omega) (by rw [hsz]; omega)
  rw [hsz] at hs hl
  have hd : readUInt32 s.mStorage 0 = some dim :=
    readUInt32_of_cast (by rw [hs]; exact List.getElem?_cons_zero) (by omega)
  obtain ⟨t, hr, hlt, hg⟩ := GLMIGDState_reset_spec hb hd (by omega) h
  have hz : ∀ j, 1 ≤ j → j < 4 + 3 * dim → s.mStorage[j]? = some 0 := by
    intro j h1 h2
    rw [hs]
    exact getElem?_cons_replicate_zero _ _ _ h1 (by omega)
  have ht : t = s.mStorage := by
    apply List.ext_getElem?
    intro j
    rw [hg j]
    by_cases c1 : 2 + dim ≤ j ∧ j < 4 + 2 * dim
    · rw [if_pos c1, hz j (by omega) (by omega)]
    · rw [if_neg c1]
      by_cases c2 : 4 + 2 * dim ≤ j ∧ j < 4 + 3 * dim
      · rw [if_pos c2, hz j (by omega) (by omega), hz _ (by omega) (by omega)]
      · rw [if_neg c2]
  rw [ht] at hr
  exact ⟨s, ha, hr⟩

theorem LMFIGDState_allocate_post (self : LMFIGDState) (r c m : Int)
    (hr : -2 ^ 31 ≤ r ∧ r < 2 ^ 31) (hc : -2 ^ 31 ≤ c ∧ c < 2 ^ 31)
    (hm : -2 ^ 31 ≤ m ∧ m < 2 ^ 31) (h3 : 3 ≤ LMFIGDState.arraySize r c m) :
    ∃ s, LMFIGDState.allocate self r c m = some s ∧
      s.mStorage = (r : Double) :: (c : Double) :: (m : Double) ::
        List.replicate (LMFIGDState.arraySize r c m - 3) 0 ∧
      s.mStorage.length = LMFIGDState.arraySize r c m ∧
      LMFIGDState.rebind s = some s ∧
      s.task.rowDim = 0 ∧ s.task.colDim = 1 ∧ s.task.maxRank = 2 ∧
      readInt32 s.mStorage 0 = some r ∧ readInt32 s.mStorage 1 = some c ∧
      readInt32 s.mStorage 2 = some m := by
  have e := LMFIGDState_allocate_eq self r c m hr hc hm h3
  generalize LMFIGDState.arraySize r c m = n at e h3 ⊢
  have r0 : readInt32 ((r : Double) :: (c : Double) :: (m : Double) ::
      List.replicate (n - 3) 0) 0 = some r := readInt32_of_cast rfl hr.1 hr.2
  have r1 : readInt32 ((r : Double) :: (c : Double) :: (m : Double) ::
      List.replicate (n - 3) 0) 1 = some c := readInt32_of_cast rfl hc.1 hc.2
  have r2 : readInt32 ((r : Double) :: (c : Double) :: (m : Double) ::
      List.replicate (n - 3) 0) 2 = some m := readInt32_of_cast (by simp) hm.1 hm.2
  refine ⟨_, e, rfl, ?_, ?_, rfl, rfl, rfl, r0, r1, r2⟩
  · show ((r : Double) :: (c : Double) :: (m : Double) :: List.replicate (n - 3) 0).length = n
    simp only [List.length_cons, List.length_replicate]
    omega
  · exact LMFIGDState_rebind_of_read r0 r1 r2

theorem LMFIGDState_reset_allocate (self : LMFIGDState) (R C M : Nat)
    (h : 8 + 2 * ((R + C) * M) < 2 ^ 31) (hR : R < 2 ^ 31) (hC : C < 2 ^ 31)
    (hM : M < 2 ^ 31) :
    ∃ s, LMFIGDState.allocate self R C M = some s ∧ LMFIGDState.reset s = some s := by
  have hsz : LMFIGDState.arraySize R C M = 8 + 2 * ((R + C) * M) := by
    unfold LMFIGDState.arraySize
    rw [LMFModel_arraySize_natCast (by omega)]
    exact Nat.mod_eq_of_lt (by omega)
  obtain ⟨s, ha, hs, hl, hb, _, _, _, hr, hc, hm⟩ := LMFIGDState_allocate_post self R C M
    ⟨by omega, by omega⟩ ⟨by omega, by omega⟩ ⟨by omega, by omega⟩ (by rw [hsz]; omega)
  rw [hsz] at hs hl
  obtain ⟨t, hrs, hlt, hg⟩ := LMFIGDState_reset_spec hb hr hc hm (by omega) h
  have hz : ∀ j, 3 ≤ j → j < 8 + 2 * ((R + C) * M) → s.mStorage[j]? = some 0 := by
    intro j h1 h2
    rw [hs]
    obtain ⟨i, rfl⟩ : ∃ i, j = i + 3 := ⟨j - 3, by omega⟩
    simp only [List.getElem?_cons_succ]
    rw [List.getElem?_replicate, if_pos (by omega)]
  have ht : t = s.mStorage := by
    apply List.ext_getElem?
    intro j
    rw [hg j]
    by_cases c1 : 6 + (R + C) * M ≤ j ∧ j < 8 + (R + C) * M
    · rw [if_pos c1, hz j (by omega) (by omega)]
    · rw [if_neg c1]
      by_cases c2 : 8 + (R + C) * M ≤ j ∧ j < 8 + 2 * ((R + C) * M)
      · rw [if_pos c2, hz j (by omega) (by omega), hz _ (by omega) (by omega)]
      · rw [if_neg c2]
  rw [ht] at hrs
  exact ⟨s, ha, hrs⟩

theorem MLPIGDState_arraySize_natural {N : Nat} {n : Nat → Int} (hn : ∀ k, k ≤ N → 0 ≤ n k)
    (hsz : (N : Int) + 5 + 2 * MLPModel.modelLen N n < 2 ^ 32) :
    (MLPModel.arraySize N n : Int) = MLPModel.modelLen N n ∧
    MLPIGDState.arraySize N n = N + 5 + 2 * MLPModel.arraySize N n := by
  have h0 := modelLen_nonneg N n hn
  have hm : (MLPModel.arraySize N n : Int) = MLPModel.modelLen N n :=
    toUInt32_of_lt h0 (by omega)
  refine ⟨hm, ?_⟩
  unfold MLPIGDState.arraySize
  dsimp only
  have : N + 5 + 2 * MLPModel.arraySize N n < 2 ^ 32 := by
    have : ((N + 5 + 2 * MLPModel.arraySize N n : Nat) : Int) < 2 ^ 32 := by
      push_cast
      rw [hm]
      exact hsz
    exact_mod_cast this
  rw [Nat.mod_eq_of_lt (by omega)]
  omega

theorem MLPIGDState_reset_allocate (L : Int32Layout) (self : MLPIGDState) (N : Nat)
    (n : Nat → Int) (hL : L.Stores N n) (hN : N < 65535) (hn : ∀ k, k ≤ N → 0 ≤ n k)
    (hsz : (N : Int) + 5 + 2 * MLPModel.modelLen N n < 2 ^ 32) :
    ∃ s, MLPIGDState.allocate L self N n = some s ∧ MLPIGDState.rebind L s = some s ∧
      s.mStorage.length = N + 5 + 2 * MLPModel.arraySize N n ∧
      (∀ k, k ≤ N → readInt32At L s.mStorage 1 k = some (n k)) ∧
      MLPIGDState.reset s = some s := by
  obtain ⟨_, hlen⟩ := MLPIGDState_arraySize_natural hn hsz
  obtain ⟨s, ha, hb, hd, hS, hl, _, hu, hz⟩ := MLPIGDState_allocate_spec L self N n hL hN
    (by omega)
  rw [hlen, ← hS] at hl hz
  obtain ⟨t, hrs, hlt, hg⟩ := MLPIGDState_reset_spec hb hd (by omega)
  have ht : t = s.mStorage := by
    apply List.ext_getElem?
    intro j
    rw [hg j]
    by_cases c1 : N + 3 + s.task.model.size ≤ j ∧ j < N + 5 + s.task.model.size
    · rw [if_pos c1, hz j (by omega) (by omega)]
    · rw [if_neg c1]
      by_cases c2 : N + 5 + s.task.model.size ≤ j ∧ j < N + 5 + 2 * s.task.model.size
      · rw [if_pos c2, hz j (by omega) (by omega), hz _ (by omega) (by omega)]
      · rw [if_neg c2]
  rw [ht] at hrs
  exact ⟨s, ha, hb, by rw [hl, hS], hu, hrs⟩

/-! ## What `reset` leaves behind in the IGD states -/

theorem GLMIGDState_reset_post {s : GLMIGDState} {d : Nat}
    (hb : GLMIGDState.rebind s = some s) (hd : readUInt32 s.mStorage 0 = some d)
    (hlen : 4 + 3 * d ≤ s.mStorage.length) (h32 : 4 + 3 * d < 2 ^ 32) :
    ∃ t, GLMIGDState.reset s = some t ∧ t.task = s.task ∧ t.algo = s.algo ∧
      readAt t.mStorage t.algo.numRows = some 0 ∧
      readAt t.mStorage t.algo.loss = some 0 ∧
      t.task.model.size = d ∧ t.algo.incrModel.size = d ∧ t.algo.gradient.size = d ∧
      (∀ k, k < d → ∃ x, readAt t.mStorage (t.task.model.data + k) = some x ∧
        readAt t.mStorage (t.algo.incrModel.data + k) = some x) ∧
      ∀ k, k < d → readAt t.mStorage (t.algo.gradient.data + k) = some 0 := by
  obtain ⟨ht, ha⟩ := GLMIGDState_view_of_rebind hb hd h32
  obtain ⟨t, hr, _, hg⟩ := GLMIGDState_reset_spec hb hd hlen h32
  refine ⟨_, hr, rfl, rfl, ?_, ?_, ?_, ?_, ?_, ?_, ?_⟩
  · show t[s.algo.numRows]? = some 0
    rw [ha]
    dsimp only
    rw [hg, if_pos (by omega)]
  · show t[s.algo.loss]? = some 0
    rw [ha]
    dsimp only
    rw [hg, if_pos (by omega)]
  · show s.task.model.size = d
    rw [ht]
  · show s.algo.incrModel.size = d
    rw [ha]
  · show s.algo.gradient.size = d
    rw [ha]
  · intro k hk
    obtain ⟨x, hx⟩ : ∃ x, s.mStorage[2 + k]? = some x :=
      ⟨_, List.getElem?_eq_getElem (by omega)⟩
    refine ⟨x, ?_, ?_⟩
    · show t[s.task.model.data + k]? = some x
      rw [ht]
      dsimp only
      rw [hg, if_neg (by omega), if_neg (by omega), hx]
    · show t[s.algo.incrModel.data + k]? = some x
      rw [ha]
      dsimp only
      rw [hg, if_neg (by omega), if_pos (by omega), Nat.add_sub_cancel_left, hx]
  · intro k hk
    show t[s.algo.gradient.data + k]? = some 0
    rw [ha]
    dsimp only
    rw [hg, if_pos (by omega)]

theorem LMFIGDState_reset_post {s : LMFIGDState} {R C M : Nat}
    (hb : LMFIGDState.rebind s = some s)
    (hr : readInt32 s.mStorage 0 = some R) (hc : readInt32 s.mStorage 1 = some C)
    (hm : readInt32 s.mStorage 2 = some M)
    (hlen : 8 + 2 * ((R + C) * M) ≤ s.mStorage.length)
    (h31 : 8 + 2 * ((R + C) * M) < 2 ^ 31) :
    ∃ t, LMFIGDState.reset s = some t ∧ t.task = s.task ∧ t.algo = s.algo ∧
      readAt t.mStorage t.algo.numRows = some 0 ∧
      readAt t.mStorage t.algo.loss = some 0 ∧
      t.task.model.matrixU.size = R * M ∧ t.algo.incrModel.matrixU.size = R * M ∧
      t.task.model.matrixV.size = C * M ∧ t.algo.incrModel.matrixV.size = C * M ∧
      (∀ k, k < R * M → ∃ x, readAt t.mStorage (t.task.model.matrixU.data + k) = some x ∧
        readAt t.mStorage (t.algo.incrModel.matrixU.data + k) = some x) ∧
      ∀ k, k < C * M → ∃ x, readAt t.mStorage (t.task.model.matrixV.data + k) = some x ∧
        readAt t.mStorage (t.algo.incrModel.matrixV.data + k) = some x := by
  obtain ⟨ht, ha⟩ := LMFIGDState_view_of_rebind hb hr hc hm h31
  obtain ⟨t, hrs, _, hg⟩ := LMFIGDState_reset_spec hb hr hc hm hlen h31
  have hL : (R + C) * M = R * M + C * M := by ring
  refine ⟨_, hrs, rfl, rfl, ?_, ?_, ?_, ?_, ?_, ?_, ?_, ?_⟩
  · show t[s.algo.numRows]? = some 0
    rw [ha]
    dsimp only
    rw [hg, if_pos (by omega)]
  · show t[s.algo.loss]? = some 0
    rw [ha]
    dsimp only
    rw [hg, if_pos (by omega)]
  · show s.task.model.matrixU.size = R * M
    rw [ht]
    simp only [MatrixMap.size, Int.toNat_ofNat]
  · show s.algo.incrModel.matrixU.size = R * M
    rw [ha]
    simp only [MatrixMap.size, Int.toNat_ofNat]
  · show s.task.model.matrixV.size = C * M
    rw [ht]
    simp only [MatrixMap.size, Int.toNat_ofNat]
  · show s.algo.incrModel.matrixV.size = C * M
    rw [ha]
    simp only [MatrixMap.size, Int.toNat_ofNat]
  · intro k hk
    obtain ⟨x, hx⟩ : ∃ x, s.mStorage[5 + k]? = some x :=
      ⟨_, List.getElem?_eq_getElem (by omega)⟩
    refine ⟨x, ?_, ?_⟩
    · show t[s.task.model.matrixU.data + k]? = some x
      rw [ht]
      dsimp only
      rw [hg, if_neg (by omega), if_neg (by omega), hx]
    · show t[s.algo.incrModel.matrixU.data + k]? = some x
      rw [ha]
      dsimp only
      rw [hg, if_neg (by omega), if_pos (by omega), Nat.add_sub_cancel_left, hx]
  · intro k hk
    obtain ⟨x, hx⟩ : ∃ x, s.mStorage[5 + R * M + k]? = some x :=
      ⟨_, List.getElem?_eq_getElem (by omega)⟩
    refine ⟨x, ?_, ?_⟩
    · show t[s.task.model.matrixV.data + k]? = some x
      rw [ht]
      dsimp only
      rw [hg, if_neg (by omega), if_neg (by omega), hx]
    · show t[s.algo.incrModel.matrixV.data + k]? = some x
      rw [ha]
      dsimp only
      have e : 5 + (8 + (R + C) * M + R * M + k - (8 + (R + C) * M)) = 5 + R * M + k := by
        omega
      rw [hg, if_neg (by omega), if_pos (by omega), e, hx]

theorem MLPIGDState_reset_post {L : Int32Layout} {s : MLPIGDState} {N : Nat}
    (hb : MLPIGDState.rebind L s = some s) (hd : readUInt16 s.mStorage 0 = some N)
    (hlen : N + 5 + 2 * s.task.model.size ≤ s.mStorage.length) :
    ∃ t, MLPIGDState.reset s = some t ∧ t.task = s.task ∧ t.algo = s.algo ∧
      readAt t.mStorage t.algo.numRows = some 0 ∧
      readAt t.mStorage t.algo.loss = some 0 ∧
      t.algo.incrModel.size = t.task.model.size ∧
      ∀ k, k < t.task.model.size →
        ∃ x, readAt t.mStorage (t.task.model.data + k) = some x ∧
          readAt t.mStorage (t.algo.incrModel.data + k) = some x := by
  obtain ⟨ht, ha⟩ := MLPIGDState_view_of_rebind hb hd
  obtain ⟨t, hrs, _, hg⟩ := MLPIGDState_reset_spec hb hd hlen
  generalize s.task.model.size = S at ht ha hg hlen
  refine ⟨_, hrs, rfl, rfl, ?_, ?_, ?_, ?_⟩
  · show t[s.algo.numRows]? = some 0
    rw [ha]
    dsimp only
    rw [hg, if_pos (by omega)]
  · show t[s.algo.loss]? = some 0
    rw [ha]
    dsimp only
    rw [hg, if_pos (by omega)]
  · show s.algo.incrModel.size = s.task.model.size
    rw [ha, ht]
  · intro k hk
    have hk' : k < S := by
      have e : s.task.model.size = S := by rw [ht]
      rw [← e]
      exact hk
    obtain ⟨x, hx⟩ : ∃ x, s.mStorage[N + 2 + k]? = some x :=
      ⟨_, List.getElem?_eq_getElem (by omega)⟩
    refine ⟨x, ?_, ?_⟩
    · show t[s.task.model.data + k]? = some x
      rw [ht]
      dsimp only
      rw [hg, if_neg (by omega), if_neg (by omega), hx]
    · show t[s.algo.incrModel.data + k]? = some x
      rw [ha]
      dsimp only
      rw [hg, if_neg (by omega), if_pos (by omega), Nat.add_sub_cancel_left, hx]

theorem LMFIGDState_arraySize_int {r c m : Int} (hr : 0 ≤ r) (hc : 0 ≤ c) (hm : 0 ≤ m)
    (hsz : 8 + 2 * ((r + c) * m) < 2 ^ 32) :
    (LMFModel.arraySize r c m : Int) = (r + c) * m ∧
    (LMFIGDState.arraySize r c m : Int) = 8 + 2 * ((r + c) * m) := by
  have h0 : 0 ≤ (r + c) * m := mul_nonneg (by omega) hm
  have hl : (LMFModel.arraySize r c m : Int) = (r + c) * m := by
    unfold LMFModel.arraySize
    rw [toUInt32_toInt32_mul]
    exact toUInt32_of_lt h0 (by omega)
  refine ⟨hl, ?_⟩
  unfold LMFIGDState.arraySize
  push_cast
  rw [hl, Int.emod_eq_of_lt (by omega) (by omega)]

/-! ## The IEEE-754 layout stores small unit counts -/

theorem scaled_mkRat (X D : Nat) (hD : D ≠ 0) :
    (mkRat (X : Int) D).num.natAbs * D / (mkRat (X : Int) D).den = X := by
  have hq : mkRat (X : Int) D = (X : ℚ) / (D : ℚ) := by
    rw [Rat.mkRat_eq_div, Int.cast_natCast]
  have h0 : (0 : ℚ) ≤ mkRat (X : Int) D := by
    rw [hq]
    positivity
  have hnd := Rat.num_div_den (mkRat (X : Int) D)
  generalize mkRat (X : Int) D = q at hq h0 hnd ⊢
  have hnum : 0 ≤ q.num := Rat.num_nonneg.mpr h0
  have hden : 0 < q.den := q.den_pos
  have hDq : (D : ℚ) ≠ 0 := by exact_mod_cast hD
  have hdq : (q.den : ℚ) ≠ 0 := by exact_mod_cast hden.ne'
  have hcross : (q.num : ℚ) * (D : ℚ) = (X : ℚ) * (q.den : ℚ) := by
    have h3 : (q.num : ℚ) / (q.den : ℚ) = (X : ℚ) / (D : ℚ) := hnd.trans hq
    rw [div_eq_div_iff hdq hDq] at h3
    exact h3
  obtain ⟨a, ha⟩ : ∃ a : Nat, q.num = (a : Int) := ⟨q.num.toNat, by omega⟩
  rw [ha] at hcross ⊢
  have hc : a * D = X * q.den := by exact_mod_cast hcross
  rw [Int.natAbs_ofNat, hc, Nat.mul_div_cancel _ hden]

theorem ieeeBits_mkRat {X : Nat} (hX : X < 2 ^ 52) :
    ieeeBits (mkRat (X : Int) (1 <<< 1074)) = X := by
  have hD : (1 <<< 1074 : Nat) ≠ 0 := by
    rw [Nat.one_shiftLeft]
    exact (Nat.two_pow_pos 1074).ne'
  have h52 : (1 <<< 52 : Nat) = 2 ^ 52 := Nat.one_shiftLeft 52
  unfold ieeeBits
  dsimp only
  generalize (1 <<< 1074 : Nat) = D at hD ⊢
  have hneg : ¬ mkRat (X : Int) D < 0 := by
    rw [not_lt, Rat.mkRat_eq_div]
    positivity
  rw [scaled_mkRat X D hD, if_neg hneg, h52, if_pos hX]

theorem ieeeValue_small {X : Nat} (hX : X < 2 ^ 52) :
    ieeeValue X = some (mkRat (X : Int) (1 <<< 1074)) := by
  have h52 : (1 <<< 52 : Nat) = 2 ^ 52 := Nat.one_shiftLeft 52
  have e1 : X >>> 52 = 0 := by
    rw [Nat.shiftRight_eq_div_pow]
    exact Nat.div_eq_of_lt hX
  have e2 : X >>> 63 = 0 := by
    rw [Nat.shiftRight_eq_div_pow]
    exact Nat.div_eq_of_lt (by omega)
  unfold ieeeValue
  dsimp only
  rw [e1, e2, h52, Nat.mod_eq_of_lt hX]
  simp

theorem ieee754_stores (N : Nat) (n : Nat → Int)
    (hn : ∀ k, k ≤ N → 0 ≤ n k ∧ n k < 2 ^ 20) : ieee754.Stores N n := by
  have hbits0 : ieeeBits 0 = 0 := by decide
  have hset0 : ∀ a : Nat, a < 2 ^ 20 →
      ieee754.set 0 0 (a : Int) = some (mkRat (a : Int) (1 <<< 1074)) := by
    intro a ha
    show ieeeValue _ = _
    rw [if_pos rfl, hbits0, toUInt32_natCast (by omega)]
    simp only [Nat.zero_div, Nat.zero_mul, Nat.zero_add]
    exact ieeeValue_small (by omega)
  have hlow : ∀ a : Nat, a < 2 ^ 20 →
      ieee754.low (a : Int) = mkRat (a : Int) (1 <<< 1074) := by
    intro a ha
    unfold Int32Layout.low
    rw [hset0 a ha]
    rfl
  have hget0 : ∀ X : Nat, X < 2 ^ 52 →
      ieee754.get (mkRat (X : Int) (1 <<< 1074)) 0 = toInt32 ((X % 2 ^ 32 : Nat) : Int) := by
    intro X hX
    show toInt32 _ = _
    rw [if_pos rfl, ieeeBits_mkRat hX]
    rfl
  have hget1 : ∀ X : Nat, X < 2 ^ 52 →
      ieee754.get (mkRat (X : Int) (1 <<< 1074)) 1 = toInt32 ((X / 2 ^ 32 : Nat) : Int) := by
    intro X hX
    show toInt32 _ = _
    rw [if_neg (by decide), ieeeBits_mkRat hX]
    rfl
  have hset1 : ∀ a b : Nat, a < 2 ^ 20 → b < 2 ^ 20 →
      ieee754.set (mkRat (a : Int) (1 <<< 1074)) 1 (b : Int)
        = some (mkRat ((b * 2 ^ 32 + a : Nat) : Int) (1 <<< 1074)) := by
    intro a b ha hb
    show ieeeValue _ = _
    rw [if_neg (by decide), ieeeBits_mkRat (by omega), toUInt32_natCast (by omega),
      Nat.mod_eq_of_lt (by omega)]
    exact ieeeValue_small (by omega)
  constructor
  · intro j hj
    obtain ⟨h0, h1⟩ := hn (2 * j) hj
    obtain ⟨a, ha⟩ : ∃ a : Nat, n (2 * j) = (a : Int) := ⟨(n (2 * j)).toNat, by omega⟩
    rw [ha] at h0 h1 ⊢
    have ha' : a < 2 ^ 20 := by omega
    rw [hlow a ha', hset0 a ha', hget0 a (by omega), Nat.mod_eq_of_lt (by omega)]
    exact ⟨rfl, toInt32_of_range (by omega) (by omega)⟩
  · intro j hj
    obtain ⟨h0, h1⟩ := hn (2 * j) (by omega)
    obtain ⟨h2, h3⟩ := hn (2 * j + 1) hj
    obtain ⟨a, ha⟩ : ∃ a : Nat, n (2 * j) = (a : Int) := ⟨(n (2 * j)).toNat, by omega⟩
    obtain ⟨b, hb⟩ : ∃ b : Nat, n (2 * j + 1) = (b : Int) :=
      ⟨(n (2 * j + 1)).toNat, by omega⟩
    rw [ha] at h0 h1 ⊢
    rw [hb] at h2 h3 ⊢
    have ha' : a < 2 ^ 20 := by omega
    have hb' : b < 2 ^ 20 := by omega
    have hp : ieee754.pair (a : Int) (b : Int)
        = mkRat ((b * 2 ^ 32 + a : Nat) : Int) (1 <<< 1074) := by
      unfold Int32Layout.pair
      rw [hlow a ha', hset1 a b ha' hb']
      rfl
    rw [hp, hlow a ha', hset1 a b ha' hb', hget0 _ (by omega), hget1 _ (by omega)]
    have e0 : (b * 2 ^ 32 + a) % 2 ^ 32 = a := by omega
    have e1 : (b * 2 ^ 32 + a) / 2 ^ 32 = b := by omega
    rw [e0, e1]
    exact ⟨rfl, toInt32_of_range (by omega) (by omega),
      toInt32_of_range (by omega) (by omega)⟩

/-! ## Assignment into a buffer of another length -/

theorem assignStorage_take (dst src : Storage) (h : dst.length ≤ src.length) :
    assignStorage dst src = some (src.take dst.length) := by
  unfold assignStorage
  rw [assignStorage_loop dst src dst.length le_rfl h]
  simp

/-! ## Lemmas on `LMFIGDState.computeRMSE` -/

theorem LMFIGDState_computeRMSE_eq (sqrt : Double → Double) {s : LMFIGDState} {l : Double}
    {n : Nat} (hl : readAt s.mStorage s.algo.loss = some l)
    (hn : readUInt64 s.mStorage s.algo.numRows = some n)
    (hR : s.task.RMSE < s.mStorage.length) :
    LMFIGDState.computeRMSE sqrt s = some ((s.mStorage.map IEEEDouble.finite).set s.task.RMSE
      (IEEEDouble.sqrt sqrt (IEEEDouble.divByCount l n))) := by
  unfold LMFIGDState.computeRMSE
  rw [hl, hn]
  simp only [Option.bind_eq_bind, Option.some_bind, if_pos hR]

theorem getElem?_set_map_finite (s : Storage) (i : Nat) (v : IEEEDouble)
    (hi : i < s.length) (j : Nat) :
    ((s.map IEEEDouble.finite).set i v)[j]?
      = if j = i then some v else (s[j]?).map IEEEDouble.finite := by
  rw [List.getElem?_set]
  by_cases h : i = j
  · subst h
    simp [hi]
  · have h2 : ¬ j = i := fun e => h e.symm
    simp [h, h2]

theorem sqrtOfSquare_exact : ExactOnSquares sqrtOfSquare := by
  intro r hr
  unfold sqrtOfSquare
  have hnum : 0 ≤ r.num := Rat.num_nonneg.mpr hr
  have h1 : (r * r).num.toNat = r.num.toNat * r.num.toNat := by
    rw [Rat.mul_self_num]
    have : r.num = (r.num.toNat : Int) := (Int.toNat_of_nonneg hnum).symm
    rw [this]
    norm_cast
  rw [h1, Rat.mul_self_den, Nat.sqrt_eq, Nat.sqrt_eq]
  have h2 : ((r.num.toNat : Nat) : ℚ) = ((r.num : Int) : ℚ) := by
    have := Int.toNat_of_nonneg hnum
    exact_mod_cast congrArg (fun z : Int => (z : ℚ)) this
  rw [h2]
  exact Rat.num_div_den r

/-! ## The layout of `LMFIGDState` -/

theorem LMFIGDState_rebind_layout {s : LMFIGDState} {R C M : Nat}
    (hr : readInt32 s.mStorage 0 = some R) (hc : readInt32 s.mStorage 1 = some C)
    (hm : readInt32 s.mStorage 2 = some M) (h32 : 8 + 2 * ((R + C) * M) < 2 ^ 32)
    (hs : 5 + R * M < 2 ^ 31) :
    LMFIGDState.rebind s = some
      { mStorage := s.mStorage
        task := ⟨0, 1, 2, 3, 4, ⟨⟨5, R, M⟩, ⟨5 + R * M, C, M⟩⟩, 5 + (R + C) * M⟩
        algo := ⟨6 + (R + C) * M, 7 + (R + C) * M,
          ⟨⟨8 + (R + C) * M, R, M⟩, ⟨8 + (R + C) * M + R * M, C, M⟩⟩⟩ } := by
  rw [LMFIGDState_rebind_of_read hr hc hm]
  have hL : (R + C) * M = R * M + C * M := by ring
  have e0 : LMFModel.arraySize R C M = (R + C) * M := LMFModel_arraySize_natCast (by omega)
  have hrm : ((R : Int) * (M : Int)) = ((R * M : Nat) : Int) := by push_cast; rfl
  have e1 : toInt32 ((R : Int) * (M : Int)) = ((R * M : Nat) : Int) := by
    rw [hrm]
    exact toInt32_of_range (by omega) (by omega)
  have e2 : toSizeT (toInt32 (5 + toInt32 ((R : Int) * (M : Int)))) = 5 + R * M := by
    rw [e1, toInt32_of_range (by omega) (by omega)]
    have : (5 : Int) + ((R * M : Nat) : Int) = ((5 + R * M : Nat) : Int) := by push_cast; rfl
    rw [this]
    exact toSizeT_natCast (by omega)
  have e3 : toUInt32 (toInt32 ((R : Int) * (M : Int))) = R * M := by
    rw [e1]
    exact toUInt32_natCast (by omega)
  rw [e0, e2, e3]
  have e5 : (5 + (R + C) * M) % 2 ^ 32 = 5 + (R + C) * M := Nat.mod_eq_of_lt (by omega)
  have e6 : (6 + (R + C) * M) % 2 ^ 32 = 6 + (R + C) * M := Nat.mod_eq_of_lt (by omega)
  have e7 : (7 + (R + C) * M) % 2 ^ 32 = 7 + (R + C) * M := Nat.mod_eq_of_lt (by omega)
  have e8 : (8 + (R + C) * M) % 2 ^ 32 = 8 + (R + C) * M := Nat.mod_eq_of_lt (by omega)
  have e9 : (8 + (R + C) * M + R * M) % 2 ^ 32 = 8 + (R + C) * M + R * M :=
    Nat.mod_eq_of_lt (by omega)
  rw [e5, e6, e7, e8, e9]

theorem range'_glue (s m n t : Nat) (h : t = s + m) :
    List.range' s m ++ List.range' t n = List.range' s (m + n) := by
  subst h
  rw [List.range'_append_1, Nat.add_comm]

theorem LMFIGDState_layout_indices (R C M : Nat) :
    [0, 1, 2, 3, 4] ++ List.range' 5 (R * M) ++ List.range' (5 + R * M) (C * M)
      ++ [5 + (R + C) * M] ++ [6 + (R + C) * M, 7 + (R + C) * M]
      ++ List.range' (8 + (R + C) * M) (R * M)
      ++ List.range' (8 + (R + C) * M + R * M) (C * M)
    = List.range (8 + 2 * ((R + C) * M)) := by
  have hL : (R + C) * M = R * M + C * M := by ring
  rw [hL]
  generalize R * M = a
  generalize C * M = b
  have h0 : ([0, 1, 2, 3, 4] : List Nat) = List.range' 0 5 := rfl
  have h1 : [5 + (a + b)] = List.range' (5 + (a + b)) 1 := rfl
  have h2 : [6 + (a + b), 7 + (a + b)] = List.range' (6 + (a + b)) 2 := by
    have e : 7 + (a + b) = 6 + (a + b) + 1 := by omega
    rw [e]
    rfl
  rw [h0, h1, h2, List.range_eq_range',
    range'_glue 0 5 a 5 (by omega),
    range'_glue 0 (5 + a) b (5 + a) (by omega),
    range'_glue 0 (5 + a + b) 1 (5 + (a + b)) (by omega),
    range'_glue 0 (5 + a + b + 1) 2 (6 + (a + b)) (by omega),
    range'_glue 0 (5 + a + b + 1 + 2) a (8 + (a + b)) (by omega),
    range'_glue 0 (5 + a + b + 1 + 2 + a) b (8 + (a + b) + a) (by omega)]
  congr 1
  omega

/-! ## `rebind` as a function of the dimension fields -/

theorem GLMIGDState_rebind_congr {s t u : GLMIGDState} (h : GLMIGDState.rebind s = some t)
    (hu : u.mStorage[0]? = s.mStorage[0]?) :
    t.mStorage = s.mStorage ∧
    GLMIGDState.rebind u = some { mStorage := u.mStorage, task := t.task, algo := t.algo } := by
  cases hd : readUInt32 s.mStorage 0 with
  | none =>
    unfold GLMIGDState.rebind at h
    dsimp only at h
    rw [hd] at h
    exact Option.noConfusion h
  | some d =>
    rw [GLMIGDState_rebind_of_read hd] at h
    rw [← Option.some.inj h]
    exact ⟨rfl, GLMIGDState_rebind_of_read ((readUInt32_congr hu).trans hd)⟩

theorem GLMCGState_rebind_congr {s t u : GLMCGState} (h : GLMCGState.rebind s = some t)
    (hu : u.mStorage[0]? = s.mStorage[0]?) :
    t.mStorage = s.mStorage ∧
    GLMCGState.rebind u = some { mStorage := u.mStorage, task := t.task, algo := t.algo } := by
  cases hd : readUInt32 s.mStorage 0 with
  | none =>
    unfold GLMCGState.rebind at h
    dsimp only at h
    rw [hd] at h
    exact Option.noConfusion h
  | some d =>
    rw [GLMCGState_rebind_of_read hd] at h
    rw [← Option.some.inj h]
    exact ⟨rfl, GLMCGState_rebind_of_read ((readUInt32_congr hu).trans hd)⟩

theorem GLMNewtonState_rebind_congr {s t u : GLMNewtonState}
    (h : GLMNewtonState.rebind s = some t) (hu : u.mStorage[0]? = s.mStorage[0]?) :
    t.mStorage = s.mStorage ∧
    GLMNewtonState.rebind u
      = some { mStorage := u.mStorage, task := t.task, algo := t.algo } := by
  cases hd : readUInt16 s.mStorage 0 with
  | none =>
    unfold GLMNewtonState.rebind at h
    dsimp only at h
    rw [hd] at h
    exact Option.noConfusion h
  | some d =>
    rw [GLMNewtonState_rebind_of_read hd] at h
    rw [← Option.some.inj h]
    exact ⟨rfl, GLMNewtonState_rebind_of_read ((readUInt16_congr hu).trans hd)⟩

theorem LMFIGDState_rebind_congr {s t u : LMFIGDState} (h : LMFIGDState.rebind s = some t)
    (h0 : u.mStorage[0]? = s.mStorage[0]?) (h1 : u.mStorage[1]? = s.mStorage[1]?)
    (h2 : u.mStorage[2]? = s.mStorage[2]?) :
    t.mStorage = s.mStorage ∧
    LMFIGDState.rebind u = some { mStorage := u.mStorage, task := t.task, algo := t.algo } := by
  cases hr : readInt32 s.mStorage 0 with
  | none =>
    unfold LMFIGDState.rebind at h
    dsimp only at h
    rw [hr] at h
    exact Option.noConfusion h
  | some r =>
    cases hc : readInt32 s.mStorage 1 with
    | none =>
      unfold LMFIGDState.rebind at h
      dsimp only at h
      rw [hr, hc] at h
      exact Option.noConfusion h
    | some c =>
      cases hm : readInt32 s.mStorage 2 with
      | none =>
        unfold LMFIGDState.rebind at h
        dsimp only at h
        rw [hr, hc, hm] at h
        exact Option.noConfusion h
      | some m =>
        rw [LMFIGDState_rebind_of_read hr hc hm] at h
        rw [← Option.some.inj h]
        exact ⟨rfl, LMFIGDState_rebind_of_read ((readInt32_congr h0).trans hr)
          ((readInt32_congr h1).trans hc) ((readInt32_congr h2).trans hm)⟩

theorem readInt32At_congr (L : Int32Layout) {s t : Storage} {p k : Nat}
    (h : t[p + k / 2]? = s[p + k / 2]?) : readInt32At L t p k = readInt32At L s p k := by
  simp [readInt32At, readAt, h]

theorem MLPIGDState_rebind_congr {L : Int32Layout} {s t u : MLPIGDState} {N : Nat}
    (h : MLPIGDState.rebind L s = some t) (hN : readUInt16 s.mStorage 0 = some N)
    (hu : ∀ i, i ≤ 1 + N / 2 → u.mStorage[i]? = s.mStorage[i]?) :
    t.mStorage = s.mStorage ∧
    MLPIGDState.rebind L u
      = some { mStorage := u.mStorage, task := t.task, algo := t.algo } := by
  by_cases hc : N = 0 ∨ ∀ k, k ≤ N → (readInt32At L s.mStorage 1 k).isSome
  · have hr : ∀ k, k ≤ N →
        readInt32At L u.mStorage 1 k = readInt32At L s.mStorage 1 k :=
      fun k hk => readInt32At_congr L (hu (1 + k / 2) (by omega))
    have hcu : N = 0 ∨ ∀ k, k ≤ N → (readInt32At L u.mStorage 1 k).isSome := by
      rcases hc with h0 | h1
      · exact Or.inl h0
      · exact Or.inr (fun k hk => by rw [hr k hk]; exact h1 k hk)
    have hS : MLPModel.arraySize N (fun k => (readInt32At L u.mStorage 1 k).getD 0)
        = MLPModel.arraySize N (fun k => (readInt32At L s.mStorage 1 k).getD 0) := by
      unfold MLPModel.arraySize
      rw [MLPModel_modelLen_congr (fun k hk => by rw [hr k hk])]
    rw [MLPIGDState_rebind_of_read hN hc] at h
    rw [← Option.some.inj h]
    refine ⟨rfl, ?_⟩
    rw [MLPIGDState_rebind_of_read ((readUInt16_congr (hu 0 (by omega))).trans hN) hcu, hS]
  · exfalso
    unfold MLPIGDState.rebind MLPModel.rebind at h
    dsimp only at h
    rw [hN] at h
    simp only [Option.bind_eq_bind, Option.some_bind, if_neg hc] at h
    exact Option.noConfusion h

theorem MLPIGDState_read_of_rebind {L : Int32Layout} {s t : MLPIGDState}
    (h : MLPIGDState.rebind L s = some t) :
    ∃ N, readUInt16 s.mStorage 0 = some N := by
  cases hd : readUInt16 s.mStorage 0 with
  | none =>
    unfold MLPIGDState.rebind at h
    dsimp only at h
    rw [hd] at h
    exact Option.noConfusion h
  | some d => exact ⟨d, rfl⟩

/-! ## The constructor on an array initialised by the database -/

theorem LMFIGDState_ofArray_zero (a : Storage) (h0 : a[0]? = some 0) (h1 : a[1]? = some 0)
    (h2 : a[2]? = some 0) :
    LMFIGDState.ofArray a = some
      { mStorage := a
        task := ⟨0, 1, 2, 3, 4, ⟨⟨5, 0, 0⟩, ⟨5, 0, 0⟩⟩, 5⟩
        algo := ⟨6, 7, ⟨⟨8, 0, 0⟩, ⟨8, 0, 0⟩⟩⟩ } := by
  have c : ((0 : Int) : Double) = 0 := Int.cast_zero
  have r0 : readInt32 a 0 = some 0 := readInt32_of_cast (by rw [c]; exact h0) (by decide)
    (by decide)
  have r1 : readInt32 a 1 = some 0 := readInt32_of_cast (by rw [c]; exact h1) (by decide)
    (by decide)
  have r2 : readInt32 a 2 = some 0 := readInt32_of_cast (by rw [c]; exact h2) (by decide)
    (by decide)
  unfold LMFIGDState.ofArray
  rw [LMFIGDState_rebind_of_read (s := ⟨a, default, default⟩) r0 r1 r2]
  rfl

theorem GLMIGDState_ofArray_zero (a : Storage) (h0 : a[0]? = some 0) :
    GLMIGDState.ofArray a = some
      { mStorage := a, task := ⟨0, 1, ⟨2, 0⟩⟩, algo := ⟨2, 3, ⟨4, 0⟩, ⟨4, 0⟩⟩ } := by
  have c : ((0 : Nat) : Double) = 0 := Nat.cast_zero
  have r0 : readUInt32 a 0 = some 0 := readUInt32_of_cast (by rw [c]; exact h0) (by decide)
  unfold GLMIGDState.ofArray
  rw [GLMIGDState_rebind_of_read (s := ⟨a, default, default⟩) r0]
  rfl

theorem GLMCGState_ofArray_zero (a : Storage) (h0 : a[0]? = some 0) :
    GLMCGState.ofArray a = some
      { mStorage := a
        task := ⟨0, 1, 2, ⟨3, 0⟩, ⟨3, 0⟩, ⟨3, 0⟩⟩
        algo := ⟨3, 4, ⟨5, 0⟩⟩ } := by
  have c : ((0 : Nat) : Double) = 0 := Nat.cast_zero
  have r0 : readUInt32 a 0 = some 0 := readUInt32_of_cast (by rw [c]; exact h0) (by decide)
  unfold GLMCGState.ofArray
  rw [GLMCGState_rebind_of_read (s := ⟨a, default, default⟩) r0]
  rfl

theorem GLMNewtonState_ofArray_zero (a : Storage) (h0 : a[0]? = some 0) :
    GLMNewtonState.ofArray a = some
      { mStorage := a, task := ⟨0, ⟨1, 0⟩⟩, algo := ⟨1, 2, ⟨3, 0⟩, ⟨3, 0, 0⟩⟩ } := by
  have c : ((0 : Nat) : Double) = 0 := Nat.cast_zero
  have r0 : readUInt16 a 0 = some 0 := readUInt16_of_cast (by rw [c]; exact h0) (by decide)
  unfold GLMNewtonState.ofArray
  rw [GLMNewtonState_rebind_of_read (s := ⟨a, default, default⟩) r0]
  rfl

theorem MLPIGDState_ofArray_zero (L : Int32Layout) (a : Storage) (h0 : a[0]? = some 0) :
    MLPIGDState.ofArray L a = some
      { mStorage := a, task := ⟨0, 1, 2, ⟨2, 0⟩⟩, algo := ⟨3, 4, ⟨5, 0⟩⟩ } := by
  have c : ((0 : Nat) : Double) = 0 := Nat.cast_zero
  have r0 : readUInt16 a 0 = some 0 := readUInt16_of_cast (by rw [c]; exact h0) (by decide)
  unfold MLPIGDState.ofArray
  rw [MLPIGDState_rebind_of_read (s := ⟨a, default, default⟩) r0 (Or.inl rfl)]
  rfl

/-! ## `GLMNewtonState.arraySize` without overflow -/

theorem GLMNewtonState_arraySize_of_lt {dim : Nat} (hsz : 3 + (dim + 2) * dim < 2 ^ 31) :
    GLMNewtonState.arraySize dim = 3 + (dim + 2) * dim := by
  have hz : ((3 + (dim + 2) * dim : Nat) : Int) < 2 ^ 31 := by exact_mod_cast hsz
  push_cast at hz
  have hp : (0 : Int) ≤ ((dim : Int) + 2) * (dim : Int) := by positivity
  have hd : (dim : Int) + 2 < 2 ^ 31 := by nlinarith
  unfold GLMNewtonState.arraySize
  rw [toInt32_of_range (x := (dim : Int) + 2) (by omega) hd,
    toInt32_of_range (x := ((dim : Int) + 2) * (dim : Int)) (by omega) (by omega),
    toInt32_of_range (x := 3 + ((dim : Int) + 2) * (dim : Int)) (by omega) hz]
  have h : (toUInt32 (3 + ((dim : Int) + 2) * (dim : Int)) : Int)
      = 3 + ((dim : Int) + 2) * (dim : Int) :=
    toUInt32_of_lt (by omega) (by omega)
  exact_mod_cast h

/-! ## The layouts of the GLM states -/

theorem pair_eq_range' (x y : Nat) (h : y = x + 1) : [x, y] = List.range' x 2 := by
  subst h
  rfl

theorem GLMIGDState_rebind_nowrap {s : GLMIGDState} {d : Nat}
    (hd : readUInt32 s.mStorage 0 = some d) (h32 : 4 + 3 * d < 2 ^ 32) :
    GLMIGDState.rebind s = some
      { mStorage := s.mStorage
        task := ⟨0, 1, ⟨2, d⟩⟩
        algo := ⟨2 + d, 3 + d, ⟨4 + d, d⟩, ⟨4 + 2 * d, d⟩⟩ } := by
  rw [GLMIGDState_rebind_of_read hd]
  have e1 : (2 + d) % 2 ^ 32 = 2 + d := Nat.mod_eq_of_lt (by omega)
  have e2 : (3 + d) % 2 ^ 32 = 3 + d := Nat.mod_eq_of_lt (by omega)
  have e3 : (4 + d) % 2 ^ 32 = 4 + d := Nat.mod_eq_of_lt (by omega)
  have e4 : (4 + d * 2 % 2 ^ 32) % 2 ^ 32 = 4 + 2 * d := by omega
  rw [e1, e2, e3, e4]

theorem GLMCGState_rebind_nowrap {s : GLMCGState} {d : Nat}
    (hd : readUInt32 s.mStorage 0 = some d) (h32 : 5 + 4 * d < 2 ^ 32) :
    GLMCGState.rebind s = some
      { mStorage := s.mStorage
        task := ⟨0, 1, 2, ⟨3, d⟩, ⟨3 + d, d⟩, ⟨3 + 2 * d, d⟩⟩
        algo := ⟨3 + 3 * d, 4 + 3 * d, ⟨5 + 3 * d, d⟩⟩ } := by
  rw [GLMCGState_rebind_of_read hd]
  have e1 : (3 + d) % 2 ^ 32 = 3 + d := Nat.mod_eq_of_lt (by omega)
  have e2 : (3 + 2 * d % 2 ^ 32) % 2 ^ 32 = 3 + 2 * d := by omega
  have e3 : (3 + 3 * d % 2 ^ 32) % 2 ^ 32 = 3 + 3 * d := by omega
  have e4 : (4 + 3 * d % 2 ^ 32) % 2 ^ 32 = 4 + 3 * d := by omega
  have e5 : (5 + 3 * d % 2 ^ 32) % 2 ^ 32 = 5 + 3 * d := by omega
  rw [e1, e2, e3, e4, e5]

theorem GLMIGDState_layout_indices (s : Storage) (d : Nat) :
    GLMIGDState.fieldIndices
      { mStorage := s
        task := ⟨0, 1, ⟨2, d⟩⟩
        algo := ⟨2 + d, 3 + d, ⟨4 + d, d⟩, ⟨4 + 2 * d, d⟩⟩ }
    = List.range (4 + 3 * d) := by
  simp only [GLMIGDState.fieldIndices, ColumnVectorMap.indices]
  rw [pair_eq_range' 0 1 rfl, pair_eq_range' (2 + d) (3 + d) (by omega),
    List.range_eq_range',
    range'_glue 0 2 d 2 rfl,
    range'_glue 0 (2 + d) 2 (2 + d) (by omega),
    range'_glue 0 (2 + d + 2) d (4 + d) (by omega),
    range'_glue 0 (2 + d + 2 + d) d (4 + 2 * d) (by omega)]
  congr 1
  omega

theorem GLMCGState_layout_indices (s : Storage) (d : Nat) :
    GLMCGState.fieldIndices
      { mStorage := s
        task := ⟨0, 1, 2, ⟨3, d⟩, ⟨3 + d, d⟩, ⟨3 + 2 * d, d⟩⟩
        algo := ⟨3 + 3 * d, 4 + 3 * d, ⟨5 + 3 * d, d⟩⟩ }
    = List.range (5 + 4 * d) := by
  simp only [GLMCGState.fieldIndices, ColumnVectorMap.indices]
  have h0 : ([0, 1, 2] : List Nat) = List.range' 0 3 := rfl
  rw [h0, pair_eq_range' (3 + 3 * d) (4 + 3 * d) (by omega), List.range_eq_range',
    range'_glue 0 3 d 3 rfl,
    range'_glue 0 (3 + d) d (3 + d) (by omega),
    range'_glue 0 (3 + d + d) d (3 + 2 * d) (by omega),
    range'_glue 0 (3 + d + d + d) 2 (3 + 3 * d) (by omega),
    range'_glue 0 (3 + d + d + d + 2) d (5 + 3 * d) (by omega)]
  congr 1
  omega

theorem GLMNewtonState_layout_indices (s : Storage) (d : Nat) :
    GLMNewtonState.fieldIndices
      { mStorage := s
        task := ⟨0, ⟨1, d⟩⟩
        algo := ⟨1 + d, 2 + d, ⟨3 + d, d⟩, ⟨3 + 2 * d, d, d⟩⟩ }
    = List.range (3 + (d + 2) * d) := by
  simp only [GLMNewtonState.fieldIndices, ColumnVectorMap.indices, MatrixMap.indices,
    MatrixMap.size, Int.toNat_ofNat]
  have h0 : ([0] : List Nat) = List.range' 0 1 := rfl
  have hq : (d + 2) * d = d * d + 2 * d := by ring
  rw [hq]
  generalize d * d = q
  rw [h0, pair_eq_range' (1 + d) (2 + d) (by omega), List.range_eq_range',
    range'_glue 0 1 d 1 rfl,
    range'_glue 0 (1 + d) 2 (1 + d) (by omega),
    range'_glue 0 (1 + d + 2) d (3 + d) (by omega),
    range'_glue 0 (1 + d + 2 + d) q (3 + 2 * d) (by omega)]
  congr 1
  omega

/-! ## Lemmas on the merge of partial states -/

theorem mergeCoefficient_comm (m : Double) (nA : Nat) (a : Double) (nB : Nat) (b : Double) :
    mergeCoefficient m nA a nB b = mergeCoefficient m nB b nA a := by
  unfold mergeCoefficient
  rw [Nat.add_comm nB nA, add_comm ((nB : Double) * (b - m))]

theorem mergeCoefficient_displacement (m : Double) (nA : Nat) (a : Double) (nB : Nat)
    (b : Double) :
    ((nA + nB : Nat) : Double) * (mergeCoefficient m nA a nB b - m)
      = (nA : Double) * (a - m) + (nB : Double) * (b - m) := by
  unfold mergeCoefficient
  by_cases h : nA + nB = 0
  · have hA : nA = 0 := by omega
    have hB : nB = 0 := by omega
    subst hA
    subst hB
    simp
  · rw [if_neg h]
    have hne : (nA : Double) + (nB : Double) ≠ 0 := by exact_mod_cast h
    push_cast
    field_simp
    ring

theorem mergeCoefficient_assoc (m : Double) (nA : Nat) (a : Double) (nB : Nat) (b : Double)
    (nC : Nat) (c : Double) :
    mergeCoefficient m (nA + nB) (mergeCoefficient m nA a nB b) nC c
      = mergeCoefficient m nA a (nB + nC) (mergeCoefficient m nB b nC c) := by
  have h1 := mergeCoefficient_displacement m nA a nB b
  have h2 := mergeCoefficient_displacement m nB b nC c
  generalize mergeCoefficient m nA a nB b = ab at h1
  generalize mergeCoefficient m nB b nC c = bc at h2
  unfold mergeCoefficient
  by_cases h : nA + nB + nC = 0
  · rw [if_pos h, if_pos (by omega)]
  · rw [if_neg h, if_neg (by omega), h1, h2, Nat.add_assoc, add_assoc]

theorem mergeIncrModel_comm (nA nB : Nat) (ms as bs : List Double) :
    mergeIncrModel nA nB ms as bs = mergeIncrModel nB nA ms bs as := by
  induction ms generalizing as bs with
  | nil => simp [mergeIncrModel]
  | cons m ms ih =>
    cases as with
    | nil => cases bs <;> simp [mergeIncrModel]
    | cons a as =>
      cases bs with
      | nil => simp [mergeIncrModel]
      | cons b bs =>
        simp only [mergeIncrModel]
        rw [mergeCoefficient_comm, ih]

theorem mergeIncrModel_assoc (nA nB nC : Nat) (ms as bs cs : List Double) :
    mergeIncrModel (nA + nB) nC ms (mergeIncrModel nA nB ms as bs) cs
      = mergeIncrModel nA (nB + nC) ms as (mergeIncrModel nB nC ms bs cs) := by
  induction ms generalizing as bs cs with
  | nil => simp [mergeIncrModel]
  | cons m ms ih =>
    cases as with
    | nil => cases bs <;> cases cs <;> simp [mergeIncrModel]
    | cons a as =>
      cases bs with
      | nil => cases cs <;> simp [mergeIncrModel]
      | cons b bs =>
        cases cs with
        | nil => simp [mergeIncrModel]
        | cons c cs =>
          simp only [mergeIncrModel]
          rw [mergeCoefficient_assoc, ih]

theorem addAccumulators_comm (as bs : List Double) :
    addAccumulators as bs = addAccumulators bs as := by
  induction as generalizing bs with
  | nil => cases bs <;> simp [addAccumulators]
  | cons a as ih =>
    cases bs with
    | nil => simp [addAccumulators]
    | cons b bs =>
      simp only [addAccumulators]
      rw [add_comm, ih]

theorem addAccumulators_assoc (as bs cs : List Double) :
    addAccumulators (addAccumulators as bs) cs
      = addAccumulators as (addAccumulators bs cs) := by
  induction as generalizing bs cs with
  | nil => cases bs <;> cases cs <;> simp [addAccumulators]
  | cons a as ih =>
    cases bs with
    | nil => cases cs <;> simp [addAccumulators]
    | cons b bs =>
      cases cs with
      | nil => simp [addAccumulators]
      | cons c cs =>
        simp only [addAccumulators]
        rw [add_assoc, ih]

theorem mergeCoefficient_zero_right (m : Double) {nA : Nat} (hA : 0 < nA) (a b : Double) :
    mergeCoefficient m nA a 0 b = a := by
  unfold mergeCoefficient
  rw [if_neg (by omega)]
  have hne : (nA : Double) ≠ 0 := by exact_mod_cast (by omega : nA ≠ 0)
  simp only [Nat.add_zero, Nat.cast_zero, zero_mul, add_zero]
  field_simp

theorem mergeIncrModel_zero_right {nA : Nat} (hA : 0 < nA) (ms as bs : List Double)
    (h1 : as.length = ms.length) (h2 : bs.length = ms.length) :
    mergeIncrModel nA 0 ms as bs = as := by
  induction ms generalizing as bs with
  | nil =>
    cases as with
    | nil => simp [mergeIncrModel]
    | cons a as => simp at h1
  | cons m ms ih =>
    cases as with
    | nil => simp at h1
    | cons a as =>
      cases bs with
      | nil => simp at h2
      | cons b bs =>
        simp only [mergeIncrModel]
        rw [mergeCoefficient_zero_right m hA, ih as bs (by simpa using h1) (by simpa using h2)]

/-- The spec's identity element: a state that has seen rows, merged with the
freshly reset state of the same TaskState (no rows, loss 0, `incrModel` equal
to the model), is returned as it is. -/
theorem IGDPartial_merge_reset (A : IGDPartial) (hA : 0 < A.numRows)
    (hlen : A.incrModel.length = A.model.length) :
    A.merge ⟨A.stepsize, A.model, 0, 0, A.model⟩ = some A := by
  unfold IGDPartial.merge
  rw [if_pos ⟨rfl, rfl⟩]
  dsimp only
  rw [mergeIncrModel_zero_right hA _ _ _ hlen rfl, Nat.add_zero, add_zero]
/-! ## Buffer lengths (claims C1 to C5) -/

/-- C1 (as stated, refuted): for one stage with unit counts `1, 1` the model
has one entry, and `MLPIGDState::arraySize` returns 8, not the value
`1 + (N+1) + 1 + 2*modelLen = 6` of the stated formula: the two elements of
`numRows` and `loss` are missing from the formula. -/
theorem MLPIGDState_arraySize_ne_stated :
    MLPModel.arraySize 1 (fun _ => 1) = 1 ∧
    MLPIGDState.arraySize 1 (fun _ => 1) = 8 ∧
    MLPIGDState.arraySize 1 (fun _ => 1)
      ≠ 1 + (1 + 1) + 1 + 2 * MLPModel.arraySize 1 (fun _ => 1) := by
  decide

/-- C1 (amended): for `N` stages and non-negative unit counts `n_0..n_N` with
no 32-bit wraparound, `MLPModel::arraySize` is
`modelLen = Σ_{k=1..N} n_{k-1}*n_k` and `MLPIGDState::arraySize` is
`1 + (N+1) + 1 + 2*modelLen + 2`, the last 2 being `numRows` and `loss`. -/
theorem MLPIGDState_arraySize_eq (N : Nat) (n : Nat → Int)
    (hn : ∀ k, k ≤ N → 0 ≤ n k)
    (hsz : 1 + ((N : Int) + 1) + 1 + 2 * MLPModel.modelLen N n + 2 < 2 ^ 32) :
    (MLPModel.arraySize N n : Int) = MLPModel.modelLen N n ∧
    (MLPIGDState.arraySize N n : Int)
      = 1 + ((N : Int) + 1) + 1 + 2 * MLPModel.modelLen N n + 2 := by
  have h0 := modelLen_nonneg N n hn
  have hm : (MLPModel.arraySize N n : Int) = MLPModel.modelLen N n :=
    toUInt32_of_lt h0 (by omega)
  refine ⟨hm, ?_⟩
  unfold MLPIGDState.arraySize
  simp only []
  push_cast
  rw [hm, Int.emod_eq_of_lt (by omega) (by omega)]
  ring

/-- Witness of `MLPIGDState_arraySize_eq`: two stages with unit counts 2, 3, 1
(model length 9) give 25 elements. -/
theorem MLPIGDState_arraySize_eq_witness :
    (MLPModel.arraySize 2 (fun k => [2, 3, 1].getD k 0) : Int) = 9 ∧
    (MLPIGDState.arraySize 2 (fun k => [2, 3, 1].getD k 0) : Int) = 25 := by
  have h := MLPIGDState_arraySize_eq 2 (fun k => [2, 3, 1].getD k 0)
    (by decide) (by decide)
  have e : MLPModel.modelLen 2 (fun k => [2, 3, 1].getD k 0) = 9 := by decide
  rw [e] at h
  exact h

/-- C2: for non-negative `rowDim`, `colDim`, `maxRank` with no 32-bit
wraparound, `LMFIGDState::arraySize` is `8 + 2*modelLen` with
`modelLen = (rowDim+colDim)*maxRank`; and `(3, 2, 2)` gives 28. -/
theorem LMFIGDState_arraySize_eq (r c m : Int) (hr : 0 ≤ r) (hc : 0 ≤ c) (hm : 0 ≤ m)
    (hsz : 8 + 2 * ((r + c) * m) < 2 ^ 32) :
    (LMFModel.arraySize r c m : Int) = (r + c) * m ∧
    (LMFIGDState.arraySize r c m : Int) = 8 + 2 * ((r + c) * m) ∧
    LMFIGDState.arraySize 3 2 2 = 28 := by
  obtain ⟨hl, hA⟩ := LMFIGDState_arraySize_int hr hc hm hsz
  exact ⟨hl, hA, by decide⟩

/-- Witness of `LMFIGDState_arraySize_eq` at `(3, 2, 2)`. -/
theorem LMFIGDState_arraySize_eq_witness :
    (LMFModel.arraySize 3 2 2 : Int) = (3 + 2) * 2 ∧
    (LMFIGDState.arraySize 3 2 2 : Int) = 8 + 2 * ((3 + 2) * 2) ∧
    LMFIGDState.arraySize 3 2 2 = 28 :=
  LMFIGDState_arraySize_eq 3 2 2 (by decide) (by decide) (by decide) (by decide)

/-- C3: without 32-bit wraparound `GLMIGDState::arraySize(dim)` is
`4 + 3*dim`; `dim = 4` gives 16 and `dim = 1` gives 7. -/
theorem GLMIGDState_arraySize_eq (dim : Nat) (hsz : 4 + 3 * dim < 2 ^ 32) :
    GLMIGDState.arraySize dim = 4 + 3 * dim ∧
    GLMIGDState.arraySize 4 = 16 ∧ GLMIGDState.arraySize 1 = 7 :=
  ⟨Nat.mod_eq_of_lt hsz, by decide, by decide⟩

/-- Witness of `GLMIGDState_arraySize_eq` at `dim = 4`. -/
theorem GLMIGDState_arraySize_eq_witness :
    GLMIGDState.arraySize 4 = 4 + 3 * 4 ∧
    GLMIGDState.arraySize 4 = 16 ∧ GLMIGDState.arraySize 1 = 7 :=
  GLMIGDState_arraySize_eq 4 (by decide)

/-- C4: without 32-bit wraparound `GLMCGState::arraySize(dim)` is
`5 + 4*dim`. -/
theorem GLMCGState_arraySize_eq (dim : Nat) (hsz : 5 + 4 * dim < 2 ^ 32) :
    GLMCGState.arraySize dim = 5 + 4 * dim :=
  Nat.mod_eq_of_lt hsz

/-- Witness of `GLMCGState_arraySize_eq` at `dim = 1`. -/
theorem GLMCGState_arraySize_eq_witness : GLMCGState.arraySize 1 = 5 + 4 * 1 :=
  GLMCGState_arraySize_eq 1 (by decide)

/-- C5: without 32-bit wraparound (the `int` expression stays below `2^31`)
`GLMNewtonState::arraySize(dim)` is `3 + (dim+2)*dim`, which is
`1 + dim + 2 + dim + dim*dim`: dimension, model, numRows and loss, gradient,
hessian. -/
theorem GLMNewtonState_arraySize_eq (dim : Nat) (hsz : 3 + (dim + 2) * dim < 2 ^ 31) :
    GLMNewtonState.arraySize dim = 3 + (dim + 2) * dim ∧
    3 + (dim + 2) * dim = 1 + dim + 2 + dim + dim * dim := by
  refine ⟨?_, by ring⟩
  have hz : ((3 + (dim + 2) * dim : Nat) : Int) < 2 ^ 31 := by exact_mod_cast hsz
  push_cast at hz
  have hp : (0 : Int) ≤ ((dim : Int) + 2) * (dim : Int) := by positivity
  have hd : (dim : Int) + 2 < 2 ^ 31 := by nlinarith
  unfold GLMNewtonState.arraySize
  rw [toInt32_of_range (x := (dim : Int) + 2) (by omega) hd,
    toInt32_of_range (x := ((dim : Int) + 2) * (dim : Int)) (by omega) (by omega),
    toInt32_of_range (x := 3 + ((dim : Int) + 2) * (dim : Int)) (by omega) hz]
  have h : (toUInt32 (3 + ((dim : Int) + 2) * (dim : Int)) : Int)
      = 3 + ((dim : Int) + 2) * (dim : Int) :=
    toUInt32_of_lt (by omega) (by omega)
  exact_mod_cast h

/-- Witness of `GLMNewtonState_arraySize_eq` at `dim = 2`. -/
theorem GLMNewtonState_arraySize_eq_witness :
    GLMNewtonState.arraySize 2 = 3 + (2 + 2) * 2 ∧
    3 + (2 + 2) * 2 = 1 + 2 + 2 + 2 + 2 * 2 :=
  GLMNewtonState_arraySize_eq 2 (by decide)

/-! ## Allocation of the factorization state (claim C6) -/

/-- C6 (as stated, refuted): for `(rowDim, colDim, maxRank) = (0, 2147483647, 1)`
the size `8 + 2*(rowDim+colDim)*maxRank = 4294967302` does not fit 32 bits:
`arraySize` wraps to 6 and `allocate` yields the 6-element buffer
`[0, 2147483647, 1, 0, 0, 0]`. -/
theorem LMFIGDState_allocate_wraps :
    LMFIGDState.arraySize 0 2147483647 1 = 6 ∧
    (LMFIGDState.allocate default 0 2147483647 1).map (fun s => s.mStorage)
      = some [0, 2147483647, 1, 0, 0, 0] ∧
    (([0, 2147483647, 1, 0, 0, 0] : Storage).length : Int)
      ≠ 8 + 2 * ((0 + 2147483647) * 1) := by
  decide

/-- C6 (amended): for non-negative `int32_t` values `rowDim`, `colDim`,
`maxRank` with `8 + 2*(rowDim+colDim)*maxRank < 2^32` (no 32-bit wraparound),
`LMFIGDState::allocate` succeeds and yields a buffer of that length in which
`task.rowDim`, `task.colDim`, `task.maxRank`, bound to elements 0, 1 and 2, read
back as the given values and every other element is `0.0`. -/
theorem LMFIGDState_allocate_fresh (self : LMFIGDState) (r c m : Int)
    (hr : 0 ≤ r ∧ r < 2 ^ 31) (hc : 0 ≤ c ∧ c < 2 ^ 31) (hm : 0 ≤ m ∧ m < 2 ^ 31)
    (hsz : 8 + 2 * ((r + c) * m) < 2 ^ 32) :
    ∃ s, LMFIGDState.allocate self r c m = some s ∧
      (s.mStorage.length : Int) = 8 + 2 * ((r + c) * m) ∧
      s.task.rowDim = 0 ∧ s.task.colDim = 1 ∧ s.task.maxRank = 2 ∧
      readInt32 s.mStorage s.task.rowDim = some r ∧
      readInt32 s.mStorage s.task.colDim = some c ∧
      readInt32 s.mStorage s.task.maxRank = some m ∧
      ∀ i, 3 ≤ i → i < s.mStorage.length → readAt s.mStorage i = some 0 := by
  obtain ⟨_, hA⟩ := LMFIGDState_arraySize_int hr.1 hc.1 hm.1 hsz
  have h0 : 0 ≤ (r + c) * m := mul_nonneg (by omega) hm.1
  obtain ⟨s, ha, hs, hl, _, t0, t1, t2, r0, r1, r2⟩ := LMFIGDState_allocate_post self r c m
    ⟨by omega, hr.2⟩ ⟨by omega, hc.2⟩ ⟨by omega, hm.2⟩ (by omega)
  refine ⟨s, ha, by rw [hl, hA], t0, t1, t2, by rw [t0]; exact r0, by rw [t1]; exact r1,
    by rw [t2]; exact r2, ?_⟩
  intro i h3 hi
  unfold readAt
  rw [hl] at hi
  rw [hs]
  obtain ⟨j, rfl⟩ : ∃ j, i = j + 3 := ⟨i - 3, by omega⟩
  simp only [List.getElem?_cons_succ]
  rw [List.getElem?_replicate, if_pos (by omega)]

/-- Witness of `LMFIGDState_allocate_fresh` at `(3, 2, 2)`: length 28,
dimensions 3, 2, 2 in elements 0 to 2, the other 25 elements zero. -/
theorem LMFIGDState_allocate_fresh_witness :
    (LMFIGDState.allocate default 3 2 2).map (fun s => s.mStorage)
      = some (3 :: 2 :: 2 :: List.replicate 25 0) ∧
    ∃ s, LMFIGDState.allocate default 3 2 2 = some s ∧
      (s.mStorage.length : Int) = 8 + 2 * ((3 + 2) * 2) ∧
      s.task.rowDim = 0 ∧ s.task.colDim = 1 ∧ s.task.maxRank = 2 ∧
      readInt32 s.mStorage s.task.rowDim = some 3 ∧
      readInt32 s.mStorage s.task.colDim = some 2 ∧
      readInt32 s.mStorage s.task.maxRank = some 2 ∧
      ∀ i, 3 ≤ i → i < s.mStorage.length → readAt s.mStorage i = some 0 :=
  ⟨by decide, LMFIGDState_allocate_fresh default 3 2 2 (by decide) (by decide) (by decide)
    (by decide)⟩

/-! ## Allocation of the GLM states (claim C7) -/

/-- C7 (as stated, refuted): for `dim = 1431655764` the size `4 + 3*dim` is
`2^32`, so `GLMIGDState::arraySize` wraps to 0, the allocated array is empty
and `allocate` writes `dim` to element 0 of an empty array: no buffer with
`dim` in element 0 results. -/
theorem GLMIGDState_allocate_wraps_to_empty :
    GLMIGDState.arraySize 1431655764 = 0 ∧
    GLMIGDState.allocate default 1431655764 = none := by
  decide

/-- C7 (amended): for every dimension of the parameter type `uint32_t` except
`dim = 1431655764` for `GLMIGDState`, every dimension of the parameter type
`uint32_t` for `GLMCGState`, and every dimension `dim ≤ 46339` for
`GLMNewtonState` (beyond which the `int` product `(dim + 2) * dim` of its
`arraySize` overflows), `allocate(dim)` succeeds and yields a buffer of length
`arraySize(dim)` whose element 0 is `dim` and whose other elements are all
`0.0`; the view is the one `rebind` computes from that buffer, with
`task.dimension` at index 0 and `task.model` of length `dim`.  For
`GLMNewtonState` the length is `3 + (dim+2)*dim` exactly. -/
theorem allocate_GLM (sI : GLMIGDState) (sC : GLMCGState) (sN : GLMNewtonState)
    (dI dC dN : Nat) (hI : dI < 2 ^ 32) (hI0 : dI ≠ 1431655764) (hC : dC < 2 ^ 32)
    (hN : dN ≤ 46339) :
    (∃ s, GLMIGDState.allocate sI dI = some s ∧
      s.mStorage = (dI : Double) :: List.replicate (GLMIGDState.arraySize dI - 1) 0 ∧
      s.mStorage.length = GLMIGDState.arraySize dI ∧
      GLMIGDState.rebind s = some s ∧ s.task.dimension = 0 ∧ s.task.model = ⟨2, dI⟩) ∧
    (∃ s, GLMCGState.allocate sC dC = some s ∧
      s.mStorage = (dC : Double) :: List.replicate (GLMCGState.arraySize dC - 1) 0 ∧
      s.mStorage.length = GLMCGState.arraySize dC ∧
      GLMCGState.rebind s = some s ∧ s.task.dimension = 0 ∧ s.task.model = ⟨3, dC⟩) ∧
    (∃ s, GLMNewtonState.allocate sN dN = some s ∧
      s.mStorage = (dN : Double) :: List.replicate (GLMNewtonState.arraySize dN - 1) 0 ∧
      s.mStorage.length = GLMNewtonState.arraySize dN ∧
      GLMNewtonState.rebind s = some s ∧ s.task.dimension = 0 ∧ s.task.model = ⟨1, dN⟩ ∧
      GLMNewtonState.arraySize dN = 3 + (dN + 2) * dN) := by
  have h0I : GLMIGDState.arraySize dI ≠ 0 :=
    fun h => hI0 (GLMIGDState_arraySize_eq_zero hI h)
  have hp : (dN + 2) * dN ≤ (46339 + 2) * 46339 := Nat.mul_le_mul (by omega) hN
  have hA : GLMNewtonState.arraySize dN = 3 + (dN + 2) * dN :=
    GLMNewtonState_arraySize_of_lt (by omega)
  obtain ⟨s, a1, a2, a3, a4, a5, a6⟩ := GLMNewtonState_allocate_post sN dN (by omega)
  exact ⟨GLMIGDState_allocate_post sI dI hI h0I, GLMCGState_allocate_post sC dC hC,
    ⟨s, a1, a2, a3, a4, a5, a6, hA⟩⟩

/-- Witness of `allocate_GLM` at dimensions 4, 1 and 2. -/
theorem allocate_GLM_witness :
    (∃ s, GLMIGDState.allocate default 4 = some s ∧
      s.mStorage = ((4 : Nat) : Double) :: List.replicate (GLMIGDState.arraySize 4 - 1) 0 ∧
      s.mStorage.length = GLMIGDState.arraySize 4 ∧
      GLMIGDState.rebind s = some s ∧ s.task.dimension = 0 ∧ s.task.model = ⟨2, 4⟩) ∧
    (∃ s, GLMCGState.allocate default 1 = some s ∧
      s.mStorage = ((1 : Nat) : Double) :: List.replicate (GLMCGState.arraySize 1 - 1) 0 ∧
      s.mStorage.length = GLMCGState.arraySize 1 ∧
      GLMCGState.rebind s = some s ∧ s.task.dimension = 0 ∧ s.task.model = ⟨3, 1⟩) ∧
    (∃ s, GLMNewtonState.allocate default 2 = some s ∧
      s.mStorage = ((2 : Nat) : Double) :: List.replicate (GLMNewtonState.arraySize 2 - 1) 0 ∧
      s.mStorage.length = GLMNewtonState.arraySize 2 ∧
      GLMNewtonState.rebind s = some s ∧ s.task.dimension = 0 ∧ s.task.model = ⟨1, 2⟩ ∧
      GLMNewtonState.arraySize 2 = 3 + (2 + 2) * 2) :=
  allocate_GLM default default default 4 1 2 (by decide) (by decide) (by decide) (by decide)

/-! ## `reset` of the IGD states (claim C8) -/

/-- C8: for a state of each IGD variant whose view is bound to its buffer and
whose buffer holds the layout of its dimensions, `reset()` succeeds, keeps the
view, and afterwards `algo.numRows` and `algo.loss` are zero and `algo.incrModel`
equals `task.model` element by element (for `GLMIGDState` `algo.gradient` is
all zero as well).  In particular `reset()` directly after `allocate` returns
the freshly allocated state unchanged.  For `MLPIGDState` the view depends on
the unit counts read through the `int32_t` pointer: the statements hold for
every layout `L` of the doubles, `allocate` being taken with fewer than 65535
stages (so that its loop ends) and with unit counts that the layout stores. -/
theorem reset_reseeds_incrModel
    (sL : LMFIGDState) (R C M : Nat) (hbL : LMFIGDState.rebind sL = some sL)
    (hrL : readInt32 sL.mStorage 0 = some R) (hcL : readInt32 sL.mStorage 1 = some C)
    (hmL : readInt32 sL.mStorage 2 = some M)
    (hlenL : 8 + 2 * ((R + C) * M) ≤ sL.mStorage.length)
    (h31L : 8 + 2 * ((R + C) * M) < 2 ^ 31)
    (sG : GLMIGDState) (d : Nat) (hbG : GLMIGDState.rebind sG = some sG)
    (hdG : readUInt32 sG.mStorage 0 = some d)
    (hlenG : 4 + 3 * d ≤ sG.mStorage.length) (h32G : 4 + 3 * d < 2 ^ 32)
    (L : Int32Layout)
    (sM : MLPIGDState) (N : Nat) (hbM : MLPIGDState.rebind L sM = some sM)
    (hdM : readUInt16 sM.mStorage 0 = some N)
    (hlenM : N + 5 + 2 * sM.task.model.size ≤ sM.mStorage.length)
    (aL : LMFIGDState) (r c m : Nat) (hr : r < 2 ^ 31) (hc : c < 2 ^ 31) (hm : m < 2 ^ 31)
    (hfL : 8 + 2 * ((r + c) * m) < 2 ^ 31)
    (aG : GLMIGDState) (dim : Nat) (hfG : 4 + 3 * dim < 2 ^ 32)
    (aM : MLPIGDState) (K : Nat) (n : Nat → Int) (hK : K < 65535)
    (hL : L.Stores K n) (hn : ∀ k, k ≤ K → 0 ≤ n k)
    (hfM : (K : Int) + 5 + 2 * MLPModel.modelLen K n < 2 ^ 32) :
    (∃ t, LMFIGDState.reset sL = some t ∧ t.task = sL.task ∧ t.algo = sL.algo ∧
      readAt t.mStorage t.algo.numRows = some 0 ∧
      readAt t.mStorage t.algo.loss = some 0 ∧
      t.task.model.matrixU.size = R * M ∧ t.algo.incrModel.matrixU.size = R * M ∧
      t.task.model.matrixV.size = C * M ∧ t.algo.incrModel.matrixV.size = C * M ∧
      (∀ k, k < R * M → ∃ x, readAt t.mStorage (t.task.model.matrixU.data + k) = some x ∧
        readAt t.mStorage (t.algo.incrModel.matrixU.data + k) = some x) ∧
      ∀ k, k < C * M → ∃ x, readAt t.mStorage (t.task.model.matrixV.data + k) = some x ∧
        readAt t.mStorage (t.algo.incrModel.matrixV.data + k) = some x) ∧
    (∃ t, GLMIGDState.reset sG = some t ∧ t.task = sG.task ∧ t.algo = sG.algo ∧
      readAt t.mStorage t.algo.numRows = some 0 ∧
      readAt t.mStorage t.algo.loss = some 0 ∧
      t.task.model.size = d ∧ t.algo.incrModel.size = d ∧ t.algo.gradient.size = d ∧
      (∀ k, k < d → ∃ x, readAt t.mStorage (t.task.model.data + k) = some x ∧
        readAt t.mStorage (t.algo.incrModel.data + k) = some x) ∧
      ∀ k, k < d → readAt t.mStorage (t.algo.gradient.data + k) = some 0) ∧
    (∃ t, MLPIGDState.reset sM = some t ∧ t.task = sM.task ∧ t.algo = sM.algo ∧
      readAt t.mStorage t.algo.numRows = some 0 ∧
      readAt t.mStorage t.algo.loss = some 0 ∧
      t.algo.incrModel.size = t.task.model.size ∧
      ∀ k, k < t.task.model.size →
        ∃ x, readAt t.mStorage (t.task.model.data + k) = some x ∧
          readAt t.mStorage (t.algo.incrModel.data + k) = some x) ∧
    (∃ s, LMFIGDState.allocate aL r c m = some s ∧ LMFIGDState.reset s = some s) ∧
    (∃ s, GLMIGDState.allocate aG dim = some s ∧ GLMIGDState.reset s = some s) ∧
    (∃ s, MLPIGDState.allocate L aM K n = some s ∧ MLPIGDState.rebind L s = some s ∧
      (∀ k, k ≤ K → readInt32At L s.mStorage 1 k = some (n k)) ∧
      MLPIGDState.reset s = some s) := by
  obtain ⟨s, a1, a2, _, a4, a5⟩ := MLPIGDState_reset_allocate L aM K n hL hK hn hfM
  exact
  ⟨LMFIGDState_reset_post hbL hrL hcL hmL hlenL h31L,
    GLMIGDState_reset_post hbG hdG hlenG h32G,
    MLPIGDState_reset_post hbM hdM hlenM,
    LMFIGDState_reset_allocate aL r c m hfL hr hc hm,
    GLMIGDState_reset_allocate aG dim hfG,
    ⟨s, a1, a2, a4, a5⟩⟩

/-- Witness of `reset_reseeds_incrModel`: the example states, whose `incrModel`
differs from the model before `reset`, and allocations with dimensions
`(3, 2, 2)`, `4` and one stage with unit counts `2, 1`; the layout of the
doubles is that of a little-endian IEEE-754 platform. -/
theorem reset_reseeds_incrModel_witness :
    (∃ t, LMFIGDState.reset exampleLMFIGD = some t ∧
      t.mStorage = [2, 1, 1, 3, 4, 5, 6, 7, 9, 0, 0, 5, 6, 7]) ∧
    (∃ t, GLMIGDState.reset exampleGLMIGD = some t ∧
      t.mStorage = [2, 3, 5, 6, 0, 0, 0, 0, 5, 6]) ∧
    (∃ t, MLPIGDState.reset exampleMLPIGD = some t ∧
      t.mStorage = [1, unitCounts21, 9, 3, 4, 0, 0, 0, 3, 4]) ∧
    (∃ s, LMFIGDState.allocate default 3 2 2 = some s ∧ LMFIGDState.reset s = some s) ∧
    (∃ s, GLMIGDState.allocate default 4 = some s ∧ GLMIGDState.reset s = some s) ∧
    (∃ s, MLPIGDState.allocate ieee754 default 1 (fun k => [2, 1].getD k 0) = some s ∧
      s.mStorage = [1, unitCounts21, 0, 0, 0, 0, 0, 0, 0, 0] ∧
      MLPIGDState.reset s = some s) := by
  have h := reset_reseeds_incrModel
    exampleLMFIGD 2 1 1 (by decide) (by decide) (by decide) (by decide) (by decide) (by decide)
    exampleGLMIGD 2 (by decide) (by decide) (by decide) (by decide)
    ieee754 exampleMLPIGD 1 (by decide) (by decide) (by decide)
    default 3 2 2 (by decide) (by decide) (by decide) (by decide)
    default 4 (by decide)
    default 1 (fun k => [2, 1].getD k 0) (by decide)
    (ieee754_stores 1 _ (by decide)) (by decide) (by decide)
  obtain ⟨⟨t1, e1, -⟩, ⟨t2, e2, -⟩, ⟨t3, e3, -⟩, h4, h5, ⟨s6, a6, -, -, r6⟩⟩ := h
  refine ⟨⟨t1, e1, ?_⟩, ⟨t2, e2, ?_⟩, ⟨t3, e3, ?_⟩, h4, h5, ⟨s6, a6, ?_, r6⟩⟩
  · have e : LMFIGDState.reset exampleLMFIGD
        = some { exampleLMFIGD with mStorage := [2, 1, 1, 3, 4, 5, 6, 7, 9, 0, 0, 5, 6, 7] } := by
      decide
    rw [e] at e1
    rw [← Option.some.inj e1]
  · have e : GLMIGDState.reset exampleGLMIGD
        = some { exampleGLMIGD with mStorage := [2, 3, 5, 6, 0, 0, 0, 0, 5, 6] } := by
      decide
    rw [e] at e2
    rw [← Option.some.inj e2]
  · have e : MLPIGDState.reset exampleMLPIGD
        = some { exampleMLPIGD with
            mStorage := [1, unitCounts21, 9, 3, 4, 0, 0, 0, 3, 4] } := by
      decide
    rw [e] at e3
    rw [← Option.some.inj e3]
  · have e : (MLPIGDState.allocate ieee754 default 1 (fun k => [2, 1].getD k 0)).map
        (fun s => s.mStorage) = some [1, unitCounts21, 0, 0, 0, 0, 0, 0, 0, 0] := by
      decide
    rw [a6] at e
    exact Option.some.inj e

/-! ## `reset` of the batch states (claim C9) -/

/-- C9: for a `GLMCGState` and a `GLMNewtonState` whose view is bound to its
buffer and whose buffer holds the layout of its dimension, `reset()` succeeds,
keeps the view, and leaves every AlgoState element zero: `numRows`, `loss`,
the `dim` entries of `incrGradient` (CG), or the `dim` entries of `gradient`
and the `dim*dim` entries of `hessian` (Newton). -/
theorem reset_zeroes_algo_state
    (sC : GLMCGState) (dC : Nat) (hbC : GLMCGState.rebind sC = some sC)
    (hdC : readUInt32 sC.mStorage 0 = some dC)
    (hlenC : 5 + 4 * dC ≤ sC.mStorage.length) (h32C : 5 + 4 * dC < 2 ^ 32)
    (sN : GLMNewtonState) (dN : Nat) (hbN : GLMNewtonState.rebind sN = some sN)
    (hdN : readUInt16 sN.mStorage 0 = some dN)
    (hlenN : 3 + 2 * dN + dN * dN ≤ sN.mStorage.length) :
    (∃ s, GLMCGState.reset sC = some s ∧ s.task = sC.task ∧ s.algo = sC.algo ∧
      readAt s.mStorage s.algo.numRows = some 0 ∧
      readAt s.mStorage s.algo.loss = some 0 ∧
      s.algo.incrGradient.size = dC ∧
      ∀ k, k < dC → readAt s.mStorage (s.algo.incrGradient.data + k) = some 0) ∧
    (∃ s, GLMNewtonState.reset sN = some s ∧ s.task = sN.task ∧ s.algo = sN.algo ∧
      readAt s.mStorage s.algo.numRows = some 0 ∧
      readAt s.mStorage s.algo.loss = some 0 ∧
      s.algo.gradient.size = dN ∧
      (∀ k, k < dN → readAt s.mStorage (s.algo.gradient.data + k) = some 0) ∧
      s.algo.hessian.size = dN * dN ∧
      ∀ k, k < dN * dN → readAt s.mStorage (s.algo.hessian.data + k) = some 0) := by
  constructor
  · obtain ⟨_, ha⟩ := GLMCGState_view_of_rebind hbC hdC h32C
    obtain ⟨t, hr, _, hg⟩ := GLMCGState_reset_spec hbC hdC hlenC h32C
    refine ⟨_, hr, rfl, rfl, ?_, ?_, ?_, ?_⟩
    · show t[sC.algo.numRows]? = some 0
      rw [ha]
      dsimp only
      rw [hg, if_pos (by omega)]
    · show t[sC.algo.loss]? = some 0
      rw [ha]
      dsimp only
      rw [hg, if_pos (by omega)]
    · show sC.algo.incrGradient.size = dC
      rw [ha]
    · intro k hk
      show t[sC.algo.incrGradient.data + k]? = some 0
      rw [ha]
      dsimp only
      rw [hg, if_pos (by omega)]
  · obtain ⟨_, ha⟩ := GLMNewtonState_view_of_rebind hbN hdN
    obtain ⟨t, hr, _, hg⟩ := GLMNewtonState_reset_spec hbN hdN hlenN
    refine ⟨_, hr, rfl, rfl, ?_, ?_, ?_, ?_, ?_, ?_⟩
    · show t[sN.algo.numRows]? = some 0
      rw [ha]
      dsimp only
      rw [hg, if_pos (by omega)]
    · show t[sN.algo.loss]? = some 0
      rw [ha]
      dsimp only
      rw [hg, if_pos (by omega)]
    · show sN.algo.gradient.size = dN
      rw [ha]
    · intro k hk
      show t[sN.algo.gradient.data + k]? = some 0
      rw [ha]
      dsimp only
      rw [hg, if_pos (by omega)]
    · show sN.algo.hessian.size = dN * dN
      rw [ha]
      simp only [MatrixMap.size, Int.toNat_ofNat]
    · intro k hk
      show t[sN.algo.hessian.data + k]? = some 0
      rw [ha]
      dsimp only
      rw [hg, if_pos (by omega)]

/-- Witness of `reset_zeroes_algo_state` at the example states of dimension 1
(CG) and 2 (Newton), whose AlgoState entries are non-zero before. -/
theorem reset_zeroes_algo_state_witness :
    (∃ s, GLMCGState.reset exampleGLMCG = some s ∧ s.task = exampleGLMCG.task ∧
      s.algo = exampleGLMCG.algo ∧
      readAt s.mStorage s.algo.numRows = some 0 ∧
      readAt s.mStorage s.algo.loss = some 0 ∧
      s.algo.incrGradient.size = 1 ∧
      ∀ k, k < 1 → readAt s.mStorage (s.algo.incrGradient.data + k) = some 0) ∧
    (∃ s, GLMNewtonState.reset exampleGLMNewton = some s ∧ s.task = exampleGLMNewton.task ∧
      s.algo = exampleGLMNewton.algo ∧
      readAt s.mStorage s.algo.numRows = some 0 ∧
      readAt s.mStorage s.algo.loss = some 0 ∧
      s.algo.gradient.size = 2 ∧
      (∀ k, k < 2 → readAt s.mStorage (s.algo.gradient.data + k) = some 0) ∧
      s.algo.hessian.size = 2 * 2 ∧
      ∀ k, k < 2 * 2 → readAt s.mStorage (s.algo.hessian.data + k) = some 0) :=
  reset_zeroes_algo_state exampleGLMCG 1 (by decide) (by decide) (by decide) (by decide)
    exampleGLMNewton 2 (by decide) (by decide) (by decide)

/-! ## Assignment (claim C10) -/

/-- C10: for two states of the same variant whose buffers have the same
length (as they have when the dimensions are equal), `b = a` succeeds and
leaves in `b` exactly the buffer of `a`, every element at its index, whatever
the fields are; the view of `b` is not touched.  The source state is passed by
`const` reference and is a value here: it is unchanged. -/
theorem assign_copies_whole_buffer
    (a1 b1 : LMFIGDState) (a2 b2 : GLMIGDState) (a3 b3 : GLMCGState)
    (a4 b4 : GLMNewtonState) (a5 b5 : MLPIGDState)
    (h1 : b1.mStorage.length = a1.mStorage.length)
    (h2 : b2.mStorage.length = a2.mStorage.length)
    (h3 : b3.mStorage.length = a3.mStorage.length)
    (h4 : b4.mStorage.length = a4.mStorage.length)
    (h5 : b5.mStorage.length = a5.mStorage.length) :
    LMFIGDState.assign b1 a1 = some { b1 with mStorage := a1.mStorage } ∧
    GLMIGDState.assign b2 a2 = some { b2 with mStorage := a2.mStorage } ∧
    GLMCGState.assign b3 a3 = some { b3 with mStorage := a3.mStorage } ∧
    GLMNewtonState.assign b4 a4 = some { b4 with mStorage := a4.mStorage } ∧
    MLPIGDState.assign b5 a5 = some { b5 with mStorage := a5.mStorage } := by
  refine ⟨?_, ?_, ?_, ?_, ?_⟩
  · unfold LMFIGDState.assign
    rw [assignStorage_eq _ _ h1]
    rfl
  · unfold GLMIGDState.assign
    rw [assignStorage_eq _ _ h2]
    rfl
  · unfold GLMCGState.assign
    rw [assignStorage_eq _ _ h3]
    rfl
  · unfold GLMNewtonState.assign
    rw [assignStorage_eq _ _ h4]
    rfl
  · unfold MLPIGDState.assign
    rw [assignStorage_eq _ _ h5]
    rfl

/-- Witness of `assign_copies_whole_buffer`: five pairs of buffers of equal
length and different contents. -/
theorem assign_copies_whole_buffer_witness :
    LMFIGDState.assign ⟨[1, 1, 1, 0, 0, 7, 8, 0, 0, 0, 0, 0], default, default⟩
        ⟨[1, 1, 1, 5, 0, 3, 4, 2, 6, 9, 3, 4], default, default⟩
      = some ⟨[1, 1, 1, 5, 0, 3, 4, 2, 6, 9, 3, 4], default, default⟩ ∧
    GLMIGDState.assign ⟨[1, 0, 0, 0, 0, 0, 0], default, default⟩
        ⟨[1, 3, 5, 2, 7, 4, 6], default, default⟩
      = some ⟨[1, 3, 5, 2, 7, 4, 6], default, default⟩ ∧
    GLMCGState.assign ⟨[1, 0, 0, 0, 0, 0, 0, 0, 0], default, default⟩
        ⟨[1, 2, 3, 4, 5, 6, 7, 8, 9], default, default⟩
      = some ⟨[1, 2, 3, 4, 5, 6, 7, 8, 9], default, default⟩ ∧
    GLMNewtonState.assign ⟨[1, 0, 0, 0, 0, 0], default, default⟩
        ⟨[1, 2, 3, 4, 5, 6], default, default⟩
      = some ⟨[1, 2, 3, 4, 5, 6], default, default⟩ ∧
    MLPIGDState.assign ⟨[1, 1, 1, 0, 0, 0, 0, 0], default, default⟩
        ⟨[1, 1, 1, 8, 2, 4, 6, 8], default, default⟩
      = some ⟨[1, 1, 1, 8, 2, 4, 6, 8], default, default⟩ :=
  assign_copies_whole_buffer _ _ _ _ _ _ _ _ _ _ rfl rfl rfl rfl rfl

/-! ## Assignment between states of different dimension (claim C11) -/

/-- C11 (as stated, refuted): a `GLMIGDState` of dimension 1 (7 elements, as
`allocate(1)` leaves it) is assigned from `exampleGLMIGD`, of dimension 2
(10 elements).  The dimension fields differ, yet `operator=` returns normally
and all 7 elements of the destination are overwritten by the first 7 elements
of the source; element 0, the dimension, now reads 2. -/
theorem GLMIGDState_assign_not_rejected :
    readUInt32 ([1, 0, 0, 0, 0, 0, 0] : Storage) 0 = some 1 ∧
    readUInt32 exampleGLMIGD.mStorage 0 = some 2 ∧
    GLMIGDState.assign ⟨[1, 0, 0, 0, 0, 0, 0], ⟨0, 1, ⟨2, 1⟩⟩, ⟨3, 4, ⟨5, 1⟩, ⟨6, 1⟩⟩⟩
        exampleGLMIGD
      = some ⟨[2, 3, 5, 6, 7, 8, 9], ⟨0, 1, ⟨2, 1⟩⟩, ⟨3, 4, ⟨5, 1⟩, ⟨6, 1⟩⟩⟩ ∧
    ([2, 3, 5, 6, 7, 8, 9] : Storage) ≠ [1, 0, 0, 0, 0, 0, 0] := by
  decide

/-- C11 (amended): `operator=` of the five classes compares nothing.  Whenever
the source buffer is at least as long as the destination buffer, whether or
not the dimension fields agree, the assignment succeeds and every element of
the destination buffer is overwritten by the element of the source buffer at
the same index; the view of the destination is left as it was. -/
theorem assign_overwrites_without_check
    (a1 b1 : LMFIGDState) (a2 b2 : GLMIGDState) (a3 b3 : GLMCGState)
    (a4 b4 : GLMNewtonState) (a5 b5 : MLPIGDState)
    (h1 : b1.mStorage.length ≤ a1.mStorage.length)
    (h2 : b2.mStorage.length ≤ a2.mStorage.length)
    (h3 : b3.mStorage.length ≤ a3.mStorage.length)
    (h4 : b4.mStorage.length ≤ a4.mStorage.length)
    (h5 : b5.mStorage.length ≤ a5.mStorage.length) :
    LMFIGDState.assign b1 a1
      = some { b1 with mStorage := a1.mStorage.take b1.mStorage.length } ∧
    GLMIGDState.assign b2 a2
      = some { b2 with mStorage := a2.mStorage.take b2.mStorage.length } ∧
    GLMCGState.assign b3 a3
      = some { b3 with mStorage := a3.mStorage.take b3.mStorage.length } ∧
    GLMNewtonState.assign b4 a4
      = some { b4 with mStorage := a4.mStorage.take b4.mStorage.length } ∧
    MLPIGDState.assign b5 a5
      = some { b5 with mStorage := a5.mStorage.take b5.mStorage.length } := by
  refine ⟨?_, ?_, ?_, ?_, ?_⟩
  · unfold LMFIGDState.assign
    rw [assignStorage_take _ _ h1]
    rfl
  · unfold GLMIGDState.assign
    rw [assignStorage_take _ _ h2]
    rfl
  · unfold GLMCGState.assign
    rw [assignStorage_take _ _ h3]
    rfl
  · unfold GLMNewtonState.assign
    rw [assignStorage_take _ _ h4]
    rfl
  · unfold MLPIGDState.assign
    rw [assignStorage_take _ _ h5]
    rfl

/-- Witness of `assign_overwrites_without_check`: in each class a state of
the smallest non-trivial dimension is assigned from a longer state of another
dimension. -/
theorem assign_overwrites_without_check_witness :
    LMFIGDState.assign ⟨[1, 1, 1, 0, 0, 0, 0, 0, 0, 0, 0, 0], default, default⟩ exampleLMFIGD
      = some ⟨[2, 1, 1, 3, 4, 5, 6, 7, 9, 8, 2, 1], default, default⟩ ∧
    GLMIGDState.assign ⟨[1, 0, 0, 0, 0, 0, 0], default, default⟩ exampleGLMIGD
      = some ⟨[2, 3, 5, 6, 7, 8, 9], default, default⟩ ∧
    GLMCGState.assign ⟨[0, 0, 0, 0, 0], default, default⟩ exampleGLMCG
      = some ⟨[1, 3, 5, 5, 6], default, default⟩ ∧
    GLMNewtonState.assign ⟨[1, 0, 0, 0, 0, 0], default, default⟩ exampleGLMNewton
      = some ⟨[2, 5, 6, 7, 8, 1], default, default⟩ ∧
    MLPIGDState.assign ⟨[1, 1, 1, 0, 0, 0, 0, 0], default, default⟩ exampleMLPIGD
      = some ⟨[1, unitCounts21, 9, 3, 4, 0, 7, 8], default, default⟩ :=
  assign_overwrites_without_check _ _ _ _ _ _ _ _ _ _ (by decide) (by decide) (by decide)
    (by decide) (by decide)

/-! ## `computeRMSE` on an empty iteration (claim C12) -/

/-- C12 (as stated, refuted): in `exampleLMFIGDAfter 0 18` the row count is 0
and the loss is 18.  `computeRMSE` returns normally and `task.RMSE`, element 7,
which held 7, now holds `sqrt(18 / 0.0) = +∞`: the result of the division by
the zero row count is stored. -/
theorem LMFIGDState_computeRMSE_stores_infinity :
    readUInt64 (exampleLMFIGDAfter 0 18).mStorage (exampleLMFIGDAfter 0 18).algo.numRows
      = some 0 ∧
    (exampleLMFIGDAfter 0 18).task.RMSE = 7 ∧
    LMFIGDState.computeRMSE sqrtOfSquare (exampleLMFIGDAfter 0 18)
      = some ([1, 1, 1, 3, 4, 5, 6].map IEEEDouble.finite ++ [IEEEDouble.posInf] ++
          [0, 18, 5, 6].map IEEEDouble.finite) := by
  decide

/-- C12 (amended): `computeRMSE` does not look at the row count before
dividing.  For every `LMFIGDState` whose `algo.numRows` reads 0 (with
`task.RMSE` bound inside the buffer) it returns normally and overwrites
`task.RMSE` with the value of `sqrt(loss / 0.0)`, which is `+∞` for a positive
loss and NaN otherwise; every other element keeps its value. -/
theorem computeRMSE_unguarded (sqrt : Double → Double) (s : LMFIGDState) (l : Double)
    (hl : readAt s.mStorage s.algo.loss = some l)
    (hn : readUInt64 s.mStorage s.algo.numRows = some 0)
    (hR : s.task.RMSE < s.mStorage.length) :
    ∃ t, LMFIGDState.computeRMSE sqrt s = some t ∧
      t.length = s.mStorage.length ∧
      t[s.task.RMSE]? = some (if 0 < l then IEEEDouble.posInf else IEEEDouble.nan) ∧
      ∀ i, i ≠ s.task.RMSE → t[i]? = (s.mStorage[i]?).map IEEEDouble.finite := by
  refine ⟨_, LMFIGDState_computeRMSE_eq sqrt hl hn hR, by simp, ?_, ?_⟩
  · rw [getElem?_set_map_finite _ _ _ hR, if_pos rfl]
    unfold IEEEDouble.divByCount
    rw [if_pos rfl]
    by_cases h1 : 0 < l
    · rw [if_pos h1, if_pos h1]
      rfl
    · rw [if_neg h1, if_neg h1]
      by_cases h2 : l < 0
      · rw [if_pos h2]
        rfl
      · rw [if_neg h2]
        rfl
  · intro i hi
    rw [getElem?_set_map_finite _ _ _ hR, if_neg hi]

/-- Witness of `computeRMSE_unguarded`: no rows, loss 0; `task.RMSE` becomes
NaN. -/
theorem computeRMSE_unguarded_witness :
    ∃ t, LMFIGDState.computeRMSE sqrtOfSquare (exampleLMFIGDAfter 0 0) = some t ∧
      t.length = 12 ∧
      t[7]? = some (if (0 : Double) < 0 then IEEEDouble.posInf else IEEEDouble.nan) ∧
      ∀ i, i ≠ 7 → t[i]? = ((exampleLMFIGDAfter 0 0).mStorage[i]?).map IEEEDouble.finite :=
  computeRMSE_unguarded sqrtOfSquare (exampleLMFIGDAfter 0 0) 0 (by decide) (by decide)
    (by decide)
/-! ## Layout of `MLPIGDState` (claim C13) -/

/-- C13 (the code against its layout comment): for every layout `L` of the
doubles, whenever the constructor is given an array whose element 0 holds a
stage count `N` and whose unit counts `n_0..n_N` lie inside the array, it
binds the view, with `numberOfStages` at 0, `numbersOfUnits` at 1, `stepsize`
at `N + 2` and `task.model` at `N + 2` as well: the element of `stepsize`, not
`N + 3` as the layout comment has it.  The remaining fields are where the
comment puts them (`numRows` at `N + 3 + S`, `loss` at `N + 4 + S`, `incrModel`
at `N + 5 + S`, with `S` the size of the model).  A write to the first element
of the model is read back through `task.stepsize`. -/
theorem MLPIGDState_rebind_model_on_stepsize (L : Int32Layout) (a : Storage) (N : Nat)
    (hN : readUInt16 a 0 = some N)
    (hu : N = 0 ∨ ∀ k, k ≤ N → (readInt32At L a 1 k).isSome) :
    ∃ t, MLPIGDState.ofArray L a = some t ∧ t.mStorage = a ∧
      t.task.numberOfStages = 0 ∧ t.task.numbersOfUnits = 1 ∧
      t.task.stepsize = N + 2 ∧ t.task.model.data = N + 2 ∧
      t.task.model.data ≠ N + 3 ∧
      t.task.model.size = MLPModel.arraySize N (fun k => (readInt32At L a 1 k).getD 0) ∧
      t.algo.numRows = N + 3 + t.task.model.size ∧
      t.algo.loss = N + 4 + t.task.model.size ∧
      t.algo.incrModel.data = N + 5 + t.task.model.size ∧
      ∀ x st, writeAt a t.task.model.data x = some st →
        readAt st t.task.stepsize = some x := by
  refine ⟨_, MLPIGDState_rebind_of_read (s := ⟨a, default, default⟩) hN hu,
    rfl, rfl, rfl, rfl, rfl, by simp, rfl, rfl, rfl, rfl, ?_⟩
  intro x st h
  dsimp only at h ⊢
  unfold writeAt at h
  by_cases c : N + 2 < a.length
  · rw [if_pos c] at h
    rw [← Option.some.inj h]
    simp [readAt, c]
  · rw [if_neg c] at h
    exact Option.noConfusion h

/-- Witness of `MLPIGDState_rebind_model_on_stepsize`.  On a little-endian
IEEE-754 platform the array that `allocate` lays out for one stage with unit
counts 2 and 1 (10 elements, both counts in the halves of element 1), filled
in the middle of an iteration: `stepsize` and the model of 2 coefficients are
both bound to element 3, `numRows` to 6, `loss` to 7, `incrModel` to 8, and
the value 9 written to the first coefficient is the step size afterwards.
With no stage, on any platform, `stepsize` and the empty model are both bound
to element 2. -/
theorem MLPIGDState_rebind_model_on_stepsize_witness :
    readUInt16 [1, unitCounts21, 9, 3, 4, 0, 7, 8, 5, 5] 0 = some 1 ∧
    readInt32At ieee754 [1, unitCounts21, 9, 3, 4, 0, 7, 8, 5, 5] 1 0 = some 2 ∧
    readInt32At ieee754 [1, unitCounts21, 9, 3, 4, 0, 7, 8, 5, 5] 1 1 = some 1 ∧
    MLPIGDState.arraySize 1 (fun k => [2, 1].getD k 0) = 10 ∧
    MLPIGDState.ofArray ieee754 [1, unitCounts21, 9, 3, 4, 0, 7, 8, 5, 5]
      = some ⟨[1, unitCounts21, 9, 3, 4, 0, 7, 8, 5, 5],
          ⟨0, 1, 3, ⟨3, 2⟩⟩, ⟨6, 7, ⟨8, 2⟩⟩⟩ ∧
    (∃ t, MLPIGDState.ofArray ieee754 [1, unitCounts21, 9, 3, 4, 0, 7, 8, 5, 5] = some t ∧
      t.task.stepsize = 3 ∧ t.task.model.data = 3 ∧
      readAt [1, unitCounts21, 9, 3, 4, 0, 7, 8, 5, 5] t.task.stepsize = some 3 ∧
      readAt [1, unitCounts21, 9, 9, 4, 0, 7, 8, 5, 5] t.task.stepsize = some 9) ∧
    (∀ L : Int32Layout, ∃ t, MLPIGDState.ofArray L [0, 0, 3, 0, 0] = some t ∧
      t.task.stepsize = 2 ∧ t.task.model.data = 2 ∧ t.task.model.size = 0) := by
  refine ⟨by decide, by decide, by decide, by decide, by decide, ?_, ?_⟩
  · obtain ⟨t, h, _, _, _, h1, h2, _, _, _, _, _, h3⟩ :=
      MLPIGDState_rebind_model_on_stepsize ieee754
        [1, unitCounts21, 9, 3, 4, 0, 7, 8, 5, 5] 1 (by decide) (Or.inr (by decide))
    refine ⟨t, h, h1, h2, ?_, ?_⟩
    · rw [h1]
      decide
    · exact h3 9 [1, unitCounts21, 9, 9, 4, 0, 7, 8, 5, 5] (by rw [h2]; decide)
  · intro L
    obtain ⟨t, h, _, _, _, h1, h2, _, h4, _⟩ :=
      MLPIGDState_rebind_model_on_stepsize L [0, 0, 3, 0, 0] 0 (by decide) (Or.inl rfl)
    exact ⟨t, h, h1, h2, by rw [h4]; rfl⟩

/-! ## Layout of `LMFIGDState` (claim C14) -/

/-- C14 (as stated, refuted): the buffer `[0, 2147483647, 1, 0, 0, 0]` is the one
`allocate(0, 2147483647, 1)` yields; its dimensions are non-negative and
`L = 2147483647`.  `rebind` binds `RMSE`, `numRows` and `loss` at `5 + L`,
`6 + L` and `7 + L`, but `arraySize` has wrapped to 6: the fields do not lie
within the indices `0 .. arraySize - 1`. -/
theorem LMFIGDState_layout_wraps :
    (LMFIGDState.ofArray [0, 2147483647, 1, 0, 0, 0]).map
        (fun s => (s.task.RMSE, s.algo.numRows, s.algo.loss))
      = some (2147483652, 2147483653, 2147483654) ∧
    LMFIGDState.arraySize 0 2147483647 1 = 6 ∧
    ¬ 2147483652 < LMFIGDState.arraySize 0 2147483647 1 := by
  decide

/-- C14 (amended): for every `LMFIGDState` whose buffer holds non-negative
dimensions `R`, `C`, `M` small enough that no 32-bit arithmetic wraps
(`8 + 2L < 2^32` on the unsigned side and `5 + R*M < 2^31` on the signed side,
with `L = (R+C)*M`), `rebind` leaves the buffer alone and places `rowDim`,
`colDim`, `maxRank`, `stepsize`, `scaleFactor` at 0 to 4, `matrixU` at
`[5, 5+R*M)`, `matrixV` at `[5+R*M, 5+L)`, `RMSE` at `5+L`, `numRows` at `6+L`,
`loss` at `7+L` and the matrices of `incrModel` at `[8+L, 8+L+R*M)` and
`[8+L+R*M, 8+2L)`.  The indices of the fields, listed field by field, are
exactly `0, 1, ..., arraySize - 1`, each once: the ranges are pairwise disjoint
and cover the buffer. -/
theorem LMFIGDState_layout (s : LMFIGDState) (R C M : Nat)
    (hr : readInt32 s.mStorage 0 = some R) (hc : readInt32 s.mStorage 1 = some C)
    (hm : readInt32 s.mStorage 2 = some M) (h32 : 8 + 2 * ((R + C) * M) < 2 ^ 32)
    (hs : 5 + R * M < 2 ^ 31) :
    ∃ t, LMFIGDState.rebind s = some t ∧ t.mStorage = s.mStorage ∧
      t.task = ⟨0, 1, 2, 3, 4, ⟨⟨5, R, M⟩, ⟨5 + R * M, C, M⟩⟩, 5 + (R + C) * M⟩ ∧
      t.algo = ⟨6 + (R + C) * M, 7 + (R + C) * M,
        ⟨⟨8 + (R + C) * M, R, M⟩, ⟨8 + (R + C) * M + R * M, C, M⟩⟩⟩ ∧
      t.task.model.matrixU.indices = List.range' 5 (R * M) ∧
      t.task.model.matrixV.indices = List.range' (5 + R * M) (C * M) ∧
      t.algo.incrModel.matrixU.indices = List.range' (8 + (R + C) * M) (R * M) ∧
      t.algo.incrModel.matrixV.indices = List.range' (8 + (R + C) * M + R * M) (C * M) ∧
      LMFIGDState.arraySize R C M = 8 + 2 * ((R + C) * M) ∧
      t.fieldIndices = List.range (LMFIGDState.arraySize R C M) ∧
      t.fieldIndices.Nodup := by
  have hA : LMFIGDState.arraySize R C M = 8 + 2 * ((R + C) * M) := by
    have h := (LMFIGDState_arraySize_int (r := R) (c := C) (m := M) (by positivity)
      (by positivity) (by positivity) (by exact_mod_cast h32)).2
    exact_mod_cast h
  have hF : LMFIGDState.fieldIndices
      { mStorage := s.mStorage
        task := ⟨0, 1, 2, 3, 4, ⟨⟨5, R, M⟩, ⟨5 + R * M, C, M⟩⟩, 5 + (R + C) * M⟩
        algo := ⟨6 + (R + C) * M, 7 + (R + C) * M,
          ⟨⟨8 + (R + C) * M, R, M⟩, ⟨8 + (R + C) * M + R * M, C, M⟩⟩⟩ }
      = List.range (8 + 2 * ((R + C) * M)) := by
    rw [← LMFIGDState_layout_indices R C M]
    simp only [LMFIGDState.fieldIndices, MatrixMap.indices, MatrixMap.size, Int.toNat_ofNat]
  refine ⟨_, LMFIGDState_rebind_layout hr hc hm h32 hs, rfl, rfl, rfl, ?_, ?_, ?_, ?_, hA, ?_, ?_⟩
  · simp only [MatrixMap.indices, MatrixMap.size, Int.toNat_ofNat]
  · simp only [MatrixMap.indices, MatrixMap.size, Int.toNat_ofNat]
  · simp only [MatrixMap.indices, MatrixMap.size, Int.toNat_ofNat]
  · simp only [MatrixMap.indices, MatrixMap.size, Int.toNat_ofNat]
  · rw [hA, hF]
  · rw [hF]
    exact List.nodup_range _

/-- Witness of `LMFIGDState_layout` at dimensions `(3, 2, 2)`: `L = 10`, 28
elements. -/
theorem LMFIGDState_layout_witness :
    ∃ t, LMFIGDState.rebind ⟨3 :: 2 :: 2 :: List.replicate 25 0, default, default⟩ = some t ∧
      t.task = ⟨0, 1, 2, 3, 4, ⟨⟨5, 3, 2⟩, ⟨11, 2, 2⟩⟩, 15⟩ ∧
      t.algo = ⟨16, 17, ⟨⟨18, 3, 2⟩, ⟨24, 2, 2⟩⟩⟩ ∧
      t.fieldIndices = List.range 28 := by
  obtain ⟨t, h1, _, h3, h4, _, _, _, _, h9, h10, _⟩ :=
    LMFIGDState_layout ⟨3 :: 2 :: 2 :: List.replicate 25 0, default, default⟩ 3 2 2
      (by decide) (by decide) (by decide) (by decide) (by decide)
  exact ⟨t, h1, h3, h4, by rw [h10, h9]⟩

/-! ## `reset` leaves the task state alone (claim C15) -/

/-- C15: for a state of each of the five classes whose view is bound to its
buffer and whose buffer holds the layout of its dimensions, `reset()` succeeds,
keeps the view and the length, and changes no element outside the AlgoState
part of the layout.  The TaskState fields all lie below `algo.numRows`, the
first AlgoState element (the view is spelled out for each class), so the
dimension fields, `stepsize`, `iteration`, `scaleFactor`, `RMSE`, the model,
the direction and the task gradient are as before.  For `MLPIGDState` the view
is the one `rebind` computes from the unit counts it reads through the
`int32_t` pointer, under any layout `L` of the doubles. -/
theorem reset_keeps_task_state
    (sL : LMFIGDState) (R C M : Nat) (hbL : LMFIGDState.rebind sL = some sL)
    (hrL : readInt32 sL.mStorage 0 = some R) (hcL : readInt32 sL.mStorage 1 = some C)
    (hmL : readInt32 sL.mStorage 2 = some M)
    (hlenL : 8 + 2 * ((R + C) * M) ≤ sL.mStorage.length)
    (h31L : 8 + 2 * ((R + C) * M) < 2 ^ 31)
    (sG : GLMIGDState) (dG : Nat) (hbG : GLMIGDState.rebind sG = some sG)
    (hdG : readUInt32 sG.mStorage 0 = some dG)
    (hlenG : 4 + 3 * dG ≤ sG.mStorage.length) (h32G : 4 + 3 * dG < 2 ^ 32)
    (sC : GLMCGState) (dC : Nat) (hbC : GLMCGState.rebind sC = some sC)
    (hdC : readUInt32 sC.mStorage 0 = some dC)
    (hlenC : 5 + 4 * dC ≤ sC.mStorage.length) (h32C : 5 + 4 * dC < 2 ^ 32)
    (sN : GLMNewtonState) (dN : Nat) (hbN : GLMNewtonState.rebind sN = some sN)
    (hdN : readUInt16 sN.mStorage 0 = some dN)
    (hlenN : 3 + 2 * dN + dN * dN ≤ sN.mStorage.length)
    (L : Int32Layout)
    (sM : MLPIGDState) (N : Nat) (hbM : MLPIGDState.rebind L sM = some sM)
    (hdM : readUInt16 sM.mStorage 0 = some N)
    (hlenM : N + 5 + 2 * sM.task.model.size ≤ sM.mStorage.length) :
    (∃ t, LMFIGDState.reset sL = some t ∧ t.task = sL.task ∧ t.algo = sL.algo ∧
      t.mStorage.length = sL.mStorage.length ∧
      sL.task = ⟨0, 1, 2, 3, 4, ⟨⟨5, R, M⟩, ⟨5 + R * M, C, M⟩⟩, 5 + (R + C) * M⟩ ∧
      sL.algo.numRows = 6 + (R + C) * M ∧
      ∀ i, i < 6 + (R + C) * M ∨ 8 + 2 * ((R + C) * M) ≤ i →
        t.mStorage[i]? = sL.mStorage[i]?) ∧
    (∃ t, GLMIGDState.reset sG = some t ∧ t.task = sG.task ∧ t.algo = sG.algo ∧
      t.mStorage.length = sG.mStorage.length ∧
      sG.task = ⟨0, 1, ⟨2, dG⟩⟩ ∧ sG.algo.numRows = 2 + dG ∧
      ∀ i, i < 2 + dG ∨ 4 + 3 * dG ≤ i → t.mStorage[i]? = sG.mStorage[i]?) ∧
    (∃ t, GLMCGState.reset sC = some t ∧ t.task = sC.task ∧ t.algo = sC.algo ∧
      t.mStorage.length = sC.mStorage.length ∧
      sC.task = ⟨0, 1, 2, ⟨3, dC⟩, ⟨3 + dC, dC⟩, ⟨3 + 2 * dC, dC⟩⟩ ∧
      sC.algo.numRows = 3 + 3 * dC ∧
      ∀ i, i < 3 + 3 * dC ∨ 5 + 4 * dC ≤ i → t.mStorage[i]? = sC.mStorage[i]?) ∧
    (∃ t, GLMNewtonState.reset sN = some t ∧ t.task = sN.task ∧ t.algo = sN.algo ∧
      t.mStorage.length = sN.mStorage.length ∧
      sN.task = ⟨0, ⟨1, dN⟩⟩ ∧ sN.algo.numRows = 1 + dN ∧
      ∀ i, i < 1 + dN ∨ 3 + 2 * dN + dN * dN ≤ i → t.mStorage[i]? = sN.mStorage[i]?) ∧
    (∃ t, MLPIGDState.reset sM = some t ∧ t.task = sM.task ∧ t.algo = sM.algo ∧
      t.mStorage.length = sM.mStorage.length ∧
      sM.task = ⟨0, 1, N + 2, ⟨N + 2, sM.task.model.size⟩⟩ ∧
      sM.algo.numRows = N + 3 + sM.task.model.size ∧
      ∀ i, i < N + 3 + sM.task.model.size ∨ N + 5 + 2 * sM.task.model.size ≤ i →
        t.mStorage[i]? = sM.mStorage[i]?) := by
  refine ⟨?_, ?_, ?_, ?_, ?_⟩
  · obtain ⟨ht, ha⟩ := LMFIGDState_view_of_rebind hbL hrL hcL hmL h31L
    obtain ⟨t, hr, hl, hg⟩ := LMFIGDState_reset_spec hbL hrL hcL hmL hlenL h31L
    refine ⟨_, hr, rfl, rfl, hl, ht, by rw [ha], ?_⟩
    intro i hi
    show t[i]? = _
    rw [hg i, if_neg (by omega), if_neg (by omega)]
  · obtain ⟨ht, ha⟩ := GLMIGDState_view_of_rebind hbG hdG h32G
    obtain ⟨t, hr, hl, hg⟩ := GLMIGDState_reset_spec hbG hdG hlenG h32G
    refine ⟨_, hr, rfl, rfl, hl, ht, by rw [ha], ?_⟩
    intro i hi
    show t[i]? = _
    rw [hg i, if_neg (by omega), if_neg (by omega)]
  · obtain ⟨ht, ha⟩ := GLMCGState_view_of_rebind hbC hdC h32C
    obtain ⟨t, hr, hl, hg⟩ := GLMCGState_reset_spec hbC hdC hlenC h32C
    refine ⟨_, hr, rfl, rfl, hl, ht, by rw [ha], ?_⟩
    intro i hi
    show t[i]? = _
    rw [hg i, if_neg (by omega)]
  · obtain ⟨ht, ha⟩ := GLMNewtonState_view_of_rebind hbN hdN
    obtain ⟨t, hr, hl, hg⟩ := GLMNewtonState_reset_spec hbN hdN hlenN
    refine ⟨_, hr, rfl, rfl, hl, ht, by rw [ha], ?_⟩
    intro i hi
    show t[i]? = _
    rw [hg i, if_neg (by omega)]
  · obtain ⟨ht, ha⟩ := MLPIGDState_view_of_rebind hbM hdM
    obtain ⟨t, hr, hl, hg⟩ := MLPIGDState_reset_spec hbM hdM hlenM
    refine ⟨_, hr, rfl, rfl, hl, ht, by rw [ha], ?_⟩
    intro i hi
    show t[i]? = _
    rw [hg i, if_neg (by omega), if_neg (by omega)]

/-- Witness of `reset_keeps_task_state`: the five example states, each in the
middle of an iteration; the `MLPIGDState` is bound on a little-endian IEEE-754
platform. -/
theorem reset_keeps_task_state_witness :
    (∃ t, LMFIGDState.reset exampleLMFIGD = some t ∧
      ∀ i, i < 9 ∨ 14 ≤ i → t.mStorage[i]? = exampleLMFIGD.mStorage[i]?) ∧
    (∃ t, GLMIGDState.reset exampleGLMIGD = some t ∧
      ∀ i, i < 4 ∨ 10 ≤ i → t.mStorage[i]? = exampleGLMIGD.mStorage[i]?) ∧
    (∃ t, GLMCGState.reset exampleGLMCG = some t ∧
      ∀ i, i < 6 ∨ 9 ≤ i → t.mStorage[i]? = exampleGLMCG.mStorage[i]?) ∧
    (∃ t, GLMNewtonState.reset exampleGLMNewton = some t ∧
      ∀ i, i < 3 ∨ 11 ≤ i → t.mStorage[i]? = exampleGLMNewton.mStorage[i]?) ∧
    (∃ t, MLPIGDState.reset exampleMLPIGD = some t ∧
      ∀ i, i < 6 ∨ 10 ≤ i → t.mStorage[i]? = exampleMLPIGD.mStorage[i]?) := by
  obtain ⟨⟨t1, h1, _, _, _, _, _, g1⟩, ⟨t2, h2, _, _, _, _, _, g2⟩,
      ⟨t3, h3, _, _, _, _, _, g3⟩, ⟨t4, h4, _, _, _, _, _, g4⟩,
      ⟨t5, h5, _, _, _, _, _, g5⟩⟩ :=
    reset_keeps_task_state
      exampleLMFIGD 2 1 1 (by decide) (by decide) (by decide) (by decide) (by decide)
        (by decide)
      exampleGLMIGD 2 (by decide) (by decide) (by decide) (by decide)
      exampleGLMCG 1 (by decide) (by decide) (by decide) (by decide)
      exampleGLMNewton 2 (by decide) (by decide) (by decide)
      ieee754 exampleMLPIGD 1 (by decide) (by decide) (by decide)
  exact ⟨⟨t1, h1, g1⟩, ⟨t2, h2, g2⟩, ⟨t3, h3, g3⟩, ⟨t4, h4, g4⟩, ⟨t5, h5, g5⟩⟩

/-! ## `rebind` is pure and idempotent (claim C16) -/

/-- C16: in each of the five classes, whenever `rebind` of a state `s` yields
`t`, the buffer of `t` is the buffer of `s` element for element, binding again
yields `t` again, and every state `u` whose buffer agrees with that of `s` on
the dimension fields (element 0; elements 0 to 2 for `LMFIGDState`; for
`MLPIGDState` the stage count and the doubles in whose halves the `N + 1` unit
counts lie, elements 0 to `1 + N / 2`, under any layout `L` of the doubles) is
bound to the same offsets, whatever its view was and whatever its other
elements are. -/
theorem rebind_pure_idempotent
    (sL tL : LMFIGDState) (hL : LMFIGDState.rebind sL = some tL)
    (sG tG : GLMIGDState) (hG : GLMIGDState.rebind sG = some tG)
    (sC tC : GLMCGState) (hC : GLMCGState.rebind sC = some tC)
    (sN tN : GLMNewtonState) (hN : GLMNewtonState.rebind sN = some tN)
    (L : Int32Layout)
    (sM tM : MLPIGDState) (hM : MLPIGDState.rebind L sM = some tM) :
    (tL.mStorage = sL.mStorage ∧ LMFIGDState.rebind tL = some tL ∧
      ∀ u : LMFIGDState, u.mStorage[0]? = sL.mStorage[0]? →
        u.mStorage[1]? = sL.mStorage[1]? → u.mStorage[2]? = sL.mStorage[2]? →
        LMFIGDState.rebind u = some ⟨u.mStorage, tL.task, tL.algo⟩) ∧
    (tG.mStorage = sG.mStorage ∧ GLMIGDState.rebind tG = some tG ∧
      ∀ u : GLMIGDState, u.mStorage[0]? = sG.mStorage[0]? →
        GLMIGDState.rebind u = some ⟨u.mStorage, tG.task, tG.algo⟩) ∧
    (tC.mStorage = sC.mStorage ∧ GLMCGState.rebind tC = some tC ∧
      ∀ u : GLMCGState, u.mStorage[0]? = sC.mStorage[0]? →
        GLMCGState.rebind u = some ⟨u.mStorage, tC.task, tC.algo⟩) ∧
    (tN.mStorage = sN.mStorage ∧ GLMNewtonState.rebind tN = some tN ∧
      ∀ u : GLMNewtonState, u.mStorage[0]? = sN.mStorage[0]? →
        GLMNewtonState.rebind u = some ⟨u.mStorage, tN.task, tN.algo⟩) ∧
    (tM.mStorage = sM.mStorage ∧ MLPIGDState.rebind L tM = some tM ∧
      ∃ N, readUInt16 sM.mStorage 0 = some N ∧
        ∀ u : MLPIGDState, (∀ i, i ≤ 1 + N / 2 → u.mStorage[i]? = sM.mStorage[i]?) →
          MLPIGDState.rebind L u = some ⟨u.mStorage, tM.task, tM.algo⟩) := by
  refine ⟨?_, ?_, ?_, ?_, ?_⟩
  · have e := (LMFIGDState_rebind_congr hL (u := sL) rfl rfl rfl).1
    exact ⟨e, (LMFIGDState_rebind_congr hL (u := tL) (by rw [e]) (by rw [e]) (by rw [e])).2,
      fun u h0 h1 h2 => (LMFIGDState_rebind_congr hL h0 h1 h2).2⟩
  · have e := (GLMIGDState_rebind_congr hG (u := sG) rfl).1
    exact ⟨e, (GLMIGDState_rebind_congr hG (u := tG) (by rw [e])).2,
      fun u h0 => (GLMIGDState_rebind_congr hG h0).2⟩
  · have e := (GLMCGState_rebind_congr hC (u := sC) rfl).1
    exact ⟨e, (GLMCGState_rebind_congr hC (u := tC) (by rw [e])).2,
      fun u h0 => (GLMCGState_rebind_congr hC h0).2⟩
  · have e := (GLMNewtonState_rebind_congr hN (u := sN) rfl).1
    exact ⟨e, (GLMNewtonState_rebind_congr hN (u := tN) (by rw [e])).2,
      fun u h0 => (GLMNewtonState_rebind_congr hN h0).2⟩
  · obtain ⟨N, hd⟩ := MLPIGDState_read_of_rebind hM
    have e := (MLPIGDState_rebind_congr hM hd (u := sM) (fun _ _ => rfl)).1
    exact ⟨e, (MLPIGDState_rebind_congr hM hd (u := tM) (fun _ _ => by rw [e])).2,
      N, hd, fun u h0 => (MLPIGDState_rebind_congr hM hd h0).2⟩

/-- Witness of `rebind_pure_idempotent`: the arrays of the five example states,
bound from an unbound view; the result is the example state, and binding it
again changes nothing.  The `MLPIGDState` is bound on a little-endian IEEE-754
platform. -/
theorem rebind_pure_idempotent_witness :
    (LMFIGDState.ofArray exampleLMFIGD.mStorage = some exampleLMFIGD ∧
      LMFIGDState.rebind exampleLMFIGD = some exampleLMFIGD) ∧
    (GLMIGDState.ofArray exampleGLMIGD.mStorage = some exampleGLMIGD ∧
      GLMIGDState.rebind exampleGLMIGD = some exampleGLMIGD) ∧
    (GLMCGState.ofArray exampleGLMCG.mStorage = some exampleGLMCG ∧
      GLMCGState.rebind exampleGLMCG = some exampleGLMCG) ∧
    (GLMNewtonState.ofArray exampleGLMNewton.mStorage = some exampleGLMNewton ∧
      GLMNewtonState.rebind exampleGLMNewton = some exampleGLMNewton) ∧
    (MLPIGDState.ofArray ieee754 exampleMLPIGD.mStorage = some exampleMLPIGD ∧
      MLPIGDState.rebind ieee754 exampleMLPIGD = some exampleMLPIGD) := by
  have hL : LMFIGDState.rebind ⟨exampleLMFIGD.mStorage, default, default⟩
      = some exampleLMFIGD := by decide
  have hG : GLMIGDState.rebind ⟨exampleGLMIGD.mStorage, default, default⟩
      = some exampleGLMIGD := by decide
  have hC : GLMCGState.rebind ⟨exampleGLMCG.mStorage, default, default⟩
      = some exampleGLMCG := by decide
  have hN : GLMNewtonState.rebind ⟨exampleGLMNewton.mStorage, default, default⟩
      = some exampleGLMNewton := by decide
  have hM : MLPIGDState.rebind ieee754 ⟨exampleMLPIGD.mStorage, default, default⟩
      = some exampleMLPIGD := by decide
  obtain ⟨⟨_, a1, _⟩, ⟨_, a2, _⟩, ⟨_, a3, _⟩, ⟨_, a4, _⟩, ⟨_, a5, _⟩⟩ :=
    rebind_pure_idempotent _ _ hL _ _ hG _ _ hC _ _ hN _ _ _ hM
  exact ⟨⟨hL, a1⟩, ⟨hG, a2⟩, ⟨hC, a3⟩, ⟨hN, a4⟩, ⟨hM, a5⟩⟩

/-! ## The view after an assignment (claim C17) -/

/-- C17 (as stated, refuted): `exampleLMFIGDFresh`, allocated for dimensions
`(3, 2, 2)`, is assigned from a state allocated for `(2, 3, 2)`; both buffers
have 28 elements.  After the assignment the buffer stores `(2, 3, 2)` but the
view still has `matrixV` as a `2 x 2` matrix at 11 and the `matrixV` of
`incrModel` at 24, where `rebind` would put `3 x 2` matrices at 9 and 22. -/
theorem LMFIGDState_assign_view_stale :
    LMFIGDState.allocate default 3 2 2 = some exampleLMFIGDFresh ∧
    (LMFIGDState.allocate default 2 3 2).bind (fun src => exampleLMFIGDFresh.assign src)
      = some { exampleLMFIGDFresh with mStorage := 2 :: 3 :: 2 :: List.replicate 25 0 } ∧
    LMFIGDState.rebind
        { exampleLMFIGDFresh with mStorage := 2 :: 3 :: 2 :: List.replicate 25 0 }
      = some { mStorage := 2 :: 3 :: 2 :: List.replicate 25 0
               task := ⟨0, 1, 2, 3, 4, ⟨⟨5, 2, 2⟩, ⟨9, 3, 2⟩⟩, 15⟩
               algo := ⟨16, 17, ⟨⟨18, 2, 2⟩, ⟨22, 3, 2⟩⟩⟩ } ∧
    exampleLMFIGDFresh.task.model.matrixV = ⟨11, 2, 2⟩ ∧
    exampleLMFIGDFresh.algo.incrModel.matrixV = ⟨24, 2, 2⟩ := by
  decide

/-- C17 (amended): for every `LMFIGDState` `dst` and every `src` whose buffer
has the same length, `dst = src` succeeds, `dst` then holds the buffer of
`src`, and the view of `dst` is the view it had before: `operator=` does not
rebind.  That view is the one `rebind` computes from the new buffer whenever
it was bound to the old buffer and `src` stores the same `rowDim`, `colDim`
and `maxRank` (elements 0 to 2) as `dst` did. -/
theorem LMFIGDState_assign_keeps_view (dst src : LMFIGDState)
    (hlen : dst.mStorage.length = src.mStorage.length) :
    ∃ t, LMFIGDState.assign dst src = some t ∧ t.mStorage = src.mStorage ∧
      t.task = dst.task ∧ t.algo = dst.algo ∧
      (LMFIGDState.rebind dst = some dst →
        src.mStorage[0]? = dst.mStorage[0]? → src.mStorage[1]? = dst.mStorage[1]? →
        src.mStorage[2]? = dst.mStorage[2]? → LMFIGDState.rebind t = some t) := by
  refine ⟨{ dst with mStorage := src.mStorage }, ?_, rfl, rfl, rfl, ?_⟩
  · unfold LMFIGDState.assign
    rw [assignStorage_eq _ _ hlen]
    rfl
  · intro hb h0 h1 h2
    exact (LMFIGDState_rebind_congr hb (u := { dst with mStorage := src.mStorage })
      h0 h1 h2).2

/-- Witness of `LMFIGDState_assign_keeps_view`: `exampleLMFIGD` takes over the
buffer of a state of the same dimensions `(2, 1, 1)`; its view is still the
bound one. -/
theorem LMFIGDState_assign_keeps_view_witness :
    ∃ t, LMFIGDState.assign exampleLMFIGD
          ⟨[2, 1, 1, 9, 9, 1, 2, 3, 4, 5, 6, 7, 8, 9], default, default⟩ = some t ∧
      t.mStorage = [2, 1, 1, 9, 9, 1, 2, 3, 4, 5, 6, 7, 8, 9] ∧
      t.task = exampleLMFIGD.task ∧ t.algo = exampleLMFIGD.algo ∧
      LMFIGDState.rebind t = some t := by
  obtain ⟨t, h1, h2, h3, h4, h5⟩ := LMFIGDState_assign_keeps_view exampleLMFIGD
    ⟨[2, 1, 1, 9, 9, 1, 2, 3, 4, 5, 6, 7, 8, 9], default, default⟩ (by decide)
  exact ⟨t, h1, h2, h3, h4, h5 (by decide) (by decide) (by decide) (by decide)⟩

/-! ## `computeRMSE` on a non-empty iteration (claim C18) -/

/-- C18: for every `LMFIGDState` whose `algo.numRows` reads `n > 0` and whose
`algo.loss` is `l ≥ 0` (with `task.RMSE` bound inside the buffer),
`computeRMSE` returns normally, `task.RMSE` holds `sqrt(l / n)` afterwards and
every other element keeps its value.  Where `l / n` is the square of a double
`r ≥ 0` the stored value is exactly `r`, `sqrt` being correctly rounded: for
loss 18 and 2 rows it is exactly 3. -/
theorem computeRMSE_stores_root (sqrt : Double → Double) (hsqrt : ExactOnSquares sqrt)
    (s : LMFIGDState) (l : Double) (n : Nat)
    (hl : readAt s.mStorage s.algo.loss = some l) (hl0 : 0 ≤ l)
    (hn : readUInt64 s.mStorage s.algo.numRows = some n) (hn0 : 0 < n)
    (hR : s.task.RMSE < s.mStorage.length) :
    ∃ t, LMFIGDState.computeRMSE sqrt s = some t ∧
      t.length = s.mStorage.length ∧
      t[s.task.RMSE]? = some (IEEEDouble.finite (sqrt (l / (n : Double)))) ∧
      (∀ r : Double, 0 ≤ r → l / (n : Double) = r * r →
        t[s.task.RMSE]? = some (IEEEDouble.finite r)) ∧
      (l = 18 → n = 2 → t[s.task.RMSE]? = some (IEEEDouble.finite 3)) ∧
      ∀ i, i ≠ s.task.RMSE → t[i]? = (s.mStorage[i]?).map IEEEDouble.finite := by
  have hq : 0 ≤ l / (n : Double) := div_nonneg hl0 (Nat.cast_nonneg n)
  have hv : ((s.mStorage.map IEEEDouble.finite).set s.task.RMSE
      (IEEEDouble.sqrt sqrt (IEEEDouble.divByCount l n)))[s.task.RMSE]?
        = some (IEEEDouble.finite (sqrt (l / (n : Double)))) := by
    rw [getElem?_set_map_finite _ _ _ hR, if_pos rfl]
    unfold IEEEDouble.divByCount
    rw [if_neg (by omega)]
    unfold IEEEDouble.sqrt
    dsimp only
    rw [if_neg (not_lt.mpr hq)]
  have hroot : ∀ r : Double, 0 ≤ r → l / (n : Double) = r * r →
      ((s.mStorage.map IEEEDouble.finite).set s.task.RMSE
        (IEEEDouble.sqrt sqrt (IEEEDouble.divByCount l n)))[s.task.RMSE]?
          = some (IEEEDouble.finite r) := by
    intro r hr hsq
    rw [hv, hsq, hsqrt r hr]
  refine ⟨_, LMFIGDState_computeRMSE_eq sqrt hl hn hR, by simp, hv, hroot, ?_, ?_⟩
  · intro h18 h2
    apply hroot 3 (by norm_num)
    rw [h18, h2]
    norm_num
  · intro i hi
    rw [getElem?_set_map_finite _ _ _ hR, if_neg hi]

/-- Witness of `computeRMSE_stores_root`: loss 18 over 2 rows; `task.RMSE`,
element 7, becomes exactly 3 and the other 11 elements are as before. -/
theorem computeRMSE_stores_root_witness :
    ∃ t, LMFIGDState.computeRMSE sqrtOfSquare (exampleLMFIGDAfter 2 18) = some t ∧
      t[7]? = some (IEEEDouble.finite 3) ∧
      ∀ i, i ≠ 7 → t[i]? = ((exampleLMFIGDAfter 2 18).mStorage[i]?).map IEEEDouble.finite := by
  obtain ⟨t, h1, _, _, _, h5, h6⟩ := computeRMSE_stores_root sqrtOfSquare sqrtOfSquare_exact
    (exampleLMFIGDAfter 2 18) 18 2 (by decide) (by decide) (by decide) (by decide) (by decide)
  exact ⟨t, h1, h5 rfl rfl, h6⟩

/-! ## The constructor on an array initialised by the database (claim C19) -/

/-- C19: when the array handed to the constructor is as the note on the class
assumes (at least 8 elements, the first 3 zero, for `LMFIGDState`; at least 5
elements, the first zero, for the three GLM classes; at least 6 elements, the
first zero, for `MLPIGDState`), the constructor's `rebind` succeeds, every
scalar field (and the unit-count pointer of `MLPIGDState`) is bound to an index
inside the array, and every mapped vector, matrix and model has length 0.  With
no stage `MLPIGDState` reads no unit count, so its view is the same under
every layout `L` of the doubles. -/
theorem ofArray_database_array
    (aL : Storage) (hL : 8 ≤ aL.length) (hL0 : aL[0]? = some 0) (hL1 : aL[1]? = some 0)
    (hL2 : aL[2]? = some 0)
    (aG : Storage) (hG : 5 ≤ aG.length) (hG0 : aG[0]? = some 0)
    (aC : Storage) (hC : 5 ≤ aC.length) (hC0 : aC[0]? = some 0)
    (aN : Storage) (hN : 5 ≤ aN.length) (hN0 : aN[0]? = some 0)
    (L : Int32Layout) (aM : Storage) (hM : 6 ≤ aM.length) (hM0 : aM[0]? = some 0) :
    (∃ s, LMFIGDState.ofArray aL = some s ∧ s.mStorage = aL ∧
      (∀ i ∈ [s.task.rowDim, s.task.colDim, s.task.maxRank, s.task.stepsize,
          s.task.scaleFactor, s.task.RMSE, s.algo.numRows, s.algo.loss], i < aL.length) ∧
      ∀ m ∈ [s.task.model.matrixU, s.task.model.matrixV, s.algo.incrModel.matrixU,
          s.algo.incrModel.matrixV], m.size = 0) ∧
    (∃ s, GLMIGDState.ofArray aG = some s ∧ s.mStorage = aG ∧
      (∀ i ∈ [s.task.dimension, s.task.stepsize, s.algo.numRows, s.algo.loss],
        i < aG.length) ∧
      ∀ v ∈ [s.task.model, s.algo.gradient, s.algo.incrModel], v.size = 0) ∧
    (∃ s, GLMCGState.ofArray aC = some s ∧ s.mStorage = aC ∧
      (∀ i ∈ [s.task.dimension, s.task.iteration, s.task.stepsize, s.algo.numRows,
          s.algo.loss], i < aC.length) ∧
      ∀ v ∈ [s.task.model, s.task.direction, s.task.gradient, s.algo.incrGradient],
        v.size = 0) ∧
    (∃ s, GLMNewtonState.ofArray aN = some s ∧ s.mStorage = aN ∧
      (∀ i ∈ [s.task.dimension, s.algo.numRows, s.algo.loss], i < aN.length) ∧
      (∀ v ∈ [s.task.model, s.algo.gradient], v.size = 0) ∧ s.algo.hessian.size = 0) ∧
    (∃ s, MLPIGDState.ofArray L aM = some s ∧ s.mStorage = aM ∧
      (∀ i ∈ [s.task.numberOfStages, s.task.numbersOfUnits, s.task.stepsize,
          s.algo.numRows, s.algo.loss], i < aM.length) ∧
      ∀ m ∈ [s.task.model, s.algo.incrModel], m.size = 0) := by
  refine ⟨⟨_, LMFIGDState_ofArray_zero aL hL0 hL1 hL2, rfl, ?_, ?_⟩,
    ⟨_, GLMIGDState_ofArray_zero aG hG0, rfl, ?_, ?_⟩,
    ⟨_, GLMCGState_ofArray_zero aC hC0, rfl, ?_, ?_⟩,
    ⟨_, GLMNewtonState_ofArray_zero aN hN0, rfl, ?_, ?_, rfl⟩,
    ⟨_, MLPIGDState_ofArray_zero L aM hM0, rfl, ?_, ?_⟩⟩
  · intro i hi
    simp only [List.mem_cons, List.mem_singleton, List.not_mem_nil, or_false] at hi
    omega
  · intro m hm
    simp only [List.mem_cons, List.mem_singleton, List.not_mem_nil, or_false] at hm
    rcases hm with rfl | rfl | rfl | rfl <;> rfl
  · intro i hi
    simp only [List.mem_cons, List.mem_singleton, List.not_mem_nil, or_false] at hi
    omega
  · intro m hm
    simp only [List.mem_cons, List.mem_singleton, List.not_mem_nil, or_false] at hm
    rcases hm with rfl | rfl | rfl <;> rfl
  · intro i hi
    simp only [List.mem_cons, List.mem_singleton, List.not_mem_nil, or_false] at hi
    omega
  · intro m hm
    simp only [List.mem_cons, List.mem_singleton, List.not_mem_nil, or_false] at hm
    rcases hm with rfl | rfl | rfl | rfl <;> rfl
  · intro i hi
    simp only [List.mem_cons, List.mem_singleton, List.not_mem_nil, or_false] at hi
    omega
  · intro m hm
    simp only [List.mem_cons, List.mem_singleton, List.not_mem_nil, or_false] at hm
    rcases hm with rfl | rfl <;> rfl
  · intro i hi
    simp only [List.mem_cons, List.mem_singleton, List.not_mem_nil, or_false] at hi
    omega
  · intro m hm
    simp only [List.mem_cons, List.mem_singleton, List.not_mem_nil, or_false] at hm
    rcases hm with rfl | rfl <;> rfl

/-- Witness of `ofArray_database_array`: arrays of exactly the assumed length
whose elements after the dimension fields are not zero. -/
theorem ofArray_database_array_witness :
    (∃ s, LMFIGDState.ofArray [0, 0, 0, 7, 7, 7, 7, 7] = some s ∧
      s.mStorage = [0, 0, 0, 7, 7, 7, 7, 7]) ∧
    (∃ s, GLMIGDState.ofArray [0, 9, 9, 9, 9] = some s ∧ s.mStorage = [0, 9, 9, 9, 9]) ∧
    (∃ s, GLMCGState.ofArray [0, 9, 9, 9, 9] = some s ∧ s.mStorage = [0, 9, 9, 9, 9]) ∧
    (∃ s, GLMNewtonState.ofArray [0, 9, 9, 9, 9] = some s ∧
      s.mStorage = [0, 9, 9, 9, 9]) ∧
    (∃ s, MLPIGDState.ofArray ieee754 [0, 9, 9, 9, 9, 9] = some s ∧
      s.mStorage = [0, 9, 9, 9, 9, 9]) := by
  obtain ⟨⟨s1, a1, b1, _⟩, ⟨s2, a2, b2, _⟩, ⟨s3, a3, b3, _⟩, ⟨s4, a4, b4, _⟩,
      ⟨s5, a5, b5, _⟩⟩ :=
    ofArray_database_array [0, 0, 0, 7, 7, 7, 7, 7] (by decide) (by decide) (by decide)
      (by decide)
      [0, 9, 9, 9, 9] (by decide) (by decide)
      [0, 9, 9, 9, 9] (by decide) (by decide)
      [0, 9, 9, 9, 9] (by decide) (by decide)
      ieee754 [0, 9, 9, 9, 9, 9] (by decide) (by decide)
  exact ⟨⟨s1, a1, b1⟩, ⟨s2, a2, b2⟩, ⟨s3, a3, b3⟩, ⟨s4, a4, b4⟩, ⟨s5, a5, b5⟩⟩

/-! ## Layout of `GLMIGDState` (claim C20) -/

/-- C20 (as stated, refuted): for the array of `exampleGLMIGD`, of dimension 2,
`rebind` binds `gradient` at `4 + dim = 6` and `incrModel` at `4 + 2*dim = 8`,
not at `4 + dim`.  And for an array whose dimension field is `4294967294` the
`uint32_t` index `2 + dim` of `numRows` wraps to 0. -/
theorem GLMIGDState_incrModel_after_gradient :
    (GLMIGDState.ofArray [2, 3, 5, 6, 7, 8, 9, 1, 2, 4]).map
        (fun s => (s.algo.gradient, s.algo.incrModel))
      = some (⟨6, 2⟩, ⟨8, 2⟩) ∧
    (8 : Nat) ≠ 4 + 2 ∧
    (GLMIGDState.ofArray [4294967294]).map (fun s => s.algo.numRows) = some 0 ∧
    (0 : Nat) ≠ 2 + 4294967294 := by
  decide

/-- C20 (amended): for every `GLMIGDState` whose buffer stores the dimension
`dim`, with `4 + 2*dim < 2^32` (no 32-bit wraparound in the index arithmetic),
`rebind` leaves the buffer alone and binds `dimension` at 0, `stepsize` at 1,
`model` at 2, `numRows` at `2 + dim`, `loss` at `3 + dim`, `gradient` at
`4 + dim` and `incrModel` at `4 + 2*dim`, the three vectors with length
`dim`. -/
theorem GLMIGDState_layout (s : GLMIGDState) (dim : Nat)
    (hd : readUInt32 s.mStorage 0 = some dim) (h32 : 4 + 2 * dim < 2 ^ 32) :
    GLMIGDState.rebind s = some
      { mStorage := s.mStorage
        task := { dimension := 0, stepsize := 1, model := ⟨2, dim⟩ }
        algo := { numRows := 2 + dim, loss := 3 + dim, gradient := ⟨4 + dim, dim⟩,
                  incrModel := ⟨4 + 2 * dim, dim⟩ } } := by
  rw [GLMIGDState_rebind_of_read hd]
  have e1 : (2 + dim) % 2 ^ 32 = 2 + dim := Nat.mod_eq_of_lt (by omega)
  have e2 : (3 + dim) % 2 ^ 32 = 3 + dim := Nat.mod_eq_of_lt (by omega)
  have e3 : (4 + dim) % 2 ^ 32 = 4 + dim := Nat.mod_eq_of_lt (by omega)
  have e4 : (4 + dim * 2 % 2 ^ 32) % 2 ^ 32 = 4 + 2 * dim := by omega
  rw [e1, e2, e3, e4]

/-- Witness of `GLMIGDState_layout`: a buffer of dimension 4, as `allocate(4)`
leaves it (16 elements); `incrModel` is bound at 12. -/
theorem GLMIGDState_layout_witness :
    GLMIGDState.rebind ⟨4 :: List.replicate 15 0, default, default⟩ = some
      { mStorage := 4 :: List.replicate 15 0
        task := { dimension := 0, stepsize := 1, model := ⟨2, 4⟩ }
        algo := { numRows := 2 + 4, loss := 3 + 4, gradient := ⟨4 + 4, 4⟩,
                  incrModel := ⟨4 + 2 * 4, 4⟩ } } :=
  GLMIGDState_layout ⟨4 :: List.replicate 15 0, default, default⟩ 4 (by decide) (by decide)

/-! ## Merge is associative and commutative (claim C21) -/

/-- C21: for partial states `A`, `B`, `C` of an IGD variant that share the
TaskState (`stepsize` and `model`), and for partial states `X`, `Y`, `Z` of a
batch variant that share the TaskState, every merge involved succeeds,
`merge(A, B) = merge(B, A)` and `merge(merge(A, B), C) = merge(A, merge(B, C))`,
and likewise for `X`, `Y`, `Z`.  In the merged state `numRows` and `loss` are
the sums and each coefficient of `incrModel` is the model coefficient plus the
count-weighted mean of the displacements. -/
theorem merge_assoc_comm (A B C : IGDPartial)
    (hAB : A.stepsize = B.stepsize ∧ A.model = B.model)
    (hBC : B.stepsize = C.stepsize ∧ B.model = C.model)
    (X Y Z : BatchPartial) (hXY : X.task = Y.task) (hYZ : Y.task = Z.task) :
    (A.merge B = some
        { stepsize := A.stepsize
          model := A.model
          numRows := A.numRows + B.numRows
          loss := A.loss + B.loss
          incrModel := mergeIncrModel A.numRows B.numRows A.model A.incrModel B.incrModel } ∧
      A.merge B = B.merge A ∧
      (A.merge B).bind (fun AB => AB.merge C) = (B.merge C).bind (fun BC => A.merge BC) ∧
      ((A.merge B).bind (fun AB => AB.merge C)).isSome = true) ∧
    (X.merge Y = some
        { task := X.task
          numRows := X.numRows + Y.numRows
          loss := X.loss + Y.loss
          accumulator := addAccumulators X.accumulator Y.accumulator } ∧
      X.merge Y = Y.merge X ∧
      (X.merge Y).bind (fun XY => XY.merge Z) = (Y.merge Z).bind (fun YZ => X.merge YZ) ∧
      ((X.merge Y).bind (fun XY => XY.merge Z)).isSome = true) := by
  obtain ⟨s1, m1⟩ := hAB
  obtain ⟨s2, m2⟩ := hBC
  have eAB : A.merge B = some
      { stepsize := A.stepsize
        model := A.model
        numRows := A.numRows + B.numRows
        loss := A.loss + B.loss
        incrModel := mergeIncrModel A.numRows B.numRows A.model A.incrModel B.incrModel } := by
    unfold IGDPartial.merge
    rw [if_pos ⟨s1, m1⟩]
  have eBA : B.merge A = some
      { stepsize := A.stepsize
        model := A.model
        numRows := A.numRows + B.numRows
        loss := A.loss + B.loss
        incrModel := mergeIncrModel A.numRows B.numRows A.model A.incrModel B.incrModel } := by
    unfold IGDPartial.merge
    rw [if_pos ⟨s1.symm, m1.symm⟩, ← s1, ← m1, Nat.add_comm B.numRows, add_comm B.loss,
      mergeIncrModel_comm B.numRows]
  have eBC : B.merge C = some
      { stepsize := A.stepsize
        model := A.model
        numRows := B.numRows + C.numRows
        loss := B.loss + C.loss
        incrModel := mergeIncrModel B.numRows C.numRows A.model B.incrModel C.incrModel } := by
    unfold IGDPartial.merge
    rw [if_pos ⟨s2, m2⟩, ← s1, ← m1]
  have eL : (A.merge B).bind (fun AB => AB.merge C) = some
      { stepsize := A.stepsize
        model := A.model
        numRows := A.numRows + (B.numRows + C.numRows)
        loss := A.loss + (B.loss + C.loss)
        incrModel := mergeIncrModel A.numRows (B.numRows + C.numRows) A.model A.incrModel
          (mergeIncrModel B.numRows C.numRows A.model B.incrModel C.incrModel) } := by
    rw [eAB, Option.some_bind]
    unfold IGDPartial.merge
    dsimp only
    rw [if_pos ⟨s1.trans s2, m1.trans m2⟩, Nat.add_assoc, add_assoc, mergeIncrModel_assoc]
  have eR : (B.merge C).bind (fun BC => A.merge BC) = some
      { stepsize := A.stepsize
        model := A.model
        numRows := A.numRows + (B.numRows + C.numRows)
        loss := A.loss + (B.loss + C.loss)
        incrModel := mergeIncrModel A.numRows (B.numRows + C.numRows) A.model A.incrModel
          (mergeIncrModel B.numRows C.numRows A.model B.incrModel C.incrModel) } := by
    rw [eBC, Option.some_bind]
    unfold IGDPartial.merge
    dsimp only
    rw [if_pos ⟨rfl, rfl⟩]
  have fXY : X.merge Y = some
      { task := X.task
        numRows := X.numRows + Y.numRows
        loss := X.loss + Y.loss
        accumulator := addAccumulators X.accumulator Y.accumulator } := by
    unfold BatchPartial.merge
    rw [if_pos hXY]
  have fYX : Y.merge X = some
      { task := X.task
        numRows := X.numRows + Y.numRows
        loss := X.loss + Y.loss
        accumulator := addAccumulators X.accumulator Y.accumulator } := by
    unfold BatchPartial.merge
    rw [if_pos hXY.symm, ← hXY, Nat.add_comm Y.numRows, add_comm Y.loss,
      addAccumulators_comm Y.accumulator]
  have fYZ : Y.merge Z = some
      { task := X.task
        numRows := Y.numRows + Z.numRows
        loss := Y.loss + Z.loss
        accumulator := addAccumulators Y.accumulator Z.accumulator } := by
    unfold BatchPartial.merge
    rw [if_pos hYZ, ← hXY]
  have fL : (X.merge Y).bind (fun XY => XY.merge Z) = some
      { task := X.task
        numRows := X.numRows + (Y.numRows + Z.numRows)
        loss := X.loss + (Y.loss + Z.loss)
        accumulator := addAccumulators X.accumulator
          (addAccumulators Y.accumulator Z.accumulator) } := by
    rw [fXY, Option.some_bind]
    unfold BatchPartial.merge
    dsimp only
    rw [if_pos (hXY.trans hYZ), Nat.add_assoc, add_assoc, addAccumulators_assoc]
  have fR : (Y.merge Z).bind (fun YZ => X.merge YZ) = some
      { task := X.task
        numRows := X.numRows + (Y.numRows + Z.numRows)
        loss := X.loss + (Y.loss + Z.loss)
        accumulator := addAccumulators X.accumulator
          (addAccumulators Y.accumulator Z.accumulator) } := by
    rw [fYZ, Option.some_bind]
    unfold BatchPartial.merge
    dsimp only
    rw [if_pos rfl]
  exact ⟨⟨eAB, by rw [eAB, eBA], by rw [eL, eR], by rw [eL]; rfl⟩,
    ⟨fXY, by rw [fXY, fYX], by rw [fL, fR], by rw [fL]; rfl⟩⟩

/-- Witness of `merge_assoc_comm`: three partial states of an IGD variant over
the model `(1, 2)` with 1, 3 and 4 rows (the first two merge to 4 rows, loss
12 and `incrModel = (6, 5)`), and three partial states of a batch variant with
2, 0 and 5 rows. -/
theorem merge_assoc_comm_witness :
    (IGDPartial.merge ⟨3, [1, 2], 1, 5, [3, 2]⟩ ⟨3, [1, 2], 3, 7, [7, 6]⟩
        = some ⟨3, [1, 2], 4, 12, [6, 5]⟩ ∧
      IGDPartial.merge ⟨3, [1, 2], 1, 5, [3, 2]⟩ ⟨3, [1, 2], 3, 7, [7, 6]⟩
        = IGDPartial.merge ⟨3, [1, 2], 3, 7, [7, 6]⟩ ⟨3, [1, 2], 1, 5, [3, 2]⟩ ∧
      (IGDPartial.merge ⟨3, [1, 2], 1, 5, [3, 2]⟩ ⟨3, [1, 2], 3, 7, [7, 6]⟩).bind
          (fun AB => AB.merge ⟨3, [1, 2], 4, 2, [10, -1]⟩)
        = (IGDPartial.merge ⟨3, [1, 2], 3, 7, [7, 6]⟩ ⟨3, [1, 2], 4, 2, [10, -1]⟩).bind
          (fun BC => IGDPartial.merge ⟨3, [1, 2], 1, 5, [3, 2]⟩ BC)) ∧
    (BatchPartial.merge ⟨[1, 3, 4], 2, 5, [1, 1]⟩ ⟨[1, 3, 4], 0, 0, [0, 0]⟩
        = BatchPartial.merge ⟨[1, 3, 4], 0, 0, [0, 0]⟩ ⟨[1, 3, 4], 2, 5, [1, 1]⟩ ∧
      (BatchPartial.merge ⟨[1, 3, 4], 2, 5, [1, 1]⟩ ⟨[1, 3, 4], 0, 0, [0, 0]⟩).bind
          (fun XY => XY.merge ⟨[1, 3, 4], 5, 1, [2, -3]⟩)
        = (BatchPartial.merge ⟨[1, 3, 4], 0, 0, [0, 0]⟩ ⟨[1, 3, 4], 5, 1, [2, -3]⟩).bind
          (fun YZ => BatchPartial.merge ⟨[1, 3, 4], 2, 5, [1, 1]⟩ YZ)) := by
  obtain ⟨⟨_, h1, h2, _⟩, ⟨_, g1, g2, _⟩⟩ :=
    merge_assoc_comm ⟨3, [1, 2], 1, 5, [3, 2]⟩ ⟨3, [1, 2], 3, 7, [7, 6]⟩
      ⟨3, [1, 2], 4, 2, [10, -1]⟩ (by decide) (by decide)
      ⟨[1, 3, 4], 2, 5, [1, 1]⟩ ⟨[1, 3, 4], 0, 0, [0, 0]⟩ ⟨[1, 3, 4], 5, 1, [2, -3]⟩
      (by decide) (by decide)
  refine ⟨⟨?_, h1, h2⟩, ⟨g1, g2⟩⟩
  norm_num [IGDPartial.merge, mergeIncrModel, mergeCoefficient]

/-! ## The layouts of the GLM states partition the buffer (claim C22) -/

/-- C22 (as stated, refuted): `GLMNewtonState::allocate(65535)` yields a buffer of
`arraySize(65535) = 2` elements, in which `rebind` binds `numRows` at 65536 and
the other fields further on, past the end.  Likewise `GLMIGDState::allocate`
for `dim = 1431655765` yields 3 elements with `numRows` at 1431655767, and
`GLMCGState::allocate` for `dim = 1073741823` yields 1 element with `iteration`
at 1. -/
theorem GLM_fields_past_wrapped_buffer :
    GLMNewtonState.allocate default 65535
      = some ⟨[65535, 0], ⟨0, ⟨1, 65535⟩⟩,
          ⟨65536, 65537, ⟨65538, 65535⟩, ⟨131073, 65535, 65535⟩⟩⟩ ∧
    GLMNewtonState.arraySize 65535 = 2 ∧
    (GLMIGDState.allocate default 1431655765).map
        (fun s => (s.mStorage.length, s.algo.numRows)) = some (3, 1431655767) ∧
    GLMIGDState.arraySize 1431655765 = 3 ∧
    (GLMCGState.allocate default 1073741823).map
        (fun s => (s.mStorage.length, s.task.iteration)) = some (1, 1) ∧
    GLMCGState.arraySize 1073741823 = 1 := by
  decide

/-- C22 (amended): for a `GLMIGDState`, a `GLMCGState` and a `GLMNewtonState`
whose buffer stores a dimension `dim` small enough that no 32-bit arithmetic
wraps (`4 + 3*dim < 2^32`, `5 + 4*dim < 2^32`, `3 + (dim+2)*dim < 2^31`),
`rebind` succeeds and the indices of its fields, listed field by field
(scalars as one index, vectors as `dim` consecutive indices, the hessian as
`dim*dim` consecutive indices), are exactly `0, 1, ..., arraySize(dim) - 1`,
each once: no field overlaps another, none reaches past `arraySize(dim)`, and
no element below it is left out. -/
theorem GLM_layouts_partition
    (sG : GLMIGDState) (dG : Nat) (hdG : readUInt32 sG.mStorage 0 = some dG)
    (h32G : 4 + 3 * dG < 2 ^ 32)
    (sC : GLMCGState) (dC : Nat) (hdC : readUInt32 sC.mStorage 0 = some dC)
    (h32C : 5 + 4 * dC < 2 ^ 32)
    (sN : GLMNewtonState) (dN : Nat) (hdN : readUInt16 sN.mStorage 0 = some dN)
    (h31N : 3 + (dN + 2) * dN < 2 ^ 31) :
    (∃ t, GLMIGDState.rebind sG = some t ∧
      t.fieldIndices = List.range (GLMIGDState.arraySize dG) ∧ t.fieldIndices.Nodup ∧
      GLMIGDState.arraySize dG = 4 + 3 * dG) ∧
    (∃ t, GLMCGState.rebind sC = some t ∧
      t.fieldIndices = List.range (GLMCGState.arraySize dC) ∧ t.fieldIndices.Nodup ∧
      GLMCGState.arraySize dC = 5 + 4 * dC) ∧
    (∃ t, GLMNewtonState.rebind sN = some t ∧
      t.fieldIndices = List.range (GLMNewtonState.arraySize dN) ∧ t.fieldIndices.Nodup ∧
      GLMNewtonState.arraySize dN = 3 + (dN + 2) * dN) := by
  have aG : GLMIGDState.arraySize dG = 4 + 3 * dG := Nat.mod_eq_of_lt h32G
  have aC : GLMCGState.arraySize dC = 5 + 4 * dC := Nat.mod_eq_of_lt h32C
  have aN : GLMNewtonState.arraySize dN = 3 + (dN + 2) * dN :=
    GLMNewtonState_arraySize_of_lt h31N
  refine ⟨⟨_, GLMIGDState_rebind_nowrap hdG h32G, ?_, ?_, aG⟩,
    ⟨_, GLMCGState_rebind_nowrap hdC h32C, ?_, ?_, aC⟩,
    ⟨_, GLMNewtonState_rebind_of_read hdN, ?_, ?_, aN⟩⟩
  · rw [aG, GLMIGDState_layout_indices]
  · rw [GLMIGDState_layout_indices]
    exact List.nodup_range _
  · rw [aC, GLMCGState_layout_indices]
  · rw [GLMCGState_layout_indices]
    exact List.nodup_range _
  · rw [aN, GLMNewtonState_layout_indices]
  · rw [GLMNewtonState_layout_indices]
    exact List.nodup_range _

/-- Witness of `GLM_layouts_partition`: the three example states, of dimensions
2, 1 and 2, with 10, 9 and 11 elements. -/
theorem GLM_layouts_partition_witness :
    (GLMIGDState.rebind exampleGLMIGD = some exampleGLMIGD ∧
      exampleGLMIGD.fieldIndices = List.range 10) ∧
    (GLMCGState.rebind exampleGLMCG = some exampleGLMCG ∧
      exampleGLMCG.fieldIndices = List.range 9) ∧
    (GLMNewtonState.rebind exampleGLMNewton = some exampleGLMNewton ∧
      exampleGLMNewton.fieldIndices = List.range 11) := by
  obtain ⟨⟨t1, a1, b1, _, c1⟩, ⟨t2, a2, b2, _, c2⟩, ⟨t3, a3, b3, _, c3⟩⟩ :=
    GLM_layouts_partition exampleGLMIGD 2 (by decide) (by decide)
      exampleGLMCG 1 (by decide) (by decide)
      exampleGLMNewton 2 (by decide) (by decide)
  have e1 : GLMIGDState.rebind exampleGLMIGD = some exampleGLMIGD := by decide
  have e2 : GLMCGState.rebind exampleGLMCG = some exampleGLMCG := by decide
  have e3 : GLMNewtonState.rebind exampleGLMNewton = some exampleGLMNewton := by decide
  rw [e1] at a1
  rw [e2] at a2
  rw [e3] at a3
  rw [← Option.some.inj a1, c1] at b1
  rw [← Option.some.inj a2, c2] at b2
  rw [← Option.some.inj a3, c3] at b3
  exact ⟨⟨e1, b1⟩, ⟨e2, b2⟩, ⟨e3, b3⟩⟩

/-! ## 32-bit arithmetic of `GLMNewtonState::arraySize` (claim C23) -/

/-- C23 (as stated, refuted): for `dim = 65535` the product
`(dim + 2) * dim = 4294967295` does not fit a signed 32-bit `int` (as a
two's-complement value it is `-1`), and `arraySize` returns 2 where
`3 + (dim+2)*dim` is 4294967298.  The product already leaves the `int` range
at `dim = 46340`. -/
theorem GLMNewtonState_arraySize_wraps :
    toInt32 ((65535 + 2) * 65535) = -1 ∧
    GLMNewtonState.arraySize 65535 = 2 ∧
    (GLMNewtonState.arraySize 65535 : Int) ≠ 3 + (65535 + 2) * 65535 ∧
    (2 : Int) ^ 31 ≤ (46340 + 2) * 46340 ∧
    toInt32 ((46340 + 2) * 46340) ≠ (46340 + 2) * 46340 := by
  decide

/-- C23 (amended): for every `dim` of the parameter type `uint16_t` with
`dim ≤ 46339` neither the signed product `(dim + 2) * dim`, nor the signed sum
`3 + (dim + 2) * dim`, nor the conversion to `uint32_t` wraps, and `arraySize`
returns exactly `3 + (dim+2)*dim`.  The bound is sharp: for every larger `dim`
of the type the product is at least `2^31` and does not fit the `int`. -/
theorem GLMNewtonState_arraySize_exact_range (dim : Nat) (h16 : dim < 2 ^ 16) :
    (dim ≤ 46339 →
      toInt32 (((dim : Int) + 2) * (dim : Int)) = ((dim : Int) + 2) * (dim : Int) ∧
      toInt32 (3 + ((dim : Int) + 2) * (dim : Int)) = 3 + ((dim : Int) + 2) * (dim : Int) ∧
      GLMNewtonState.arraySize dim = 3 + (dim + 2) * dim) ∧
    (46340 ≤ dim →
      (2 : Int) ^ 31 ≤ ((dim : Int) + 2) * (dim : Int) ∧
      toInt32 (((dim : Int) + 2) * (dim : Int)) ≠ ((dim : Int) + 2) * (dim : Int)) := by
  constructor
  · intro hle
    have hp : (dim + 2) * dim ≤ (46339 + 2) * 46339 :=
      Nat.mul_le_mul (by omega) hle
    have hc : (((dim + 2) * dim : Nat) : Int) = ((dim : Int) + 2) * (dim : Int) := by
      push_cast
      rfl
    refine ⟨?_, ?_, GLMNewtonState_arraySize_of_lt (by omega)⟩
    · rw [← hc]
      exact toInt32_of_range (by omega) (by omega)
    · rw [← hc]
      exact toInt32_of_range (by omega) (by omega)
  · intro hge
    have hp : (46340 + 2) * 46340 ≤ (dim + 2) * dim :=
      Nat.mul_le_mul (by omega) hge
    have hq : (dim + 2) * dim ≤ (65535 + 2) * 65535 :=
      Nat.mul_le_mul (by omega) (by omega)
    have hc : (((dim + 2) * dim : Nat) : Int) = ((dim : Int) + 2) * (dim : Int) := by
      push_cast
      rfl
    rw [← hc]
    generalize (dim + 2) * dim = p at hp hq ⊢
    constructor
    · omega
    · unfold toInt32
      omega

/-- Witness of `GLMNewtonState_arraySize_exact_range` at the last dimension
without overflow, `dim = 46339`, where the size is 2147395602. -/
theorem GLMNewtonState_arraySize_exact_range_witness :
    GLMNewtonState.arraySize 46339 = 3 + (46339 + 2) * 46339 ∧
    3 + (46339 + 2) * 46339 = 2147395602 :=
  ⟨((GLMNewtonState_arraySize_exact_range 46339 (by decide)).1 (by decide)).2.2, by decide⟩

end madlib.modules.convex
